import Mathlib

/-!
# PCP time-series ingestion core: the Redis schema layer

A shallow embedding of `src/libpcp_web/src/schema.c` and of the Redis module
of `pmproxy` (`src/pmproxy/src/redis.c`), with the descriptor PDUs of libpcp
(`src/libpcp/src/p_desc.c`) and the help-text listing of `pmdumplog`
(`src/pmdumplog/pmdumplog.c`).  Stateful C code is rendered as
explicit state passing; every side effect that leaves a function (a store
request, a log message, the call of a completion callback, the release of a
baton) is recorded, in program order, in a list of `Event`s.
-/

namespace Pcp

/-! ## Strings, hashes and command frames -/

/-- A 20-octet content hash (`unsigned char[20]`), kept as its list of octets. -/
abbrev Hash := List Nat

/-- One lowercase hexadecimal digit. -/
def hexDigit (n : Nat) : Char :=
  match n % 16 with
  | 0 => '0' | 1 => '1' | 2 => '2' | 3 => '3' | 4 => '4' | 5 => '5' | 6 => '6' | 7 => '7'
  | 8 => '8' | 9 => '9' | 10 => 'a' | 11 => 'b' | 12 => 'c' | 13 => 'd' | 14 => 'e'
  | _ => 'f'

/-- Modelled from the spec: `pmwebapi_hash_str` lives in util.c, which is not
among the sources.  Section 4.1: the canonical textual form of a hash is a
lowercase hex string, two digits per octet (40 characters for 20 octets). -/
def pmwebapi_hash_str (h : Hash) : String :=
  String.mk (h.flatMap fun b => [hexDigit (b / 16), hexDigit b])

/-- A string argument of `sdscatfmt`.  An `sds` carries its length in a header
stored in front of the characters; a plain character buffer (`char buf[42]`)
is only NUL terminated. -/
inductive StrArg where
  | sds (s : String)
  | buf (s : String)
deriving DecidableEq, Repr

/-- The `%s` conversion of `sdscatfmt` (sds.c is not among the sources): the
argument is read as a C string, up to its terminating NUL, which both kinds of
argument provide. -/
def StrArg.fmt_s : StrArg → String
  | .sds s => s
  | .buf s => s

/-- The `%S` conversion of `sdscatfmt`: the argument is read as an `sds`, the
number of characters appended being taken from the sds header in front of the
pointer.  A plain buffer has no such header, so the source does not determine
what is appended: `none`. -/
def StrArg.fmt_S : StrArg → Option String
  | .sds s => some s
  | .buf _ => none

/-- One bulk element of a command frame. -/
inductive Arg where
  /-- Text, appended by `redis_param_str` or `redis_param_sds`. -/
  | str (s : String)
  /-- The 20 raw octets of a hash, appended by `redis_param_sha` (or by
  `redis_param_sds` on an sds holding a hash). -/
  | sha (h : Hash)
  /-- A bulk element whose content the source does not determine. -/
  | unspecified
deriving DecidableEq, Repr

/-- A command frame under construction: the element count declared in its
header by `redis_command` and the bulk elements appended so far. -/
structure Cmd where
  count : Nat
  params : List Arg
deriving DecidableEq, Repr

/-- Modelled from the spec: `redis_command` and the `redis_param_*` helpers
live in redis.h, not among the sources.  Section 4.2: frames are pre-encoded
in the store's wire protocol; `redis_command n` writes the header announcing
`n` bulk elements. -/
def redis_command (n : Nat) : Cmd := { count := n, params := [] }

/-- Appends one bulk element holding text (see `redis_command`). -/
def redis_param_str (c : Cmd) (s : String) : Cmd := { c with params := c.params ++ [Arg.str s] }

/-- Appends one bulk element holding the text of an sds (see `redis_command`). -/
def redis_param_sds (c : Cmd) (s : String) : Cmd := { c with params := c.params ++ [Arg.str s] }

/-- Appends one bulk element holding the 20 octets of a hash (see `redis_command`). -/
def redis_param_sha (c : Cmd) (h : Hash) : Cmd := { c with params := c.params ++ [Arg.sha h] }

/-- Appends already encoded bulk elements verbatim (see `redis_command`). -/
def redis_param_raw (c : Cmd) (raw : List Arg) : Cmd := { c with params := c.params ++ raw }

/-! ## Replies, callbacks and events -/

/-- A reply of the store (hiredis `redisReply`), as a tagged variant. -/
inductive redisReply where
  | string (s : String)
  | array (elems : List redisReply)
  | integer (n : Int)
  | nil
  | status (s : String)
  | error (s : String)
  | double (s : String)
  | bool (n : Int)
  | map (elems : List redisReply)
  | set (elems : List redisReply)
deriving Repr

/-- Levels of the log callback (`pmLogLevel`). -/
inductive LogLevel where
  | info | warning | error | request | response | corrupt
deriving DecidableEq, Repr

/-- The reply handlers of schema.c that are registered with `redisSlotsRequest`. -/
inductive Callback where
  | redis_map_publish_callback
  | redis_map_request_callback
  | redis_source_context_name
  | redis_source_location
  | redis_context_name_source
  | redis_series_inst_name_callback
  | redis_instances_series_callback
  | redis_series_inst_callback
  | redis_series_labelvalue_callback
  | redis_series_maplabelvalue_callback
  | redis_series_labelflags_callback
  | redis_series_label_set_callback
  | redis_metric_name_series_callback
  | redis_series_metric_name_callback
  | redis_desc_series_callback
  | redis_series_source_callback
  | redis_series_stream_callback
  | redis_series_timer_callback
  | redis_update_version_callback
  | redis_load_series_version_callback
  | redis_load_version_callback
  | redis_load_keymap_callback
  | redis_load_slots_callback
deriving DecidableEq, Repr

/-- The completion callbacks (`redisDoneCallBack`) handed to `redisGetMap` by
schema.c, and any other one a caller may supply. -/
inductive redisDoneCallBack where
  | series_name_mapping_callback
  | label_name_mapping_callback
  | label_value_mapping_callback
  | other (id : Nat)
deriving DecidableEq, Repr

/-- The kinds of baton of schema.c (the magic tags). -/
inductive BatonKind where
  | slots | mapping | load | stream
deriving DecidableEq, Repr

/-- A store request as handed to `redisSlotsRequest`: command name, routing
key (`none` for a keyless command), frame, and reply handler. -/
structure Request where
  name : String
  key : Option String
  cmd : Cmd
  callback : Callback
deriving DecidableEq, Repr

/-- The phase functions of the bootstrap chain. -/
inductive Phase where
  | redis_load_slots
  | redis_load_keymap
  | redis_load_version
  | redis_load_series_version
  | redis_load_search_schema
  | redis_slots_finished
deriving DecidableEq, Repr

/-- What a piece of code does to the outside, in program order. -/
inductive Event where
  /-- A call of `redisSlotsRequest`. -/
  | request (r : Request)
  /-- A call of the log callback (`batoninfo`, or a failed reply check). -/
  | info (level : LogLevel) (msg : String)
  /-- A call of a `redisGetMap` completion callback. -/
  | mapped (cb : redisDoneCallBack)
  /-- A call of the `done` callback of the bootstrap baton. -/
  | done
  /-- One reference dropped from a baton (`seriesBatonDereference`, also
  inside `seriesPassBaton`). -/
  | deref (kind : BatonKind)
  /-- References added to a baton (`seriesBatonReference(s)`). -/
  | ref (kind : BatonKind) (n : Nat)
  /-- A baton released (`free`). -/
  | freed (kind : BatonKind)
  /-- A phase function entered. -/
  | phase (p : Phase)
  /-- The load baton handed on to its next phase (its count reached zero). -/
  | loadNext
  /-- A call of `redis_search_text_add` (search.c). -/
  | searchText (type : String) (name : String)
  /-- A reply handler was run by the event loop. -/
  | replied (cb : Callback)
deriving DecidableEq, Repr

/-- Is the event a store request issued with this command name? -/
def Event.isRequest (name : String) : Event → Bool
  | .request r => r.name == name
  | _ => false

/-- Is the event the issue of a `PUBLISH`? -/
def Event.isPublish : Event → Bool := Event.isRequest "PUBLISH"

/-- Is the event a call of a completion callback of `redisGetMap`? -/
def Event.isMapped : Event → Bool
  | .mapped _ => true
  | _ => false

/-- The store requests among some events, in order. -/
def requests : List Event → List Request
  | [] => []
  | .request r :: es => r :: requests es
  | _ :: es => requests es

/-- Is the event a call of the log callback? -/
def Event.isInfo : Event → Bool
  | .info _ _ => true
  | _ => false

/-- Is the event a log message of this level? -/
def Event.isLog (level : LogLevel) : Event → Bool
  | .info l _ => l == level
  | _ => false

/-! ## redisReply checks -/

/-- Modelled from the spec: `checkIntegerReply` lives in util.c, not among the
sources.  Section 9: every decoder validates the variant before accessing
fields; section 7: a wrong type is logged and the caller sees failure.  The
callers in schema.c (`decodeCommandKey`, `decodeRedisSlot`) read a negative
result as "not an integer", so an integer reply yields its value and anything
else is logged and yields -1. -/
def checkIntegerReply (reply : Option redisReply) (what : String) : Int × List Event :=
  match reply with
  | some (.integer n) => (n, [])
  | _ => (-1, [Event.info LogLevel.response what])

/-- Modelled from the spec: `checkStatusReplyOK` lives in util.c, not among the
sources.  A status reply `OK` passes (0); anything else is logged and yields
-1 (sections 7 and 9). -/
def checkStatusReplyOK (reply : Option redisReply) (what : String) : Int × List Event :=
  match reply with
  | some (.status "OK") => (0, [])
  | _ => (-1, [Event.info LogLevel.response what])

/-! ## The string mapping cache (`redisGetMap`) -/

/-- Modelled from the spec: `redisMap` and its operations live in maps.c, not
among the sources.  Section 4.4: for each interned-string class the core keeps
a local map from hash to string; the class name is what `redisMapName`
returns. -/
structure redisMap where
  name : String
  entries : List (Hash × String)
deriving DecidableEq, Repr

/-- Modelled from the spec: the local-map lookup of section 4.4 (maps.c). -/
def redisMapLookup (m : redisMap) (key : Hash) : Option String :=
  (m.entries.find? fun e => e.1 == key).map fun e => e.2

/-- Modelled from the spec: the local-map insert of section 4.4 (maps.c); a
later insert for a key replaces the earlier entry. -/
def redisMapInsert (m : redisMap) (key : Hash) (value : String) : redisMap :=
  { m with entries := (key, value) :: m.entries.filter fun e => !(e.1 == key) }

/-- Modelled from the spec: `redisMapCreate` (maps.c) makes a new, empty map
of the given name. -/
def redisMapCreate (name : String) : redisMap := { name := name, entries := [] }

/-- The mapping baton.  `mapping` keeps the name of the map the baton points
to, which is all the baton reads from it. -/
structure redisMapBaton where
  mapping : String
  mapKey : Hash
  mapStr : String
  mapped : Option redisDoneCallBack
deriving DecidableEq, Repr

/-- Source: `initRedisMapBaton`. -/
def initRedisMapBaton (mapping : redisMap) (mapKey : Hash) (mapStr : String)
    (on_done : Option redisDoneCallBack) : redisMapBaton :=
  { mapping := mapping.name, mapKey := mapKey, mapStr := mapStr, mapped := on_done }

/-- Source: `doneRedisMapBaton`: call the completion callback when there is
one, then release the baton. -/
def doneRedisMapBaton (baton : redisMapBaton) : List Event :=
  (match baton.mapped with
   | some cb => [Event.mapped cb]
   | none => []) ++ [Event.freed BatonKind.mapping]

/-- Source: `redis_map_publish_callback`: no redirection check; the reply is
checked for being an integer and the baton completed. -/
def redis_map_publish_callback (baton : redisMapBaton) (reply : Option redisReply) : List Event :=
  (checkIntegerReply reply ("PUBLISH: new " ++ baton.mapping ++ " mapping")).2
    ++ doneRedisMapBaton baton

/-- The message of `redis_map_publish`, built by
`sdscatfmt(sdsempty(), "%S:%S", hash, baton->mapStr)` where `hash` is the
`char hash[42]` buffer filled by `pmwebapi_hash_str` and `mapStr` an sds. -/
def redis_map_publish_msg (baton : redisMapBaton) : Option String :=
  match StrArg.fmt_S (StrArg.buf (pmwebapi_hash_str baton.mapKey)),
        StrArg.fmt_S (StrArg.sds baton.mapStr) with
  | some h, some s => some (h ++ ":" ++ s)
  | _, _ => none

/-- Source: `redis_map_publish`: one 3-element `PUBLISH` on the channel of
the map, routed on the channel name.  The call is taken to return whatever
the message turns out to be. -/
def redis_map_publish (baton : redisMapBaton) : List Event :=
  let key := "pcp:channel:" ++ baton.mapping
  let cmd := redis_command 3
  let cmd := redis_param_str cmd "PUBLISH"
  let cmd := redis_param_sds cmd key
  let cmd := match redis_map_publish_msg baton with
    | some msg => redis_param_sds cmd msg
    | none => { cmd with params := cmd.params ++ [Arg.unspecified] }
  [Event.request { name := "PUBLISH", key := some key, cmd := cmd,
                   callback := Callback.redis_map_publish_callback }]

/-- Source: `redis_map_request_callback`.  `sts` is the value returned by
`redisSlotsRedirect` (slots.c, not among the sources) for this reply. -/
def redis_map_request_callback (baton : redisMapBaton) (sts : Int) (reply : Option redisReply) :
    List Event :=
  if sts > 0 then []
  else
    let chk : Int × List Event :=
      if sts = 0 then
        checkIntegerReply reply ("HSET: string mapping script (" ++ baton.mapping ++ ")")
      else (sts, [])
    if chk.1 > 0 then chk.2 ++ redis_map_publish baton
    else chk.2 ++ doneRedisMapBaton baton

/-- Source: `redisMapRequest`: one 4-element `HSET` on `pcp:map:<map name>`. -/
def redisMapRequest (baton : redisMapBaton) (name : Hash) (value : String) : List Event :=
  let key := "pcp:map:" ++ baton.mapping
  let cmd := redis_command 4
  let cmd := redis_param_str cmd "HSET"
  let cmd := redis_param_sds cmd key
  let cmd := { cmd with params := cmd.params ++ [Arg.sha name] }
  let cmd := redis_param_sds cmd value
  [Event.request { name := "HSET", key := some key, cmd := cmd,
                   callback := Callback.redis_map_request_callback }]

/-- The outcome of one `redisGetMap` call: the local map afterwards, the
baton it allocated (when it did), and its events. -/
structure GetMap where
  mapping : redisMap
  baton : Option redisMapBaton
  events : List Event
deriving DecidableEq, Repr

/-- Source: `redisGetMap`.  `string_hash` stands for `pmwebapi_string_hash`
(SHA-1; util.c and sha1.c are not among the sources); `alloc` tells whether
the `calloc` of the baton succeeds. -/
def redisGetMap (string_hash : String → Hash) (mapping : redisMap) (mapStr : String)
    (on_done : redisDoneCallBack) (alloc : Bool) : GetMap :=
  let mapKey := string_hash mapStr
  match redisMapLookup mapping mapKey with
  | some _ => { mapping := mapping, baton := none, events := [Event.mapped on_done] }
  | none =>
    if alloc then
      let baton := initRedisMapBaton mapping mapKey mapStr (some on_done)
      { mapping := redisMapInsert mapping mapKey mapStr
        baton := some baton
        events := redisMapRequest baton mapKey mapStr }
    else { mapping := mapping, baton := none, events := [Event.mapped on_done] }

/-- The `HSET` frame that publishes a string of a map. -/
def mapHsetRequest (mapName : String) (hash : Hash) (str : String) : Request :=
  { name := "HSET", key := some ("pcp:map:" ++ mapName),
    cmd := { count := 4, params := [Arg.str "HSET", Arg.str ("pcp:map:" ++ mapName),
                                    Arg.sha hash, Arg.str str] },
    callback := Callback.redis_map_request_callback }

/-- Repeated `redisGetMap` calls for one string on one map with no flush in
between: the map after `n` calls and all events of the calls, in order. -/
def redisGetMapTimes (string_hash : String → Hash) (mapStr : String) (on_done : redisDoneCallBack) :
    Nat → redisMap → redisMap × List Event
  | 0, m => (m, [])
  | n + 1, m =>
    let g := redisGetMap string_hash m mapStr on_done true
    let rest := redisGetMapTimes string_hash mapStr on_done n g.mapping
    (rest.1, g.events ++ rest.2)

/-- One reply delivered by the event loop to a reply handler: the result of
`redisSlotsRedirect` for it, and the reply object. -/
structure Delivery where
  sts : Int
  reply : Option redisReply
deriving Repr

/-- The reply handlers of the mapping baton, by name. -/
def mapCallback (baton : redisMapBaton) : Callback → Delivery → List Event
  | .redis_map_request_callback, d => redis_map_request_callback baton d.sts d.reply
  | .redis_map_publish_callback, d => redis_map_publish_callback baton d.reply
  | _, _ => []

/-- The requests left outstanding by running handler `cb` on delivery `d`:
the same request again when the redirection helper re-submitted it (positive
result; only handlers that consult the helper), and every request the handler
issued. -/
def mapOutstanding (cb : Callback) (d : Delivery) (ev : List Event) : List Callback :=
  (if d.sts > 0 ∧ cb = Callback.redis_map_request_callback then [cb] else [])
    ++ (requests ev).map fun r => r.callback

/-- The life of one mapping baton: replies are delivered, in order, to the
handlers of its outstanding requests (first in, first out); the result is all
events of the handlers. -/
def mapRun (baton : redisMapBaton) : List Callback → List Delivery → List Event
  | [], _ => []
  | _ :: _, [] => []
  | cb :: pending, d :: ds =>
    let ev := mapCallback baton cb d
    ev ++ mapRun baton (pending ++ mapOutstanding cb d ev) ds

/-- The handlers still outstanding after the deliveries. -/
def mapPending (baton : redisMapBaton) : List Callback → List Delivery → List Callback
  | [], _ => []
  | cb :: pending, [] => cb :: pending
  | cb :: pending, d :: ds =>
    mapPending baton (pending ++ mapOutstanding cb d (mapCallback baton cb d)) ds

/-- The events of the whole life of one `redisGetMap` call: those of the call
itself, then those of the reply handlers of its baton as the replies `ds`
arrive. -/
def mapLife (g : GetMap) (ds : List Delivery) : List Event :=
  g.events ++
    (match g.baton with
     | some b => mapRun b ((requests g.events).map fun r => r.callback) ds
     | none => [])

/-- The reply handlers of a `redisGetMap` call still awaited after the replies
`ds`. -/
def mapLeft (g : GetMap) (ds : List Delivery) : List Callback :=
  match g.baton with
  | some b => mapPending b ((requests g.events).map fun r => r.callback) ds
  | none => []

/-- A delivery for which the redirection helper returned the positive value
`n + 1` (the command was re-submitted). -/
def Delivery.redirected (n : Nat) (reply : Option redisReply) : Delivery :=
  { sts := (n : Int) + 1, reply := reply }

/-- A delivery for which the redirection helper returned `-n`: zero (the
original reply) or negative (an error). -/
def Delivery.final (n : Nat) (reply : Option redisReply) : Delivery :=
  { sts := -(n : Int), reply := reply }

/-- Is the reply an integer greater than zero? -/
def redisReply.isPositiveInteger : Option redisReply → Bool
  | some (.integer n) => decide (0 < n)
  | _ => false

/-- The `PUBLISH` frame announcing a new string of a map on its channel, with
the message given as a bulk element. -/
def mapPublishRequest (mapName : String) (msg : Arg) : Request :=
  { name := "PUBLISH", key := some ("pcp:channel:" ++ mapName),
    cmd := { count := 3, params := [Arg.str "PUBLISH", Arg.str ("pcp:channel:" ++ mapName), msg] },
    callback := Callback.redis_map_publish_callback }

/-! ## The bootstrap (slots) baton and its phase chain -/

/-- The compiled schema version (`#define SERIES_VERSION 2`). -/
def SERIES_VERSION : Nat := 2

/-- The minimum store version (`#define SERVER_VERSION 5`). -/
def SERVER_VERSION : Nat := 5

/-- The bootstrap baton (`redisSlotsBaton`): the reference count of its
header, its phase vector with the index of the current phase, the error slot
and the schema version found so far (-1 when none yet). -/
structure redisSlotsBaton where
  refcount : Nat
  phases : List Phase
  current : Nat
  error : Int
  version : Int
deriving DecidableEq, Repr

/-- Modelled from the spec: `seriesBatonReference` lives in batons.h, not
among the sources.  Section 4.5: `reference(n)` increments the count. -/
def seriesBatonReference (baton : redisSlotsBaton) : redisSlotsBaton × List Event :=
  ({ baton with refcount := baton.refcount + 1 }, [Event.ref BatonKind.slots 1])

/-- Modelled from the spec: `seriesBatonDereference` lives in batons.h, not
among the sources.  Section 4.5: `dereference()` decrements the count; the
result tells whether it reached zero (that is how `redis_slots_end_phase`
reads it).  The count is a natural number: dropping a reference from a count
of zero, which no phase of schema.c does, leaves zero. -/
def seriesBatonDereference (baton : redisSlotsBaton) : redisSlotsBaton × Bool × List Event :=
  ({ baton with refcount := baton.refcount - 1 }, baton.refcount - 1 == 0,
   [Event.deref BatonKind.slots])

/-- Source: `redis_slots_finished`: the `done` callback is called only when
the error slot is clear; the baton is released in every case. -/
def redis_slots_finished (baton : redisSlotsBaton) : redisSlotsBaton × List Event :=
  (baton,
   [Event.phase Phase.redis_slots_finished]
     ++ (if baton.error = 0 then [Event.done] else [])
     ++ [Event.freed BatonKind.slots])

/-- One keyless or keyed two-part request of a bootstrap phase, preceded by
the reference the phase takes for it. -/
def slotsPhaseRequest (baton : redisSlotsBaton) (p : Phase) (r : Request) :
    redisSlotsBaton × List Event :=
  let b := seriesBatonReference baton
  (b.1, [Event.phase p] ++ b.2 ++ [Event.request r])

/-- Source: `redis_load_slots`: `CLUSTER SLOTS`, keyless. -/
def redis_load_slots (baton : redisSlotsBaton) : redisSlotsBaton × List Event :=
  slotsPhaseRequest baton Phase.redis_load_slots
    { name := "CLUSTER", key := none,
      cmd := redis_param_str (redis_param_str (redis_command 2) "CLUSTER") "SLOTS",
      callback := Callback.redis_load_slots_callback }

/-- Source: `redis_load_keymap`: `COMMAND`, keyless (sent under the name of
the `GETS` constant). -/
def redis_load_keymap (baton : redisSlotsBaton) : redisSlotsBaton × List Event :=
  slotsPhaseRequest baton Phase.redis_load_keymap
    { name := "GET", key := none,
      cmd := redis_param_str (redis_command 1) "COMMAND",
      callback := Callback.redis_load_keymap_callback }

/-- Source: `redis_load_version`: `INFO SERVER`, keyless. -/
def redis_load_version (baton : redisSlotsBaton) : redisSlotsBaton × List Event :=
  slotsPhaseRequest baton Phase.redis_load_version
    { name := "INFO", key := none,
      cmd := redis_param_str (redis_param_str (redis_command 2) "INFO") "SERVER",
      callback := Callback.redis_load_version_callback }

/-- Source: `redis_load_series_version`: `GET pcp:version:schema`. -/
def redis_load_series_version (baton : redisSlotsBaton) : redisSlotsBaton × List Event :=
  slotsPhaseRequest baton Phase.redis_load_series_version
    { name := "GET", key := some "pcp:version:schema",
      cmd := redis_param_sds (redis_param_str (redis_command 2) "GET") "pcp:version:schema",
      callback := Callback.redis_load_series_version_callback }

/-- The phase `redis_load_search_schema` lives in search.c, not among the
sources; only its being entered is recorded. -/
def redis_load_search_schema (baton : redisSlotsBaton) : redisSlotsBaton × List Event :=
  (baton, [Event.phase Phase.redis_load_search_schema])

/-- Calls a phase function through its pointer (`next->func(arg)`). -/
def phaseFunc : Phase → redisSlotsBaton → redisSlotsBaton × List Event
  | .redis_load_slots => redis_load_slots
  | .redis_load_keymap => redis_load_keymap
  | .redis_load_version => redis_load_version
  | .redis_load_series_version => redis_load_series_version
  | .redis_load_search_schema => redis_load_search_schema
  | .redis_slots_finished => redis_slots_finished

/-- Modelled from the spec: `seriesPassBaton` lives in batons.h, not among the
sources.  Section 4.5: `dereference()` decrements and, on reaching zero,
advances the baton: the next phase of the vector becomes current and is run.
(The last phase of the bootstrap chain, `redis_slots_finished`, is the one
that calls `done` and frees.) -/
def seriesPassBaton (baton : redisSlotsBaton) : redisSlotsBaton × List Event :=
  let d := seriesBatonDereference baton
  if d.2.1 then
    match d.1.phases.get? (d.1.current + 1) with
    | some next =>
      let r := phaseFunc next { d.1 with current := d.1.current + 1 }
      (r.1, d.2.2 ++ r.2)
    | none => (d.1, d.2.2)
  else (d.1, d.2.2)

/-- Source: `redis_slots_end_phase`. -/
def redis_slots_end_phase (baton : redisSlotsBaton) : redisSlotsBaton × List Event :=
  if baton.error = 0 then seriesPassBaton baton
  else
    let d := seriesBatonDereference baton
    if d.2.1 then
      let f := redis_slots_finished d.1
      (f.1, d.2.2 ++ f.2)
    else (d.1, d.2.2)

/-- Modelled from the spec: `seriesBatonPhases` lives in batons.h, not among
the sources.  It links the first `count` phases into a chain and starts the
first one (section 4.7: at startup the client runs this phase chain). -/
def seriesBatonPhases (baton : redisSlotsBaton) : redisSlotsBaton × List Event :=
  match baton.phases.get? baton.current with
  | some first => phaseFunc first baton
  | none => (baton, [])

/-- Source: `initRedisSlotsBaton` on the zeroed allocation. -/
def initRedisSlotsBaton : redisSlotsBaton :=
  { refcount := 0, phases := [], current := 0, error := 0, version := -1 }

/-- The phase vector `redisSlotsConnect` fills in, one `phases[i++].func = ...`
after the other.  The three flag masks `SLOTS_KEYMAP`, `SLOTS_VERSION` and
`SLOTS_SEARCH` are declared in slots.h, which is not among the sources; they
are parameters here. -/
def redisSlotsConnectPhases (keymapBit versionBit searchBit flags : Nat) : List Phase :=
  let phases := [Phase.redis_load_slots]
  let phases := if flags &&& keymapBit ≠ 0 then phases ++ [Phase.redis_load_keymap] else phases
  let phases := if flags &&& versionBit ≠ 0 then
    phases ++ [Phase.redis_load_version] ++ [Phase.redis_load_series_version] else phases
  let phases := if flags &&& searchBit ≠ 0 then
    phases ++ [Phase.redis_load_search_schema] else phases
  phases ++ [Phase.redis_slots_finished]

/-- Source: `redisSlotsConnect`, both allocations succeeding: the baton is
initialised, the phase vector installed and the chain started. -/
def redisSlotsConnect (keymapBit versionBit searchBit flags : Nat) :
    redisSlotsBaton × List Event :=
  seriesBatonPhases
    { initRedisSlotsBaton with
      phases := redisSlotsConnectPhases keymapBit versionBit searchBit flags
      current := 0 }

/-- Source: `get_redis_slots_flags` (pmproxy redis.c), from the three module
settings. -/
def get_redis_slots_flags (keymapBit versionBit searchBit : Nat)
    (redis_protocol series_queries search_queries : Bool) : Nat :=
  let flags := 0
  let flags := if redis_protocol then flags ||| keymapBit else flags
  let flags := if series_queries then flags ||| versionBit else flags
  let flags := if search_queries then flags ||| searchBit else flags
  flags

/-! ### Schema version probing -/

/-- The white space `atoi` and `strtoul` skip (`isspace` in the C locale). -/
def isspace (c : Char) : Bool :=
  c == ' ' || c == '\t' || c == '\n' || c == '\r' || c.toNat == 11 || c.toNat == 12

/-- The value of the leading decimal digits, and what follows them. -/
def scanDigits : List Char → Nat → Nat × List Char
  | [], acc => (acc, [])
  | c :: cs, acc =>
    if c.isDigit then scanDigits cs (acc * 10 + (c.toNat - 48)) else (acc, c :: cs)

/-- The C library `atoi`: optional white space, optional sign, decimal digits;
0 when there are no digits.  (Values outside the range of `int` are outside
the C standard and of this model.) -/
def atoi (s : String) : Int :=
  match s.toList.dropWhile isspace with
  | '-' :: cs => - ((scanDigits cs 0).1 : Int)
  | '+' :: cs => ((scanDigits cs 0).1 : Int)
  | cs => ((scanDigits cs 0).1 : Int)

/-- The conversion `(unsigned int)` of an `int`. -/
def toUnsigned (n : Int) : Nat := (n % 4294967296).toNat

/-- Modelled from the spec: `redis_reply_type` (util.c) names the variant of a
reply for log messages. -/
def redis_reply_type : redisReply → String
  | .string _ => "string"
  | .array _ => "array"
  | .integer _ => "integer"
  | .nil => "nil"
  | .status _ => "status"
  | .error _ => "error"
  | .double _ => "double"
  | .bool _ => "bool"
  | .map _ => "map"
  | .set _ => "set"

/-- Source: `redis_update_version`: one reference, then
`SET pcp:version:schema <SERIES_VERSION>`. -/
def redis_update_version (baton : redisSlotsBaton) : redisSlotsBaton × List Event :=
  let b := seriesBatonReference baton
  let key := "pcp:version:schema"
  let cmd := redis_command 3
  let cmd := redis_param_str cmd "SET"
  let cmd := redis_param_sds cmd key
  let cmd := redis_param_str cmd (toString SERIES_VERSION)
  (b.1, b.2 ++ [Event.request { name := "SET", key := some key, cmd := cmd,
                                callback := Callback.redis_update_version_callback }])

/-- Source: `redis_update_version_callback`. -/
def redis_update_version_callback (baton : redisSlotsBaton) (sts : Int)
    (reply : Option redisReply) : redisSlotsBaton × List Event :=
  if sts > 0 then (baton, [])
  else
    let chk := if sts = 0 then (checkStatusReplyOK reply "pcp:version:schema setup").2 else []
    let e := redis_slots_end_phase baton
    (e.1, chk ++ e.2)

/-- The first part of `redis_load_series_version_callback`: the reply is
decoded into the local `version`, the baton's `version` field and the log
messages. -/
def decodeSeriesVersion (baton : redisSlotsBaton) (sts : Int) (reply : Option redisReply) :
    Nat × redisSlotsBaton × List Event :=
  match reply with
  | none => (0, { baton with version := 0 }, [])
  | some (.string s) =>
    let version := toUnsigned (atoi s)
    if version = 0 ∨ version = SERIES_VERSION then
      (version, { baton with version := version }, [])
    else
      (version, baton,
       [Event.info LogLevel.error
          ("unsupported series schema (got v" ++ toString version ++ ", expected v"
            ++ toString SERIES_VERSION ++ ")")])
  | some (.error s) =>
    (0, baton, if sts < 0 then [Event.info LogLevel.request ("version check error: " ++ s)] else [])
  | some .nil => (0, { baton with version := 0 }, [])
  | some r =>
    (0, baton,
     [Event.info LogLevel.error
        ("unexpected schema version reply type (" ++ redis_reply_type r ++ ")")])

/-- Source: `redis_load_series_version_callback`. -/
def redis_load_series_version_callback (baton : redisSlotsBaton) (sts : Int)
    (reply : Option redisReply) : redisSlotsBaton × List Event :=
  if sts > 0 then (baton, [])
  else
    let d := decodeSeriesVersion baton sts reply
    if d.1 ≠ SERIES_VERSION ∧ d.2.1.version ≠ -1 then
      let dr := seriesBatonDereference d.2.1
      let u := redis_update_version dr.1
      (u.1, d.2.2 ++ dr.2.2 ++ u.2)
    else
      let e := redis_slots_end_phase d.2.1
      (e.1, d.2.2 ++ e.2)

/-! ### Store version probing -/

/-- The C library `strtoul` in base 10: optional white space, optional sign,
decimal digits; yields the value (saturating at `ULONG_MAX`, negated modulo
2^64 after a minus sign) and the text from the first character not converted
(the whole input when there are no digits). -/
def strtoul (cs : List Char) : Nat × List Char :=
  let ws := cs.dropWhile isspace
  let signed : Bool × List Char :=
    match ws with
    | '-' :: r => (true, r)
    | '+' :: r => (false, r)
    | r => (false, r)
  match signed.2 with
  | c :: _ =>
    if c.isDigit then
      let r := scanDigits signed.2 0
      let v := min r.1 18446744073709551615
      (if signed.1 then (18446744073709551616 - v) % 18446744073709551616 else v, r.2)
    else (0, cs)
  | [] => (0, cs)

/-- The checks `redis_load_version_callback` makes once it has found a line
starting with `redis_version:`; `rest` is the text behind that prefix. -/
def checkServerVersion (rest : List Char) : List Event :=
  let r := strtoul rest
  let server_version := r.1 % 4294967296
  if r.2.head? ≠ some '.' then
    [Event.info LogLevel.error "redis server version parse error"]
  else if server_version < SERVER_VERSION then
    [Event.info LogLevel.error
       ("unsupported redis server (got v" ++ toString server_version ++ ", expected v"
         ++ toString SERVER_VERSION ++ " or above)")]
  else []

/-- The scanning loop of `redis_load_version_callback` over the reply text
from position `l` on (`cs` is `reply->str + l`, non-empty while `l < len`).
When the text at `l` does not start with `redis_version:`, the inner `while`
advances `l` to the next newline or NUL behind `l`, and the `l++` of the `for`
steps over it.  `fuel` bounds the iterations; the length of the text
suffices. -/
def versionScan : Nat → List Char → List Event
  | 0, _ => []
  | _, [] => []
  | fuel + 1, c :: cs =>
    if "redis_version:".toList.isPrefixOf (c :: cs) then
      checkServerVersion ((c :: cs).drop 14)
    else
      versionScan fuel ((cs.dropWhile fun x => !(x == '\n' || x.toNat == 0)).drop 1)

/-- Source: `redis_load_version_callback`. -/
def redis_load_version_callback (baton : redisSlotsBaton) (sts : Int)
    (reply : Option redisReply) : redisSlotsBaton × List Event :=
  if sts > 0 then (baton, [])
  else
    let log : List Event :=
      match reply with
      | none => [Event.info LogLevel.error "no redis version reply"]
      | some (.string s) => versionScan s.length s.toList
      | some (.error s) =>
        if sts < 0 then
          [Event.info LogLevel.request ("redis server version check error: " ++ s)]
        else []
      | some r =>
        [Event.info LogLevel.error
           ("unexpected redis server version reply type (" ++ redis_reply_type r ++ ")")]
    let e := redis_slots_end_phase baton
    (e.1, log ++ e.2)

/-! ## The load baton and its reply handlers -/

/-- The constants and helpers that schema.c takes from files that are not
among the sources (pmapi.h, util.c, sha1.c, redis.h), and the two settings
kept in its static variables. -/
structure Env where
  /-- SHA-1 of a string (`pmwebapi_string_hash`). -/
  string_hash : String → Hash
  /-- The flags value of a context label (`PM_LABEL_CONTEXT`). -/
  PM_LABEL_CONTEXT : Int
  /-- The error code "not yet implemented" (`PM_ERR_NYI`). -/
  PM_ERR_NYI : Int
  /-- The store's error text for a duplicate or early stream id
  (`REDIS_ESTREAMXADD`). -/
  REDIS_ESTREAMXADD : String
  /-- The static `maxstreamlen` (set by `redisSeriesInit`). -/
  maxstreamlen : String
  /-- The static `streamexpire` (set by `redisSeriesInit`). -/
  streamexpire : String

/-- The part of the load baton (`seriesLoadBaton`, load.c) and of the globals
that schema.c works on: the reference count, the three process-wide maps, and
whether text search is on (`(baton->flags & PM_SERIES_FLAG_TEXT) &&
slots->search`). -/
structure seriesLoadBaton where
  refcount : Nat
  namesmap : redisMap
  instmap : redisMap
  labelsmap : redisMap
  textSearch : Bool
deriving DecidableEq, Repr

/-- Source: `seriesBatonReferences(baton, n, ...)` on the load baton (see
`seriesBatonReference`). -/
def seriesLoadBaton.references (l : seriesLoadBaton) (n : Nat) : seriesLoadBaton × List Event :=
  ({ l with refcount := l.refcount + n }, [Event.ref BatonKind.load n])

/-- Modelled from the spec: `doneSeriesLoadBaton` lives in load.c, not among
the sources.  Section 4.5: every callback a phase spawned dereferences on
completion, and on reaching zero the baton advances to its next phase. -/
def doneSeriesLoadBaton (l : seriesLoadBaton) : seriesLoadBaton × List Event :=
  ({ l with refcount := l.refcount - 1 },
   [Event.deref BatonKind.load] ++ (if l.refcount - 1 = 0 then [Event.loadNext] else []))

/-- The reply handlers of the load baton that check for an integer reply
(`redis_source_context_name`, `redis_source_location`, and so on): nothing on a
re-submission, else the reply check when `sts` is zero, then the baton is
handed on. -/
def loadIntegerCallback (what : String) (l : seriesLoadBaton) (sts : Int) (reply : Option redisReply) :
    seriesLoadBaton × List Event :=
  if sts > 0 then (l, [])
  else
    let chk := if sts = 0 then (checkIntegerReply reply what).2 else []
    let d := doneSeriesLoadBaton l
    (d.1, chk ++ d.2)

/-- The reply handlers of the load baton that check for an `OK` status
(`redis_series_inst_callback`, `redis_desc_series_callback`, and so on). -/
def loadStatusCallback (what : String) (l : seriesLoadBaton) (sts : Int) (reply : Option redisReply) :
    seriesLoadBaton × List Event :=
  if sts > 0 then (l, [])
  else
    let chk := if sts = 0 then (checkStatusReplyOK reply what).2 else []
    let d := doneSeriesLoadBaton l
    (d.1, chk ++ d.2)

/-- Source: `redis_series_timer_callback` (the `EXPIRE` reply): no reply
check at all. -/
def redis_series_timer_callback (l : seriesLoadBaton) (sts : Int) : seriesLoadBaton × List Event :=
  if sts > 0 then (l, []) else doneSeriesLoadBaton l

/-- The stream baton (`redisStreamBaton`): the time stamp and the hex series
hash of the `XADD` it waits for. -/
structure redisStreamBaton where
  stamp : String
  hash : String
deriving DecidableEq, Repr

/-- Source: `doneRedisStreamBaton`: the stream baton is released, then the
load baton it points to is handed on. -/
def doneRedisStreamBaton (l : seriesLoadBaton) : seriesLoadBaton × List Event :=
  let d := doneSeriesLoadBaton l
  (d.1, [Event.freed BatonKind.stream] ++ d.2)

/-- Modelled from the spec: `testReplyError` lives in util.c, not among the
sources: the reply is the store error with exactly this text (section 4.6:
the store returns a specific error code). -/
def testReplyError (reply : Option redisReply) (server_message : String) : Bool :=
  match reply with
  | some (.error s) => s == server_message
  | _ => false

/-- Modelled from the spec: `checkStreamReplyString` lives in util.c, not
among the sources: the reply to an `XADD` is to be the id string of the entry,
equal to the requested stamp; anything else is logged (sections 7 and 9). -/
def checkStreamReplyString (reply : Option redisReply) (stamp : String) (what : String) :
    List Event :=
  match reply with
  | some (.string s) => if s == stamp then [] else [Event.info LogLevel.response what]
  | _ => [Event.info LogLevel.response what]

/-- Source: `redis_series_stream_callback`. -/
def redis_series_stream_callback (env : Env) (baton : redisStreamBaton) (l : seriesLoadBaton)
    (sts : Int) (reply : Option redisReply) : seriesLoadBaton × List Event :=
  if sts > 0 then (l, [])
  else
    let log : List Event :=
      if sts = 0 then
        if testReplyError reply env.REDIS_ESTREAMXADD then
          [Event.info LogLevel.warning
             ("duplicate or early stream " ++ baton.hash ++ " insert at time " ++ baton.stamp)]
        else
          checkStreamReplyString reply baton.stamp
            ("stream " ++ baton.hash ++ " status mismatch at time " ++ baton.stamp)
      else []
    let d := doneRedisStreamBaton l
    (d.1, log ++ d.2)

/-- The batons a reply handler may be handed, one of each kind. -/
structure Batons where
  map : redisMapBaton
  load : seriesLoadBaton
  stream : redisStreamBaton
  slots : redisSlotsBaton

/-- The events of reply handler `cb` of schema.c, run on a delivery.  The two
bootstrap handlers that decode `COMMAND` and `CLUSTER SLOTS` replies do not
consult the redirection helper and are left out here (no events). -/
def callbackEvents (env : Env) (b : Batons) (d : Delivery) : Callback → List Event
  | .redis_map_publish_callback => redis_map_publish_callback b.map d.reply
  | .redis_map_request_callback => redis_map_request_callback b.map d.sts d.reply
  | .redis_source_context_name =>
    (loadIntegerCallback "SADD: mapping context to source or host name" b.load d.sts d.reply).2
  | .redis_source_location =>
    (loadIntegerCallback "GEOADD: mapping source location" b.load d.sts d.reply).2
  | .redis_context_name_source =>
    (loadIntegerCallback "SADD: mapping source names to context" b.load d.sts d.reply).2
  | .redis_series_inst_name_callback =>
    (loadIntegerCallback "SADD: mapping series to inst name" b.load d.sts d.reply).2
  | .redis_instances_series_callback =>
    (loadIntegerCallback "SADD: mapping instance to series" b.load d.sts d.reply).2
  | .redis_series_inst_callback =>
    (loadStatusCallback "HMSET: setting metric inst" b.load d.sts d.reply).2
  | .redis_series_labelvalue_callback =>
    (loadStatusCallback "HMSET: setting series label value" b.load d.sts d.reply).2
  | .redis_series_maplabelvalue_callback =>
    (loadStatusCallback "HMSET: setting series map label value" b.load d.sts d.reply).2
  | .redis_series_labelflags_callback =>
    (loadStatusCallback "HMSET: setting series label flags" b.load d.sts d.reply).2
  | .redis_series_label_set_callback =>
    (loadIntegerCallback "SADD pcp:series:label.X.value:Y" b.load d.sts d.reply).2
  | .redis_metric_name_series_callback =>
    (loadIntegerCallback "SADD map metric name to series" b.load d.sts d.reply).2
  | .redis_series_metric_name_callback =>
    (loadIntegerCallback "SADD: map series to metric name" b.load d.sts d.reply).2
  | .redis_desc_series_callback =>
    (loadStatusCallback "HMSET: setting metric desc" b.load d.sts d.reply).2
  | .redis_series_source_callback =>
    (loadIntegerCallback "SADD: mapping series to context" b.load d.sts d.reply).2
  | .redis_series_stream_callback =>
    (redis_series_stream_callback env b.stream b.load d.sts d.reply).2
  | .redis_series_timer_callback => (redis_series_timer_callback b.load d.sts).2
  | .redis_update_version_callback => (redis_update_version_callback b.slots d.sts d.reply).2
  | .redis_load_series_version_callback =>
    (redis_load_series_version_callback b.slots d.sts d.reply).2
  | .redis_load_version_callback => (redis_load_version_callback b.slots d.sts d.reply).2
  | .redis_load_keymap_callback => []
  | .redis_load_slots_callback => []

/-- The reply handlers that consult `redisSlotsRedirect` (all but the three
that carry the comment "no cluster redirection checking is needed"). -/
def Callback.consultsRedirect : Callback → Bool
  | .redis_map_publish_callback => false
  | .redis_load_keymap_callback => false
  | .redis_load_slots_callback => false
  | _ => true

/-- The kind of baton a reply handler is handed as its argument. -/
def Callback.batonKind : Callback → BatonKind
  | .redis_map_publish_callback => BatonKind.mapping
  | .redis_map_request_callback => BatonKind.mapping
  | .redis_series_stream_callback => BatonKind.stream
  | .redis_update_version_callback => BatonKind.slots
  | .redis_load_series_version_callback => BatonKind.slots
  | .redis_load_version_callback => BatonKind.slots
  | .redis_load_keymap_callback => BatonKind.slots
  | .redis_load_slots_callback => BatonKind.slots
  | _ => BatonKind.load

/-- Does the event complete or dereference a baton of this kind?  A mapping
or stream baton has no count of its own: it is completed (and released) by
`doneRedisMapBaton` or `doneRedisStreamBaton`; a load or bootstrap baton is
dereferenced. -/
def Event.settles (kind : BatonKind) : Event → Bool
  | .freed k => k = kind ∧ (kind = BatonKind.mapping ∨ kind = BatonKind.stream)
  | .deref k => k = kind
  | _ => false

/-! ## The ingest loader: metrics, instances, labels and values -/

/-- A named, hashed entity (`seriesname_t`): the text, the hash of the text
(`id`) and the series hash (`hash`). -/
structure seriesname_t where
  sds : String
  id : Hash
  hash : Hash
deriving DecidableEq, Repr

/-- One node of a label list (`labellist_t`). -/
structure labellist_t where
  name : String
  value : String
  flags : Int
  nameid : Hash
  valueid : Hash
deriving DecidableEq, Repr

/-- A label as `metric_labelsets` and `instance_labelsets` hand it to
`annotate_metric` (name and value are slices of the JSON text). -/
structure Label where
  name : String
  value : String
  flags : Int
deriving DecidableEq, Repr

/-- An instance of an instance domain (`instance_t`).  `labelsets` is the
merged label set that `instance_labelsets` (util.c) walks for it. -/
structure instance_t where
  name : seriesname_t
  inst : Nat
  cached : Bool
  labellist : List labellist_t
  labelsets : List Label
deriving DecidableEq, Repr

/-- The value types of a metric descriptor (`PM_TYPE_*`). -/
inductive PmType where
  | i32 | u32 | i64 | u64 | float | double | string | aggregate | aggregate_static | event
  | other (code : Int)
deriving DecidableEq, Repr

/-- The views of the union `pmAtomValue`.  The two floating point views are
kept as their `%e` renderings. -/
structure pmAtomValue where
  l : Int
  ul : Nat
  ll : Int
  ull : Nat
  f : String
  d : String
  cp : String
deriving DecidableEq, Repr

/-- One entry of a value list (`value_t`). -/
structure value_t where
  inst : Nat
  atom : pmAtomValue
deriving DecidableEq, Repr

/-- An instance domain (`indom_t`): its instances (the dictionary `insts`,
keyed by internal instance number), the hash of the context it belongs to
(`domain->context->name.hash`) and its rendering for the store
(`pmwebapi_indom_str`). -/
structure indom_t where
  insts : List instance_t
  contextHash : Hash
deriving DecidableEq, Repr

/-- The renderings of a metric descriptor that `redis_series_metadata`
obtains from `pmwebapi_indom_str`, `pmwebapi_pmid_str`,
`pmwebapi_semantics_str`, `pmwebapi_type_str` and `pmwebapi_units_str`
(util.c; not among the sources), with the two fields the code tests. -/
structure Desc where
  /-- Whether `desc.indom` is `PM_INDOM_NULL`. -/
  indomNull : Bool
  type : PmType
  indom : String
  pmid : String
  sem : String
  typeStr : String
  units : String
deriving DecidableEq, Repr

/-- A metric (`metric_t`).  `vlist` is `u.vlist` (`none` for a NULL pointer)
and `atom` is `u.atom`; `labelsets` is the merged label set that
`metric_labelsets` (util.c) walks for the metric. -/
structure metric_t where
  names : List seriesname_t
  cached : Bool
  desc : Desc
  vlist : Option (List value_t)
  atom : pmAtomValue
  indom : Option indom_t
  labellist : List labellist_t
  labelsets : List Label
  error : Int
deriving DecidableEq, Repr

/-- The context of a load (`context_t`): its name (with `id` and `hash`) and
host id. -/
structure context_t where
  name : seriesname_t
  hostid : Hash
deriving DecidableEq, Repr

/-- Source: `dictFetchValue(metric->indom->insts, &value->inst)`. -/
def indom_t.fetch (d : indom_t) (inst : Nat) : Option instance_t :=
  d.insts.find? fun i => i.inst == inst

/-- Stores an instance back under its number (the C code works on the entry
in place). -/
def indom_t.store (d : indom_t) (i : instance_t) : indom_t :=
  { d with insts := d.insts.map fun j => if j.inst == i.inst then i else j }

/-- A `redisGetMap` call made for the load baton: the completion callbacks the
loader passes all end in `doneSeriesLoadBaton`, which therefore runs inside
the call when the call completes at once. -/
def loadGetMap (l : seriesLoadBaton) (g : GetMap) : seriesLoadBaton × List Event :=
  if g.events.any Event.isMapped then
    let d := doneSeriesLoadBaton l
    (d.1, g.events ++ d.2)
  else (l, g.events)

/-- Source: `annotate_metric`, the filter called for each label; `list` is
the label list of the instance, or of the metric when there is no instance.
Allocation is taken to succeed. -/
def annotate_metric (env : Env) (l : seriesLoadBaton) (list : List labellist_t) (label : Label) :
    seriesLoadBaton × List labellist_t × List Event :=
  if list.any (fun n => n.name == label.name) then (l, list, [])
  else
    let node : labellist_t :=
      { name := label.name, value := label.value, flags := label.flags,
        nameid := env.string_hash label.name, valueid := env.string_hash label.value }
    let r := l.references 2
    let g1 := redisGetMap env.string_hash r.1.labelsmap node.name
      redisDoneCallBack.label_name_mapping_callback true
    let m1 := loadGetMap { r.1 with labelsmap := g1.mapping } g1
    let valuemap := redisMapCreate ("label." ++ pmwebapi_hash_str node.nameid ++ ".value")
    let g2 := redisGetMap env.string_hash valuemap node.value
      redisDoneCallBack.label_value_mapping_callback true
    let m2 := loadGetMap m1.1 g2
    (m2.1, node :: list, r.2 ++ m1.2 ++ m2.2)

/-- Modelled from the spec: `metric_labelsets` and `instance_labelsets` live
in util.c, not among the sources: they hand every label of the merged label
set, in order, to the filter (section 4.6, phase 1: every label name and
label value of the record is interned). -/
def labelMapping (env : Env) : List Label → seriesLoadBaton → List labellist_t →
    seriesLoadBaton × List labellist_t × List Event
  | [], l, list => (l, list, [])
  | label :: rest, l, list =>
    let a := annotate_metric env l list label
    let r := labelMapping env rest a.1 a.2.1
    (r.1, r.2.1, a.2.2 ++ r.2.2)

/-- Source: `series_metric_label_mapping`. -/
def series_metric_label_mapping (env : Env) (l : seriesLoadBaton) (metric : metric_t) :
    seriesLoadBaton × metric_t × List Event :=
  let r := labelMapping env metric.labelsets l metric.labellist
  (r.1, { metric with labellist := r.2.1 }, r.2.2)

/-- Source: `series_instance_label_mapping`. -/
def series_instance_label_mapping (env : Env) (l : seriesLoadBaton) (ins : instance_t) :
    seriesLoadBaton × instance_t × List Event :=
  let r := labelMapping env ins.labelsets l ins.labellist
  (r.1, { ins with labellist := r.2.1 }, r.2.2)

/-- The bulk elements carrying the series hashes of all names of a metric
(`for (i = 0; i < metric->numnames; i++) cmd = redis_param_sha(cmd,
metric->names[i].hash)`). -/
def paramNameHashes (cmd : Cmd) (names : List seriesname_t) : Cmd :=
  names.foldl (fun c n => redis_param_sha c n.hash) cmd

/-- Source: `redis_series_label`, for one node of a label list; `hash` is the
hex hash of the series or instance the label belongs to.  The flags are
rendered in decimal (`%I`). -/
def redis_series_label (env : Env) (l : seriesLoadBaton) (metric : metric_t) (hash : String)
    (list : labellist_t) : seriesLoadBaton × List Event :=
  let r := l.references 3
  let flagsPart : seriesLoadBaton × List Event :=
    if list.flags ≠ env.PM_LABEL_CONTEXT then
      let r1 := r.1.references 1
      let val := toString list.flags
      let key := "pcp:labelflags:series:" ++ hash
      let cmd := redis_command 4
      let cmd := redis_param_str cmd "HMSET"
      let cmd := redis_param_sds cmd key
      let cmd := redis_param_sha cmd list.nameid
      let cmd := redis_param_sds cmd val
      let req : Request :=
        { name := "HMSET", key := some key, cmd := cmd,
          callback := Callback.redis_series_labelflags_callback }
      (r1.1, r1.2 ++ [Event.request req])
    else (r.1, [])
  let key1 := "pcp:labelvalue:series:" ++ hash
  let cmd1 := redis_command 4
  let cmd1 := redis_param_str cmd1 "HMSET"
  let cmd1 := redis_param_sds cmd1 key1
  let cmd1 := redis_param_sha cmd1 list.nameid
  let cmd1 := redis_param_sha cmd1 list.valueid
  let namehash := pmwebapi_hash_str list.nameid
  let valhash := pmwebapi_hash_str list.valueid
  let key2 := "pcp:map:label." ++ namehash ++ ".value"
  let cmd2 := redis_command 4
  let cmd2 := redis_param_str cmd2 "HMSET"
  let cmd2 := redis_param_sds cmd2 key2
  let cmd2 := redis_param_sha cmd2 list.valueid
  let cmd2 := redis_param_sds cmd2 list.value
  let key3 := "pcp:series:label." ++ namehash ++ ".value:" ++ valhash
  let cmd3 := redis_command (2 + metric.names.length)
  let cmd3 := redis_param_str cmd3 "SADD"
  let cmd3 := redis_param_sds cmd3 key3
  let cmd3 := paramNameHashes cmd3 metric.names
  (flagsPart.1,
   r.2 ++ flagsPart.2 ++
   [Event.request { name := "HMSET", key := some key1, cmd := cmd1,
                    callback := Callback.redis_series_labelvalue_callback },
    Event.request { name := "HMSET", key := some key2, cmd := cmd2,
                    callback := Callback.redis_series_maplabelvalue_callback },
    Event.request { name := "SADD", key := some key3, cmd := cmd3,
                    callback := Callback.redis_series_label_set_callback }])

/-- The body of the `do ... while ((list = list->next) != NULL)` loops of
`redis_series_labelset`, from a node on. -/
def labelLoop (env : Env) (metric : metric_t) (hash : String) :
    List labellist_t → seriesLoadBaton → seriesLoadBaton × List Event
  | [], l => (l, [])
  | node :: rest, l =>
    let a := redis_series_label env l metric hash node
    let r := labelLoop env metric hash rest a.1
    (r.1, a.2 ++ r.2)

/-- One `do ... while` loop of `redis_series_labelset` over a label list.  The
loop body runs before the list is tested, so an empty list makes
`redis_series_label` read through a NULL pointer: `none`. -/
def labelDoWhile (env : Env) (metric : metric_t) (hash : String) (list : List labellist_t)
    (l : seriesLoadBaton) : Option (seriesLoadBaton × List Event) :=
  match list with
  | [] => none
  | _ :: _ => some (labelLoop env metric hash list l)

/-- The `for` loop over the names of the metric in `redis_series_labelset`
(no instance). -/
def labelsetNames (env : Env) (metric : metric_t) :
    List seriesname_t → seriesLoadBaton → Option (seriesLoadBaton × List Event)
  | [], l => some (l, [])
  | n :: rest, l =>
    match labelDoWhile env metric (pmwebapi_hash_str n.hash) metric.labellist l with
    | none => none
    | some a =>
      match labelsetNames env metric rest a.1 with
      | none => none
      | some r => some (r.1, a.2 ++ r.2)

/-- Source: `redis_series_labelset`. -/
def redis_series_labelset (env : Env) (l : seriesLoadBaton) (metric : metric_t)
    (ins : Option instance_t) : Option (seriesLoadBaton × List Event) :=
  match ins with
  | some i => labelDoWhile env metric (pmwebapi_hash_str i.name.hash) i.labellist l
  | none => labelsetNames env metric metric.names l

/-- Source: `redis_series_instance`, for an instance found in the instance
domain `d` of the metric. -/
def redis_series_instance (l : seriesLoadBaton) (metric : metric_t) (d : indom_t) (ins : instance_t) :
    seriesLoadBaton × List Event :=
  let r := l.references 2
  let hashbuf := pmwebapi_hash_str ins.name.id
  let key := "pcp:series:inst.name:" ++ hashbuf
  let cmd := redis_command (2 + metric.names.length)
  let cmd := redis_param_str cmd "SADD"
  let cmd := redis_param_sds cmd key
  let cmd := paramNameHashes cmd metric.names
  let first : Request :=
    { name := "SADD", key := some key, cmd := cmd,
      callback := Callback.redis_series_inst_name_callback }
  let perName : List Event := metric.names.flatMap fun n =>
    let key := "pcp:instances:series:" ++ pmwebapi_hash_str n.hash
    let cmd := redis_command 3
    let cmd := redis_param_str cmd "SADD"
    let cmd := redis_param_sds cmd key
    let cmd := redis_param_sha cmd ins.name.hash
    [Event.ref BatonKind.load 1,
     Event.request { name := "SADD", key := some key, cmd := cmd,
                     callback := Callback.redis_instances_series_callback }]
  let val := toString ins.inst
  let key2 := "pcp:inst:series:" ++ pmwebapi_hash_str ins.name.hash
  let cmd2 := redis_command 8
  let cmd2 := redis_param_str cmd2 "HMSET"
  let cmd2 := redis_param_sds cmd2 key2
  let cmd2 := redis_param_str cmd2 "inst"
  let cmd2 := redis_param_sds cmd2 val
  let cmd2 := redis_param_str cmd2 "name"
  let cmd2 := redis_param_sha cmd2 ins.name.id
  let cmd2 := redis_param_str cmd2 "source"
  let cmd2 := redis_param_sha cmd2 d.contextHash
  let last : Request :=
    { name := "HMSET", key := some key2, cmd := cmd2,
      callback := Callback.redis_series_inst_callback }
  ({ r.1 with refcount := r.1.refcount + metric.names.length },
   r.2 ++ [Event.request first] ++ perName ++ [Event.request last])

/-- The three descriptor requests `redis_series_metadata` issues for one name
of the metric, with the three references taken for them and the text search
call that follows when text search is on. -/
def metadataName (l : seriesLoadBaton) (context : context_t) (metric : metric_t) (n : seriesname_t) :
    seriesLoadBaton × List Event :=
  let r := l.references 3
  let key1 := "pcp:series:metric.name:" ++ pmwebapi_hash_str n.id
  let cmd1 := redis_command 3
  let cmd1 := redis_param_str cmd1 "SADD"
  let cmd1 := redis_param_sds cmd1 key1
  let cmd1 := redis_param_sha cmd1 n.hash
  let hashbuf := pmwebapi_hash_str n.hash
  let key2 := "pcp:metric.name:series:" ++ hashbuf
  let cmd2 := redis_command 3
  let cmd2 := redis_param_str cmd2 "SADD"
  let cmd2 := redis_param_sds cmd2 key2
  let cmd2 := redis_param_sha cmd2 n.id
  let key3 := "pcp:desc:series:" ++ hashbuf
  let cmd3 := redis_command 14
  let cmd3 := redis_param_str cmd3 "HMSET"
  let cmd3 := redis_param_sds cmd3 key3
  let cmd3 := redis_param_str cmd3 "indom"
  let cmd3 := redis_param_str cmd3 metric.desc.indom
  let cmd3 := redis_param_str cmd3 "pmid"
  let cmd3 := redis_param_str cmd3 metric.desc.pmid
  let cmd3 := redis_param_str cmd3 "semantics"
  let cmd3 := redis_param_str cmd3 metric.desc.sem
  let cmd3 := redis_param_str cmd3 "source"
  let cmd3 := redis_param_sha cmd3 context.name.hash
  let cmd3 := redis_param_str cmd3 "type"
  let cmd3 := redis_param_str cmd3 metric.desc.typeStr
  let cmd3 := redis_param_str cmd3 "units"
  let cmd3 := redis_param_str cmd3 metric.desc.units
  (r.1,
   r.2 ++
   [Event.request { name := "SADD", key := some key1, cmd := cmd1,
                    callback := Callback.redis_series_metric_name_callback },
    Event.request { name := "SADD", key := some key2, cmd := cmd2,
                    callback := Callback.redis_metric_name_series_callback },
    Event.request { name := "HMSET", key := some key3, cmd := cmd3,
                    callback := Callback.redis_desc_series_callback }]
   ++ (if l.textSearch then [Event.searchText "metric" n.sds] else []))

/-- The `for` loop over the names of the metric in `redis_series_metadata`. -/
def metadataNames (context : context_t) (metric : metric_t) :
    List seriesname_t → seriesLoadBaton → seriesLoadBaton × List Event
  | [], l => (l, [])
  | n :: rest, l =>
    let a := metadataName l context metric n
    let r := metadataNames context metric rest a.1
    (r.1, a.2 ++ r.2)

/-- The part of `redis_series_metadata` in front of the label
`check_instances`, for a metric that is not cached: the requests per name, one
more reference, and the `SADD` to the series set of the context. -/
def metadataDesc (l : seriesLoadBaton) (context : context_t) (metric : metric_t) : seriesLoadBaton × List Event :=
  let a := metadataNames context metric metric.names l
  let r := a.1.references 1
  let key := "pcp:series:context.name:" ++ pmwebapi_hash_str context.name.id
  let cmd := redis_command (2 + metric.names.length)
  let cmd := redis_param_str cmd "SADD"
  let cmd := redis_param_sds cmd key
  let cmd := paramNameHashes cmd metric.names
  (r.1, a.2 ++ r.2 ++
    [Event.request { name := "SADD", key := some key, cmd := cmd,
                     callback := Callback.redis_series_source_callback }])

/-- The `for` loop over the value list in `redis_series_metadata`: every
instance that resolves in the instance domain is published when it or the
metric is not cached yet, and is marked cached. -/
def metadataInstances (env : Env) (metric : metric_t) :
    List value_t → seriesLoadBaton → indom_t → Option (seriesLoadBaton × indom_t × List Event)
  | [], l, d => some (l, d, [])
  | v :: rest, l, d =>
    match d.fetch v.inst with
    | none => metadataInstances env metric rest l d
    | some ins =>
      if ins.cached = false ∨ metric.cached = false then
        let a := redis_series_instance l metric d ins
        match redis_series_labelset env a.1 metric (some ins) with
        | none => none
        | some b =>
          let txt := if l.textSearch then [Event.searchText "inst" ins.name.sds] else []
          match metadataInstances env metric rest b.1 (d.store { ins with cached := true }) with
          | none => none
          | some r => some (r.1, r.2.1, a.2 ++ b.2 ++ txt ++ r.2.2)
      else
        metadataInstances env metric rest l (d.store { ins with cached := true })

/-- Source: `redis_series_metadata`.  The result is `none` when the code reads
through a NULL pointer (an empty label list in `redis_series_labelset`, or a
missing `metric->indom` that a loop body or the text search call reads). -/
def redis_series_metadata (env : Env) (l : seriesLoadBaton) (context : context_t) (metric : metric_t) :
    Option (seriesLoadBaton × metric_t × List Event) :=
  let a : seriesLoadBaton × List Event :=
    if metric.cached then (l, []) else metadataDesc l context metric
  let txt : Option (List Event) :=
    if metric.desc.indomNull = false ∧ l.textSearch then
      match metric.indom with
      | some _ => some [Event.searchText "indom" metric.desc.indom]
      | none => none
    else some []
  match txt with
  | none => none
  | some txt =>
    if metric.desc.indomNull ∨ metric.vlist = none then
      if metric.cached = false then
        match redis_series_labelset env a.1 metric none with
        | none => none
        | some b => some (b.1, { metric with cached := true }, a.2 ++ txt ++ b.2)
      else some (a.1, metric, a.2 ++ txt)
    else
      match metric.indom with
      | none =>
        if metric.vlist.getD [] = [] then some (a.1, { metric with cached := true }, a.2 ++ txt)
        else none
      | some d =>
        match metadataInstances env metric (metric.vlist.getD []) a.1 d with
        | none => none
        | some r =>
          some (r.1, { metric with indom := some r.2.1, cached := true }, a.2 ++ txt ++ r.2.2)

/-- Source: `series_stream_append`: one field name and one value appended to
the stream part of the frame. -/
def series_stream_append (cmd : List Arg) (name : Arg) (value : String) : List Arg :=
  cmd ++ [name, Arg.str value]

/-- Source: `series_stream_value`: the value is rendered by the type of the
metric and appended under the field name. -/
def series_stream_value (env : Env) (cmd : List Arg) (name : Arg) (type : PmType)
    (avp : Option pmAtomValue) : List Arg :=
  match avp with
  | none => series_stream_append cmd name "0"
  | some a =>
    let value : String :=
      match type with
      | .i32 => toString a.l
      | .u32 => toString a.ul
      | .i64 => toString a.ll
      | .u64 => toString a.ull
      | .float => a.f
      | .double => a.d
      | .string => a.cp
      | .aggregate => a.cp
      | .aggregate_static => a.cp
      | _ => toString env.PM_ERR_NYI
    series_stream_append cmd name value

/-- The `for` loop over the value list in `redis_series_stream`: one field per
instance that resolves in the instance domain, named by the 20 octets of the
instance's name hash; the running element count grows by two per field. -/
def streamInstances (env : Env) (type : PmType) (d : indom_t) :
    List value_t → List Arg × Nat → List Arg × Nat
  | [], acc => acc
  | v :: rest, acc =>
    match d.fetch v.inst with
    | none => streamInstances env type d rest acc
    | some ins =>
      streamInstances env type d rest
        (series_stream_value env acc.1 (Arg.sha ins.name.hash) type (some v.atom), acc.2 + 2)

/-- The stream part of the `XADD` frame of `redis_series_stream` and the
element count the frame declares (`count`, starting from 6). -/
def streamFields (env : Env) (metric : metric_t) : Option (List Arg × Nat) :=
  if metric.error < 0 then
    some (series_stream_append [] (Arg.str "-1") (toString metric.error), 6 + 2)
  else if metric.desc.indomNull ∨ metric.vlist = none then
    some (series_stream_value env [] (Arg.str "") metric.desc.type (some metric.atom), 6 + 2)
  else if (metric.vlist.getD []).length ≤ 0 then
    some (series_stream_append [] (Arg.str "0") "0", 6 + 2)
  else
    match metric.indom with
    | none => none
    | some d => some (streamInstances env metric.desc.type d (metric.vlist.getD []) ([], 6))

/-- Source: `redis_series_stream`, for the series of hex hash `hash`; `alloc`
tells whether the `malloc` of the stream baton succeeds. -/
def redis_series_stream (env : Env) (l : seriesLoadBaton) (stamp : String) (metric : metric_t)
    (hash : String) (alloc : Bool) : Option (seriesLoadBaton × List Event) :=
  if alloc = false then
    some (l, [Event.info LogLevel.error "OOM creating stream baton"])
  else
    let r := l.references 2
    let key := "pcp:values:series:" ++ hash
    match streamFields env metric with
    | none => none
    | some sf =>
      let cmd := redis_command sf.2
      let cmd := redis_param_str cmd "XADD"
      let cmd := redis_param_sds cmd key
      let cmd := redis_param_str cmd "MAXLEN"
      let cmd := redis_param_str cmd "~"
      let cmd := redis_param_sds cmd env.maxstreamlen
      let cmd := redis_param_sds cmd stamp
      let cmd := redis_param_raw cmd sf.1
      let cmd2 := redis_command 3
      let cmd2 := redis_param_str cmd2 "EXPIRE"
      let cmd2 := redis_param_sds cmd2 key
      let cmd2 := redis_param_sds cmd2 env.streamexpire
      some (r.1,
        r.2 ++
        [Event.request { name := "XADD", key := some key, cmd := cmd,
                         callback := Callback.redis_series_stream_callback },
         Event.request { name := "EXPIRE", key := some key, cmd := cmd2,
                         callback := Callback.redis_series_timer_callback }])

/-- The `for` loop of `redis_series_streamed` over the names of the metric. -/
def streamedNames (env : Env) (stamp : String) (metric : metric_t) :
    List seriesname_t → seriesLoadBaton → Option (seriesLoadBaton × List Event)
  | [], l => some (l, [])
  | n :: rest, l =>
    match redis_series_stream env l stamp metric (pmwebapi_hash_str n.hash) true with
    | none => none
    | some a =>
      match streamedNames env stamp metric rest a.1 with
      | none => none
      | some r => some (r.1, a.2 ++ r.2)

/-- Source: `redis_series_streamed`. -/
def redis_series_streamed (env : Env) (l : seriesLoadBaton) (stamp : String) (metric : metric_t) :
    Option (seriesLoadBaton × List Event) :=
  streamedNames env stamp metric metric.names l

/-- The first loop of `redis_series_metric`: every name of a metric that is
not cached is handed to `redisGetMap` on the names map, one reference each;
`redisGetMap` writes the hash of the name into `names[i].id`. -/
def mapNames (env : Env) : List seriesname_t → seriesLoadBaton → seriesLoadBaton × List seriesname_t × List Event
  | [], l => (l, [], [])
  | n :: rest, l =>
    let r := l.references 1
    let g := redisGetMap env.string_hash r.1.namesmap n.sds
      redisDoneCallBack.series_name_mapping_callback true
    let m := loadGetMap { r.1 with namesmap := g.mapping } g
    let t := mapNames env rest m.1
    (t.1, { n with id := env.string_hash n.sds } :: t.2.1, r.2 ++ m.2 ++ t.2.2)

/-- The loop of `redis_series_metric` over the value list: the name of every
instance that resolves is handed to `redisGetMap` on the instance map, and the
labels of an instance that is not cached are mapped. -/
def mapInstances (env : Env) : List value_t → seriesLoadBaton → indom_t → seriesLoadBaton × indom_t × List Event
  | [], l, d => (l, d, [])
  | v :: rest, l, d =>
    match d.fetch v.inst with
    | none => mapInstances env rest l d
    | some ins =>
      let r := l.references 1
      let g := redisGetMap env.string_hash r.1.instmap ins.name.sds
        redisDoneCallBack.series_name_mapping_callback true
      let m := loadGetMap { r.1 with instmap := g.mapping } g
      let ins1 : instance_t := { ins with name := { ins.name with id := env.string_hash ins.name.sds } }
      let lm : seriesLoadBaton × instance_t × List Event :=
        if ins1.cached = false then series_instance_label_mapping env m.1 ins1
        else (m.1, ins1, [])
      let t := mapInstances env rest lm.1 (d.store lm.2.1)
      (t.1, t.2.1, r.2 ++ m.2 ++ lm.2.2 ++ t.2.2)

/-- The first half of `redis_series_metric`: the mappings for the metric
names, the instance names, and the label names and values. -/
def seriesMetricMappings (env : Env) (l : seriesLoadBaton) (metric : metric_t) :
    Option (seriesLoadBaton × metric_t × List Event) :=
  let a : seriesLoadBaton × metric_t × List Event :=
    if metric.cached = false then
      let m := mapNames env metric.names l
      (m.1, { metric with names := m.2.1 }, m.2.2)
    else (l, metric, [])
  if metric.desc.indomNull ∨ metric.vlist = none then
    if metric.cached = false then
      let b := series_metric_label_mapping env a.1 a.2.1
      some (b.1, b.2.1, a.2.2 ++ b.2.2)
    else some a
  else
    match metric.indom with
    | none => if metric.vlist.getD [] = [] then some a else none
    | some d =>
      let b := mapInstances env (metric.vlist.getD []) a.1 d
      some (b.1, { a.2.1 with indom := some b.2.1 }, a.2.2 ++ b.2.2)

/-- Source: `redis_series_metric`.  The result is `none` when the code reads
through a NULL pointer. -/
def redis_series_metric (env : Env) (l : seriesLoadBaton) (context : context_t) (metric : metric_t)
    (timestamp : String) (meta data : Bool) : Option (seriesLoadBaton × metric_t × List Event) :=
  match seriesMetricMappings env l metric with
  | none => none
  | some a =>
    let b : Option (seriesLoadBaton × metric_t × List Event) :=
      if meta ∨ data then redis_series_metadata env a.1 context a.2.1
      else some (a.1, a.2.1, [])
    match b with
    | none => none
    | some b =>
      if data then
        match redis_series_streamed env b.1 timestamp b.2.1 with
        | none => none
        | some c => some (c.1, b.2.1, a.2.2 ++ b.2.2 ++ c.2)
      else some (b.1, b.2.1, a.2.2 ++ b.2.2)

/-! ## The causal order of metadata and values -/

/-- Is the event the issue of a write that publishes a descriptor, a context,
an instance or a label (`HMSET` or `SADD`)? -/
def Event.isMetadata : Event → Bool
  | .request r => r.name == "HMSET" || r.name == "SADD"
  | _ => false

/-- Is the event the issue of an `XADD`? -/
def Event.isXadd : Event → Bool := Event.isRequest "XADD"

/-- Is the event the run of a reply handler? -/
def Event.isReplied : Event → Bool
  | .replied _ => true
  | _ => false

/-- The causal rule of section 3 read over a trace of events, where `awaited`
holds the reply handlers of the metadata writes issued so far whose reply has
not come: an `XADD` may only be issued while none is awaited. -/
def causallyOrdered : List Callback → List Event → Bool
  | _, [] => true
  | awaited, .request r :: es =>
    if r.name == "XADD" then awaited.isEmpty && causallyOrdered awaited es
    else if r.name == "HMSET" || r.name == "SADD" then
      causallyOrdered (r.callback :: awaited) es
    else causallyOrdered awaited es
  | awaited, .replied cb :: es => causallyOrdered (awaited.erase cb) es
  | awaited, _ :: es => causallyOrdered awaited es

/-- The order of issue alone: once an `XADD` has been issued, no metadata
write is issued after it. -/
def metadataIssuedFirst : List Event → Bool
  | [] => true
  | e :: es => (!Event.isXadd e || es.all fun x => !Event.isMetadata x) && metadataIssuedFirst es

/-- The event is neither the issue of an `XADD` nor the run of a reply
handler. -/
def Event.beforeValues (e : Event) : Bool := !Event.isXadd e && !Event.isReplied e

/-- The event is neither the issue of a metadata write nor the run of a reply
handler. -/
def Event.valuesOnly (e : Event) : Bool := !Event.isMetadata e && !Event.isReplied e

/-! ## The frames of the value stream -/

/-- The rendering of a value by the type of its metric, as the `switch` of
`series_stream_value` makes it. -/
def formatAtom (env : Env) (type : PmType) (a : pmAtomValue) : String :=
  match type with
  | .i32 => toString a.l
  | .u32 => toString a.ul
  | .i64 => toString a.ll
  | .u64 => toString a.ull
  | .float => a.f
  | .double => a.d
  | .string => a.cp
  | .aggregate => a.cp
  | .aggregate_static => a.cp
  | _ => toString env.PM_ERR_NYI

/-- The (field, value) pairs of a value list, in value-list order: one pair for
every value whose instance resolves in the instance domain, the field being
the 20 octets of the instance's name hash; none for a value whose instance does
not resolve. -/
def streamPairs (env : Env) (type : PmType) (d : indom_t) (values : List value_t) : List Arg :=
  values.flatMap fun v =>
    match d.fetch v.inst with
    | some ins => [Arg.sha ins.name.hash, Arg.str (formatAtom env type v.atom)]
    | none => []

/-- The `XADD` on the values stream of the series with hex hash `hash`:
`XADD pcp:values:series:<hash> MAXLEN ~ <maxstreamlen> <stamp>` followed by
the given fields, the header declaring `count` elements. -/
def xaddRequest (env : Env) (stamp hash : String) (count : Nat) (fields : List Arg) : Request :=
  { name := "XADD", key := some ("pcp:values:series:" ++ hash),
    cmd := { count := count,
             params := [Arg.str "XADD", Arg.str ("pcp:values:series:" ++ hash),
                        Arg.str "MAXLEN", Arg.str "~", Arg.str env.maxstreamlen,
                        Arg.str stamp] ++ fields },
    callback := Callback.redis_series_stream_callback }

/-- The `EXPIRE pcp:values:series:<hash> <streamexpire>` on the same stream. -/
def expireRequest (env : Env) (hash : String) : Request :=
  { name := "EXPIRE", key := some ("pcp:values:series:" ++ hash),
    cmd := { count := 3,
             params := [Arg.str "EXPIRE", Arg.str ("pcp:values:series:" ++ hash),
                        Arg.str env.streamexpire] },
    callback := Callback.redis_series_timer_callback }

/-- Is the event a call of `redis_search_text_add`? -/
def Event.isSearchText : Event → Bool
  | .searchText _ _ => true
  | _ => false

/-- The number of references some events add to the load baton. -/
def loadReferences : List Event → Nat
  | [] => 0
  | .ref BatonKind.load n :: es => n + loadReferences es
  | _ :: es => loadReferences es

/-! ## The frames of the label and descriptor writes -/

/-- Is the context bit set in a flags bitmask? -/
def contextBitSet (env : Env) (flags : Int) : Bool :=
  (flags.toNat &&& env.PM_LABEL_CONTEXT.toNat) != 0

/-- The frame `HMSET pcp:labelflags:series:<hash> <name-hash> <flags>`. -/
def labelflagsRequest (hash : String) (list : labellist_t) : Request :=
  { name := "HMSET", key := some ("pcp:labelflags:series:" ++ hash),
    cmd := { count := 4,
             params := [Arg.str "HMSET", Arg.str ("pcp:labelflags:series:" ++ hash),
                        Arg.sha list.nameid, Arg.str (toString list.flags)] },
    callback := Callback.redis_series_labelflags_callback }

/-- The frame `HMSET pcp:labelvalue:series:<hash> <name-hash> <value-hash>`. -/
def labelvalueRequest (hash : String) (list : labellist_t) : Request :=
  { name := "HMSET", key := some ("pcp:labelvalue:series:" ++ hash),
    cmd := { count := 4,
             params := [Arg.str "HMSET", Arg.str ("pcp:labelvalue:series:" ++ hash),
                        Arg.sha list.nameid, Arg.sha list.valueid] },
    callback := Callback.redis_series_labelvalue_callback }

/-- The frame `HMSET pcp:map:label.<name-hash>.value <value-hash> <value>`. -/
def maplabelvalueRequest (list : labellist_t) : Request :=
  { name := "HMSET",
    key := some ("pcp:map:label." ++ pmwebapi_hash_str list.nameid ++ ".value"),
    cmd := { count := 4,
             params := [Arg.str "HMSET",
                        Arg.str ("pcp:map:label." ++ pmwebapi_hash_str list.nameid ++ ".value"),
                        Arg.sha list.valueid, Arg.str list.value] },
    callback := Callback.redis_series_maplabelvalue_callback }

/-- The frame `SADD pcp:series:label.<name-hash>.value:<value-hash>` with the
series hashes of all names of the metric. -/
def labelSetRequest (metric : metric_t) (list : labellist_t) : Request :=
  { name := "SADD",
    key := some ("pcp:series:label." ++ pmwebapi_hash_str list.nameid ++ ".value:"
            ++ pmwebapi_hash_str list.valueid),
    cmd := { count := 2 + metric.names.length,
             params := [Arg.str "SADD",
                        Arg.str ("pcp:series:label." ++ pmwebapi_hash_str list.nameid
                          ++ ".value:" ++ pmwebapi_hash_str list.valueid)]
                       ++ metric.names.map fun n => Arg.sha n.hash },
    callback := Callback.redis_series_label_set_callback }

/-- The three descriptor frames for one name of a metric:
`SADD pcp:series:metric.name:<hex name-hash> <series-hash>`,
`SADD pcp:metric.name:series:<hex series-hash> <name-hash>` and the 14-element
`HMSET pcp:desc:series:<hex series-hash>` with the fields indom, pmid,
semantics, source, type and units. -/
def descNameRequests (context : context_t) (metric : metric_t) (n : seriesname_t) :
    List Request :=
  [{ name := "SADD", key := some ("pcp:series:metric.name:" ++ pmwebapi_hash_str n.id),
     cmd := { count := 3,
              params := [Arg.str "SADD",
                         Arg.str ("pcp:series:metric.name:" ++ pmwebapi_hash_str n.id),
                         Arg.sha n.hash] },
     callback := Callback.redis_series_metric_name_callback },
   { name := "SADD", key := some ("pcp:metric.name:series:" ++ pmwebapi_hash_str n.hash),
     cmd := { count := 3,
              params := [Arg.str "SADD",
                         Arg.str ("pcp:metric.name:series:" ++ pmwebapi_hash_str n.hash),
                         Arg.sha n.id] },
     callback := Callback.redis_metric_name_series_callback },
   { name := "HMSET", key := some ("pcp:desc:series:" ++ pmwebapi_hash_str n.hash),
     cmd := { count := 14,
              params := [Arg.str "HMSET",
                         Arg.str ("pcp:desc:series:" ++ pmwebapi_hash_str n.hash),
                         Arg.str "indom", Arg.str metric.desc.indom,
                         Arg.str "pmid", Arg.str metric.desc.pmid,
                         Arg.str "semantics", Arg.str metric.desc.sem,
                         Arg.str "source", Arg.sha context.name.hash,
                         Arg.str "type", Arg.str metric.desc.typeStr,
                         Arg.str "units", Arg.str metric.desc.units] },
     callback := Callback.redis_desc_series_callback }]

/-- The frame `SADD pcp:series:context.name:<hex context id>` with the series
hashes of all names of the metric. -/
def contextSeriesRequest (context : context_t) (metric : metric_t) : Request :=
  { name := "SADD",
    key := some ("pcp:series:context.name:" ++ pmwebapi_hash_str context.name.id),
    cmd := { count := 2 + metric.names.length,
             params := [Arg.str "SADD",
                        Arg.str ("pcp:series:context.name:"
                          ++ pmwebapi_hash_str context.name.id)]
                       ++ metric.names.map fun n => Arg.sha n.hash },
    callback := Callback.redis_series_source_callback }

/-- The descriptor requests of a metric: the three frames of every name, in the
order of the names, then the one frame for the context. -/
def descRequests (context : context_t) (metric : metric_t) : List Request :=
  (metric.names.flatMap fun n => descNameRequests context metric n)
    ++ [contextSeriesRequest context metric]

/-! ## The cached marks -/

/-- The instance domain once the loop of `redis_series_metadata` has gone
through a value list: every instance that resolved has been marked cached. -/
def markCached (d : indom_t) : List value_t → indom_t
  | [] => d
  | v :: rest =>
    match d.fetch v.inst with
    | some ins => markCached (d.store { ins with cached := true }) rest
    | none => markCached d rest

/-! ## The text of an `INFO SERVER` reply -/

/-- The value of a string of decimal digits. -/
def decimalValue (ds : List Char) : Nat :=
  ds.foldl (fun acc c => acc * 10 + (c.toNat - 48)) 0

/-- A line the scan for the server version passes over: it is not empty, holds
neither a newline nor a NUL, and does not begin with `redis_version:`. -/
def passedLine (ln : List Char) : Bool :=
  !ln.isEmpty && ln.all (fun c => !(c == '\n' || c.toNat == 0))
    && !"redis_version:".toList.isPrefixOf ln

/-- A reply text: the lines `pre`, each ended by a newline, then a line that
begins with `redis_version:`, the digits `ds` and a '.', then any text `rest`
(the end of that line and all later lines). -/
def infoText (pre : List (List Char)) (ds rest : List Char) : List Char :=
  (pre.flatMap fun ln => ln ++ ['\n']) ++ ("redis_version:".toList ++ (ds ++ '.' :: rest))

/-! ## The reconnect worker of pmproxy -/

/-- The reconnect interval in seconds (`#define REDIS_RECONNECT_INTERVAL 2`). -/
def REDIS_RECONNECT_INTERVAL : Nat := 2

/-- What `redis_reconnect_worker` reads of the proxy when the timer fires: the
state of the slots object (`none` when `proxy->slots` is NULL) and the debug
option `pmDebugOptions.desperate`. -/
structure ProxyView where
  slots : Option Nat
  desperate : Bool
deriving DecidableEq, Repr

/-- What one invocation of the reconnect worker does besides keeping its
counter. -/
inductive WorkerEvent where
  /-- The test of the slots object and its state was reached. -/
  | stateChecked
  /-- The message "Trying to connect to Redis ..." was logged. -/
  | logged
  /-- A call of `redisSlotsReconnect`, which re-runs the bootstrap chain. -/
  | reconnect
deriving DecidableEq, Repr

/-- What an invocation that reaches the state test does: the chain is re-run
exactly when the slots object exists and is in the state `disconnected`. -/
def workerCheck (disconnected : Nat) (proxy : ProxyView) : List WorkerEvent :=
  if proxy.slots = none ∨ proxy.slots ≠ some disconnected then [WorkerEvent.stateChecked]
  else
    [WorkerEvent.stateChecked] ++ (if proxy.desperate then [WorkerEvent.logged] else [])
      ++ [WorkerEvent.reconnect]

/-- Source: `redis_reconnect_worker` (pmproxy redis.c), called by the timer
every second.  `wait_sec` is its static counter, whose new value is returned;
`disconnected` stands for the state `SLOTS_DISCONNECTED` (slots.h, not among
the sources). -/
def redis_reconnect_worker (disconnected : Nat) (wait_sec : Nat) (proxy : ProxyView) :
    Nat × List WorkerEvent :=
  if wait_sec > 1 then (wait_sec - 1, [])
  else (REDIS_RECONNECT_INTERVAL, workerCheck disconnected proxy)

/-- A sequence of invocations of the reconnect worker, one for each view of
the proxy in turn, from the counter value `wait_sec`: what each invocation
does. -/
def workerRun (disconnected : Nat) : Nat → List ProxyView → List (List WorkerEvent)
  | _, [] => []
  | wait_sec, proxy :: rest =>
    (redis_reconnect_worker disconnected wait_sec proxy).2 ::
      workerRun disconnected (redis_reconnect_worker disconnected wait_sec proxy).1 rest

/-! ## The settings of the series module -/

/-- Modelled from the spec: the configuration dictionary (`struct dict`) and
`pmIniFileLookup` live in ini.c and dict.c, not among the sources.  Section 6:
the configuration is INI-style and an option is named `<section>.<key>`. -/
abbrev dict := List (String × String)

/-- Modelled from the spec: the lookup of option `<group>.<key>` (see `dict`);
`none` stands for the NULL result. -/
def pmIniFileLookup (config : dict) (group key : String) : Option String :=
  (config.find? fun e => e.1 == group ++ "." ++ key).map fun e => e.2

/-- The three settings `redisSeriesInit` keeps: the global `cursorcount` and
the statics `maxstreamlen` and `streamexpire` (`none` for a NULL sds). -/
structure SeriesSettings where
  cursorcount : Option String
  maxstreamlen : Option String
  streamexpire : Option String
deriving DecidableEq, Repr

/-- Source: `redisSeriesInit`. -/
def redisSeriesInit (config : dict) (g : SeriesSettings) : SeriesSettings :=
  let g : SeriesSettings :=
    if g.cursorcount = none then
      match pmIniFileLookup config "pmseries" "cursor.count" with
      | some option => { g with cursorcount := some option }
      | none => { g with cursorcount := some "256" }
    else g
  let g : SeriesSettings :=
    if g.maxstreamlen = none then
      match pmIniFileLookup config "pmseries" "stream.maxlen" with
      | some option => { g with maxstreamlen := some option }
      | none => { g with maxstreamlen := some "8640" }
    else g
  let g : SeriesSettings :=
    if g.streamexpire = none then
      match pmIniFileLookup config "pmseries" "stream.expire" with
      | some option => { g with streamexpire := some option }
      | none => { g with streamexpire := some "86400" }
    else g
  g

/-- The settings before the first call: the three variables are zeroed. -/
def SeriesSettings.unset : SeriesSettings :=
  { cursorcount := none, maxstreamlen := none, streamexpire := none }

/-- A sequence of `redisSeriesInit` calls, one for each configuration in turn. -/
def redisSeriesInitTimes (g : SeriesSettings) : List dict → SeriesSettings
  | [] => g
  | config :: rest => redisSeriesInitTimes (redisSeriesInit config g) rest

/-! ## The script table -/

/-- Source: `redis_series_source`.  `location` holds the `%.8f` renderings of
`context->location[0]` and `context->location[1]`. -/
def redis_series_source (l : seriesLoadBaton) (context : context_t) (location : String × String) :
    seriesLoadBaton × List Event :=
  let r := l.references 4
  let key1 := "pcp:source:context.name:" ++ pmwebapi_hash_str context.name.id
  let cmd1 := redis_command 3
  let cmd1 := redis_param_str cmd1 "SADD"
  let cmd1 := redis_param_sds cmd1 key1
  let cmd1 := redis_param_sha cmd1 context.name.hash
  let key2 := "pcp:source:context.name:" ++ pmwebapi_hash_str context.hostid
  let cmd2 := redis_command 3
  let cmd2 := redis_param_str cmd2 "SADD"
  let cmd2 := redis_param_sds cmd2 key2
  let cmd2 := redis_param_sha cmd2 context.name.hash
  let key3 := "pcp:context.name:source:" ++ pmwebapi_hash_str context.name.hash
  let cmd3 := redis_command 4
  let cmd3 := redis_param_str cmd3 "SADD"
  let cmd3 := redis_param_sds cmd3 key3
  let cmd3 := redis_param_sha cmd3 context.name.id
  let cmd3 := redis_param_sha cmd3 context.hostid
  let key4 := "pcp:source:location"
  let val := location.1
  let val2 := location.2
  let cmd4 := redis_command 5
  let cmd4 := redis_param_str cmd4 "GEOADD"
  let cmd4 := redis_param_sds cmd4 key4
  let cmd4 := redis_param_sds cmd4 val2
  let cmd4 := redis_param_sds cmd4 val
  let cmd4 := redis_param_sha cmd4 context.name.hash
  (r.1,
   r.2 ++
   [Event.request { name := "SADD", key := some key1, cmd := cmd1,
                    callback := Callback.redis_source_context_name },
    Event.request { name := "SADD", key := some key2, cmd := cmd2,
                    callback := Callback.redis_source_context_name },
    Event.request { name := "SADD", key := some key3, cmd := cmd3,
                    callback := Callback.redis_context_name_source },
    Event.request { name := "GEOADD", key := some key4, cmd := cmd4,
                    callback := Callback.redis_source_location }])

/-- The reply handlers that end in `doneSeriesLoadBaton`, directly or through
`doneRedisStreamBaton`: those handed the load baton or a stream baton. -/
def Callback.dereferencesLoad (cb : Callback) : Bool :=
  cb.batonKind == BatonKind.load || cb.batonKind == BatonKind.stream

/-- The store requests among some events whose reply handler dereferences the
load baton. -/
def loadRequests (ev : List Event) : List Request :=
  (requests ev).filter fun r => r.callback.dereferencesLoad

/-! ## The slot map -/

/-- The error code `EINVAL` (errno.h). -/
def EINVAL : Int := 22

/-- One server of a slot range (`redisSlotServer`): its `host:port` text
(`none` while `hostspec` is NULL). -/
structure redisSlotServer where
  hostspec : Option String
deriving DecidableEq, Repr

/-- One range of the slot map (`redisSlotRange`). -/
structure redisSlotRange where
  start : Nat
  end_ : Nat
  primary : redisSlotServer
  nreplicas : Nat
  replicas : List redisSlotServer
deriving DecidableEq, Repr

/-- The children of a reply (`reply->element`, `reply->elements` of them):
those of an aggregate, none for any other reply. -/
def redisReply.elements : redisReply → List redisReply
  | .array es => es
  | .map es => es
  | .set es => es
  | _ => []

/-- Modelled from the spec: `checkArrayReply` lives in util.c, not among the
sources.  Sections 7 and 9: a reply that is not an array is logged and the
caller sees failure (-1); an array passes (0). -/
def checkArrayReply (reply : redisReply) (what : String) : Int × List Event :=
  match reply with
  | .array _ => (0, [])
  | _ => (-1, [Event.info LogLevel.response what])

/-- Source: `decodeRedisNode`: the result code, the `hostspec` written into
the server, and the log messages.  The port goes through `(unsigned int)` and
is rendered by `%u`. -/
def decodeRedisNode (reply : redisReply) : Int × Option String × List Event :=
  if reply.elements.length < 2 then
    (-EINVAL, none,
     [Event.info LogLevel.warning "insufficient elements in cluster NODE reply"])
  else
    match reply.elements.get? 1 with
    | some (.integer integer) =>
      let port := toUnsigned integer
      match reply.elements.get? 0 with
      | some (.string str) => (0, some (str ++ ":" ++ toString port), [])
      | _ =>
        (-EINVAL, none,
         [Event.info LogLevel.warning "expected string hostspec in cluster NODE reply"])
    | _ =>
      (-EINVAL, none,
       [Event.info LogLevel.warning "expected integer port in cluster NODE reply"])

/-- Modelled from the spec: `redisSlotRangeInsert` lives in slots.c, not among
the sources.  Section 4.3: the slot map is a table of slot ranges with the
operation `insert(range)`; the range joins the table and 0 is returned. -/
def redisSlotRangeInsert (slots : List redisSlotRange) (sp : redisSlotRange) :
    Int × List redisSlotRange :=
  (0, slots ++ [sp])

/-- The loop of `decodeRedisSlot` over the replica nodes `element[i + 3]`:
each one that is an array is decoded into `replicas[i]` (the result code is not
looked at); the entry of any other stays zeroed. -/
def decodeReplicas (start end_ : Nat) : List redisReply → Nat → List redisSlotServer × List Event
  | [], _ => ([], [])
  | node :: rest, i =>
    let chk := checkArrayReply node
      ("SLOTS range " ++ toString start ++ "-" ++ toString end_ ++ " replica " ++ toString i)
    let d : Option String × List Event :=
      if chk.1 = 0 then (decodeRedisNode node).2 else (none, [])
    let r := decodeReplicas start end_ rest (i + 1)
    ({ hostspec := d.1 } :: r.1, chk.2 ++ d.2 ++ r.2)

/-- Source: `decodeRedisSlot`, on the slot map `slots`: the result code, the
slot map afterwards and the log messages.  Both `calloc` calls are taken to
succeed.  Start and end go through `(__uint32_t)`. -/
def decodeRedisSlot (slots : List redisSlotRange) (reply : redisReply) :
    Int × List redisSlotRange × List Event :=
  if reply.elements.length < 3 then
    (-EINVAL, slots,
     [Event.info LogLevel.warning "insufficient elements in cluster SLOT reply"])
  else
    let s := checkIntegerReply (reply.elements.get? 0) "SLOT start"
    if s.1 < 0 then
      (-EINVAL, slots,
       s.2 ++ [Event.info LogLevel.warning "expected integer start in cluster SLOT reply"])
    else
      let start := toUnsigned s.1
      let e := checkIntegerReply (reply.elements.get? 1) "SLOT end"
      if e.1 < 0 then
        (-EINVAL, slots,
         s.2 ++ e.2 ++ [Event.info LogLevel.warning "expected integer end in cluster SLOT reply"])
      else
        let end_ := toUnsigned e.1
        let p := decodeRedisNode ((reply.elements.get? 2).getD redisReply.nil)
        if p.1 < 0 then (-EINVAL, slots, s.2 ++ e.2 ++ p.2.2)
        else
          let n := reply.elements.length - 3
          let rs := decodeReplicas start end_ (reply.elements.drop 3) 0
          let sp : redisSlotRange :=
            { start := start, end_ := end_, primary := { hostspec := p.2.1 },
              nreplicas := n, replicas := rs.1 }
          let ins := redisSlotRangeInsert slots sp
          (ins.1, ins.2, s.2 ++ e.2 ++ p.2.2 ++ rs.2)

/-- Is the primary node of an entry malformed: fewer than two elements, a
first element that is not a string or a second that is not an integer? -/
def malformedNode (node : redisReply) : Bool :=
  match node.elements with
  | .string _ :: .integer _ :: _ => false
  | _ => true

/-- Is a `CLUSTER SLOTS` entry one that is refused: fewer than three elements,
a start or end that is not an integer or is negative, or a malformed primary
node? -/
def refusedEntry (reply : redisReply) : Bool :=
  match reply.elements with
  | .integer s :: .integer e :: node :: _ => decide (s < 0) || decide (e < 0) || malformedNode node
  | _ => true

/-! ## The connection callback of pmproxy -/

/-- The two tables of discovery callbacks of pmproxy redis.c. -/
inductive DiscoverTable where
  | redis_series
  | redis_search
deriving DecidableEq, Repr

/-- A copy of a table of discovery callbacks (`pmDiscoverCallBacks`): which
table it was copied from, and its `next` link. -/
structure pmDiscoverCallBacks where
  table : DiscoverTable
  next : Option DiscoverTable
deriving DecidableEq, Repr

/-- The static variables of pmproxy redis.c that `on_redis_connected` reads or
writes: the four module settings, the `next` link of the table `redis_series`
and the member `callbacks` of `redis_discover` (`none` while zeroed). -/
structure RedisModule where
  search_queries : Bool
  series_queries : Bool
  redis_protocol : Bool
  archive_discovery : Bool
  redis_series_next : Option DiscoverTable
  callbacks : Option pmDiscoverCallBacks
deriving DecidableEq, Repr

/-- What `on_redis_connected` does to the outside. -/
inductive ConnectEvent where
  /-- A call of `pmNotifyErr(LOG_INFO, "%s setup\n", message)`. -/
  | notify (message : String)
  | pmDiscoverSetEventLoop
  | pmDiscoverSetConfiguration
  | pmDiscoverSetMetricRegistry
  /-- A call of `pmDiscoverSetup` with the callbacks of `redis_discover`. -/
  | pmDiscoverSetup (callbacks : Option pmDiscoverCallBacks)
  | pmDiscoverSetSlots
deriving DecidableEq, Repr

/-- Source: `on_redis_connected` (pmproxy redis.c).  `searchEnabled` is what
`pmSearchEnabled(proxy->slots)` returns at this invocation (search.c, not among
the sources); `redisetup` is `proxy->redisetup`. -/
def on_redis_connected (searchEnabled : Bool) (m : RedisModule) (redisetup : Int) :
    RedisModule × Int × List ConnectEvent :=
  let message := "Redis slots"
  let message := if m.redis_protocol then message ++ ", command keys" else message
  let m := { m with search_queries := searchEnabled }
  let message := if m.search_queries then message ++ ", RediSearch" else message
  let message := if m.series_queries then message ++ ", schema version" else message
  let log := [ConnectEvent.notify (message ++ " setup\n")]
  if redisetup = 1 then (m, redisetup, log)
  else
    let m : RedisModule :=
      if m.series_queries then
        let m : RedisModule :=
          if m.search_queries then
            { m with redis_series_next := some DiscoverTable.redis_search }
          else m
        let copy : pmDiscoverCallBacks :=
          { table := DiscoverTable.redis_series, next := m.redis_series_next }
        { m with callbacks := some copy }
      else if m.search_queries then
        let copy : pmDiscoverCallBacks := { table := DiscoverTable.redis_search, next := none }
        { m with callbacks := some copy }
      else m
    let setup : List ConnectEvent :=
      if m.archive_discovery ∧ (m.series_queries ∨ m.search_queries) then
        [ConnectEvent.pmDiscoverSetEventLoop, ConnectEvent.pmDiscoverSetConfiguration,
         ConnectEvent.pmDiscoverSetMetricRegistry, ConnectEvent.pmDiscoverSetup m.callbacks,
         ConnectEvent.pmDiscoverSetSlots]
      else []
    (m, 1, log ++ setup)

/-- A sequence of invocations of `on_redis_connected` on one proxy, one for
each answer of `pmSearchEnabled` in turn: the module and the `redisetup` flag
after each invocation, with what the invocation did. -/
def connectRun : RedisModule → Int → List Bool → List (RedisModule × Int × List ConnectEvent)
  | _, _, [] => []
  | m, redisetup, s :: rest =>
    let r := on_redis_connected s m redisetup
    r :: connectRun r.1 r.2.1 rest

/-- Is the event one of the calls that configure or register the discovery
module? -/
def ConnectEvent.isDiscover : ConnectEvent → Bool
  | .notify _ => false
  | _ => true

/-! ## Descriptor PDUs (`p_desc.c` of libpcp) -/

/-- The conversions and constants `p_desc.c` takes from the C library
(`htonl`, `ntohl`), from endian.c (`__htonpmID`, `__ntohpmID`, `__htonpmInDom`,
`__ntohpmInDom`, `__htonpmUnits`, `__ntohpmUnits`) and from pmapi.h and
libpcp.h, none of them among the sources.  Each conversion works on the one
32-bit word of its argument. -/
structure Libpcp where
  htonl : Nat → Nat
  ntohl : Nat → Nat
  __htonpmID : Nat → Nat
  __ntohpmID : Nat → Nat
  __htonpmInDom : Nat → Nat
  __ntohpmInDom : Nat → Nat
  __htonpmUnits : Nat → Nat
  __ntohpmUnits : Nat → Nat
  PM_ID_NULL : Nat
  PM_ERR_IPC : Int
  PDU_DESC : Int
  PDU_DESCS : Int

/-- A conversion to network byte order and the one back: the result is again
a 32-bit word, and converting back recovers the word. -/
def roundTrips (hton ntoh : Nat → Nat) : Prop :=
  ∀ x, x < 4294967296 → hton x < 4294967296 ∧ ntoh (hton x) = x

/-- The four pairs of conversions are inverse to each other on 32-bit words. -/
def Libpcp.lawful (env : Libpcp) : Prop :=
  roundTrips env.htonl env.ntohl ∧ roundTrips env.__htonpmID env.__ntohpmID ∧
    roundTrips env.__htonpmInDom env.__ntohpmInDom ∧
    roundTrips env.__htonpmUnits env.__ntohpmUnits

/-- The conversion of a 32-bit word to `int`. -/
def toSigned (w : Nat) : Int :=
  if w % 4294967296 < 2147483648 then ((w % 4294967296 : Nat) : Int)
  else ((w % 4294967296 : Nat) : Int) - 4294967296

/-- The conversion of a `ptrdiff_t` to `size_t` that a comparison with a
`sizeof` makes. -/
def toSize (n : Int) : Nat := (n % 18446744073709551616).toNat

/-- A metric descriptor (`pmDesc`, pmapi.h): `pmid` and `indom` are unsigned
32-bit identifiers, `type` and `sem` are `int`, and `units` is the 32-bit word
that holds the bit-fields of `pmUnits`. -/
structure pmDesc where
  pmid : Nat
  type : Int
  indom : Nat
  sem : Int
  units : Nat
deriving DecidableEq, Repr

/-- Does every field of a descriptor hold a value of its C type? -/
def pmDesc.valid (d : pmDesc) : Bool :=
  decide (d.pmid < 4294967296) && decide (-2147483648 ≤ d.type) && decide (d.type < 2147483648)
    && decide (d.indom < 4294967296) && decide (-2147483648 ≤ d.sem)
    && decide (d.sem < 2147483648) && decide (d.units < 4294967296)

/-- The header of a PDU (`__pmPDUHdr`, libpcp.h): three `int`s.  The field
`from_` is `from`. -/
structure __pmPDUHdr where
  len : Int
  type : Int
  from_ : Int
deriving DecidableEq, Repr

/-- The PDU of a `pmLookupDesc` result (`desc_t`). -/
structure desc_t where
  hdr : __pmPDUHdr
  desc : pmDesc
deriving DecidableEq, Repr

/-- The PDU of a `pmLookupDescs` result (`descs_t`); `desc` holds the
descriptors that follow `numdescs` in the buffer. -/
structure descs_t where
  hdr : __pmPDUHdr
  numdescs : Int
  desc : List pmDesc
deriving DecidableEq, Repr

/-- The size of `desc_t` in octets: a header of three `int`s and a descriptor
of five 32-bit fields. -/
def sizeof_desc_t : Nat := 32

/-- The size of `descs_t` in octets: a header, the `int` count and one
descriptor. -/
def sizeof_descs_t : Nat := 36

/-- The size of `pmDesc` in octets. -/
def sizeof_pmDesc : Nat := 20

/-- The largest `int` (`INT_MAX`). -/
def INT_MAX : Nat := 2147483647

/-- The five assignments that put a descriptor into a PDU, each field
converted to network byte order; the two `int` fields pass through `uint32_t`
and back. -/
def htonDesc (env : Libpcp) (desc : pmDesc) : pmDesc :=
  { type := toSigned (env.htonl (toUnsigned desc.type))
    sem := toSigned (env.htonl (toUnsigned desc.sem))
    indom := env.__htonpmInDom desc.indom
    units := env.__htonpmUnits desc.units
    pmid := env.__htonpmID desc.pmid }

/-- The five assignments that take a descriptor out of a PDU. -/
def ntohDesc (env : Libpcp) (desc : pmDesc) : pmDesc :=
  { type := toSigned (env.ntohl (toUnsigned desc.type))
    sem := toSigned (env.ntohl (toUnsigned desc.sem))
    indom := env.__ntohpmInDom desc.indom
    units := env.__ntohpmUnits desc.units
    pmid := env.__ntohpmID desc.pmid }

/-- Source: `__pmSendDesc`: the PDU that is handed to `__pmXmitPDU` (the
buffer is taken to be found). -/
def __pmSendDesc (env : Libpcp) (ctx : Int) (desc : pmDesc) : desc_t :=
  { hdr := { len := sizeof_desc_t, type := env.PDU_DESC, from_ := ctx }
    desc := htonDesc env desc }

/-- Source: `__pmDecodeDesc`: the result code and the descriptor written
(`none` when nothing is written). -/
def __pmDecodeDesc (env : Libpcp) (pp : desc_t) : Int × Option pmDesc :=
  if toSize pp.hdr.len ≠ sizeof_desc_t then (env.PM_ERR_IPC, none)
  else (0, some (ntohDesc env pp.desc))

/-- Source: `__pmSendDescs` for the array `descs` of `numdescs` descriptors:
the error code, or the PDU that is handed to `__pmXmitPDU` (the buffer is taken
to be found).  `need` is computed in `size_t` and stored in an `int`. -/
def __pmSendDescs (env : Libpcp) (ctx : Int) (descs : List pmDesc) : Except Int descs_t :=
  let numdescs : Int := descs.length
  if numdescs ≤ 0 then Except.error (-EINVAL)
  else
    let need : Int := toSigned (sizeof_descs_t + toSize (numdescs - 1) * sizeof_pmDesc)
    Except.ok
      { hdr := { len := need, type := env.PDU_DESCS, from_ := ctx }
        numdescs := toSigned (env.htonl (toUnsigned numdescs))
        desc := descs.map (htonDesc env) }

/-- The loop of `__pmDecodeDescs` over `total` descriptors of the buffer: the
count of those whose `pmid` is not `PM_ID_NULL` and the descriptors written;
`none` when the buffer holds fewer descriptors than are read. -/
def decodeDescsLoop (env : Libpcp) : Nat → List pmDesc → Option (Int × List pmDesc)
  | 0, _ => some (0, [])
  | _ + 1, [] => none
  | total + 1, w :: ws =>
    let desc := ntohDesc env w
    match decodeDescsLoop env total ws with
    | none => none
    | some r => some ((if desc.pmid ≠ env.PM_ID_NULL then 1 else 0) + r.1, desc :: r.2)

/-- Source: `__pmDecodeDescs`: the result (an error code or the count) and the
descriptors written into `desclist`. -/
def __pmDecodeDescs (env : Libpcp) (pp : descs_t) (numdescs : Int) :
    Option (Int × List pmDesc) :=
  if toSize pp.hdr.len < sizeof_descs_t then some (env.PM_ERR_IPC, [])
  else
    let total : Int := toSigned (env.ntohl (toUnsigned pp.numdescs))
    if total ≤ 0 ∨ total ≠ numdescs ∨ toSize total > INT_MAX / sizeof_pmDesc then
      some (env.PM_ERR_IPC, [])
    else if toSize pp.hdr.len ≠
        (sizeof_descs_t + toSize (total - 1) * sizeof_pmDesc) % 18446744073709551616 then
      some (env.PM_ERR_IPC, [])
    else decodeDescsLoop env total.toNat pp.desc

/-- The byte swap of a 32-bit word. -/
def bswap32 (x : Nat) : Nat :=
  (x % 256) * 16777216 + (x / 256 % 256) * 65536 + (x / 65536 % 256) * 256 + x / 16777216 % 256

/-- The conversions on a host of little-endian byte order, each one a byte
swap, with `PM_ID_NULL` the word of all ones and sample codes for the other
constants. -/
def littleEndianHost : Libpcp :=
  { htonl := bswap32, ntohl := bswap32
    __htonpmID := bswap32, __ntohpmID := bswap32
    __htonpmInDom := bswap32, __ntohpmInDom := bswap32
    __htonpmUnits := bswap32, __ntohpmUnits := bswap32
    PM_ID_NULL := 4294967295
    PM_ERR_IPC := -12366
    PDU_DESC := 28674
    PDU_DESCS := 28695 }

/-! ## The wire form of a reply (`redisfmt` of pmproxy) -/

mutual
/-- Source: `redisfmt` (pmproxy redis.c) for a reply that is there: the reply
in the store's wire protocol.  The characters of a string stand for its
octets, `reply->elements` is the number of children, and `%U` and `%I` render
in decimal. -/
def redisfmt : redisReply → String
  | .string s => "$" ++ toString s.length ++ "\r\n" ++ s ++ "\r\n"
  | .array es => "*" ++ toString es.length ++ "\r\n" ++ redisfmtElements es
  | .map es => "%" ++ toString es.length ++ "\r\n" ++ redisfmtElements es
  | .set es => "~" ++ toString es.length ++ "\r\n" ++ redisfmtElements es
  | .integer n => ":" ++ toString n ++ "\r\n"
  | .double s => "," ++ s ++ "\r\n"
  | .status s => "+" ++ s ++ "\r\n"
  | .error s => "-" ++ s ++ "\r\n"
  | .bool n => "#" ++ (if n ≠ 0 then "t" else "f") ++ "\r\n"
  | .nil => "$-1\r\n"
/-- The loop of `redisfmt` over the children of an aggregate: their wire forms,
one after the other. -/
def redisfmtElements : List redisReply → String
  | [] => ""
  | e :: es => redisfmt e ++ redisfmtElements es
end

/-- Source: `redisfmt` on a reply pointer: the empty string for NULL. -/
def redisfmtReply (reply : Option redisReply) : String :=
  match reply with
  | none => ""
  | some r => redisfmt r

mutual
/-- Is the reply built from STRING, INTEGER, NIL and BOOL nodes and ARRAY, MAP
and SET nodes only? -/
def redisReply.plain : redisReply → Bool
  | .string _ => true
  | .integer _ => true
  | .nil => true
  | .bool _ => true
  | .array es => plainElements es
  | .map es => plainElements es
  | .set es => plainElements es
  | _ => false
/-- Are all replies of a list plain? -/
def plainElements : List redisReply → Bool
  | [] => true
  | e :: es => e.plain && plainElements es
end

mutual
/-- The reply with every BOOL node reduced to its truth value (1 or 0). -/
def redisReply.byValue : redisReply → redisReply
  | .bool n => .bool (if n ≠ 0 then 1 else 0)
  | .array es => .array (byValueElements es)
  | .map es => .map (byValueElements es)
  | .set es => .set (byValueElements es)
  | r => r
/-- The replies of a list, each with its BOOL nodes reduced to truth values. -/
def byValueElements : List redisReply → List redisReply
  | [] => []
  | e :: es => e.byValue :: byValueElements es
end

/-! ## The help text of an archive (`dumpHelpText` of pmdumplog) -/

/-- The class of one-line help text (`PM_TEXT_ONELINE`, pmapi.h). -/
def PM_TEXT_ONELINE : Nat := 1

/-- The class of full help text (`PM_TEXT_HELP`, pmapi.h). -/
def PM_TEXT_HELP : Nat := 2

/-- The type of help text for a metric (`PM_TEXT_PMID`, pmapi.h). -/
def PM_TEXT_PMID : Nat := 4

/-- The type of help text for an instance domain (`PM_TEXT_INDOM`, pmapi.h). -/
def PM_TEXT_INDOM : Nat := 8

/-- A node of a hash table of help texts (`__pmHashNode`): the identifier as
key (an `unsigned int`) and the text as data. -/
structure __pmHashNode where
  key : Nat
  data : String
deriving DecidableEq, Repr

/-- The help texts of an archive (`l_hashtext`), given by what
`__pmHashSearch(type | class, l_hashtext)` finds (hash.c is not among the
sources): for a key `type | class`, the table of that type and class as the
list of its nodes in the order in which the loops over its buckets and chains
visit them, or `none` when there is no such table. -/
abbrev HelpTexts := Nat → Option (List __pmHashNode)

/-- One help-text entry as `dumpHelpText` prints it: the type and identifier
of the line `PMID: ...` or `InDom: ...`, and the class and text that follow. -/
structure HelpEntry where
  type : Nat
  ident : Nat
  class_ : Nat
  text : String
deriving DecidableEq, Repr

/-- The entry printed for a node of the table of a type and class. -/
def helpEntry (type class_ : Nat) (tp : __pmHashNode) : HelpEntry :=
  { type := type, ident := tp.key, class_ := class_, text := tp.data }

/-- The test of one node in the search of `dumpHelpText`: a node whose
identifier is not above that of the item printed before is passed over; of the
others the one with the lowest identifier so far is kept. -/
def searchStep (prev_item : Option __pmHashNode) (this_item : Option __pmHashNode)
    (tp : __pmHashNode) : Option __pmHashNode :=
  let ident := tp.key
  if (match prev_item with
      | some p => decide (ident ≤ p.key)
      | none => false) then this_item
  else if (match this_item with
      | none => true
      | some t => decide (ident < t.key)) then some tp
  else this_item

/-- The search of one class of a type for the next lowest identifier
(`this_item[cix]`). -/
def searchClass (l_hashtext : HelpTexts) (type class_ : Nat) (prev_item : Option __pmHashNode) :
    Option __pmHashNode :=
  match l_hashtext (type ||| class_) with
  | none => none
  | some l_hashtype => l_hashtype.foldl (searchStep prev_item) none

/-- Is the item queued for a class printed in this round: it is there, and
the item of the other class is not there or has no lower identifier. -/
def printsItem (this_item other : Option __pmHashNode) : Bool :=
  match this_item, other with
  | none, _ => false
  | some _, none => true
  | some t, some o => decide (t.key ≤ o.key)

/-- What is printed for the item queued for a class. -/
def printItem (type class_ : Nat) (this_item other : Option __pmHashNode) : List HelpEntry :=
  match this_item with
  | none => []
  | some t =>
    if printsItem this_item other then
      [helpEntry type class_ t]
    else []

/-- The `for (;;)` loop of `dumpHelpText` for one type, from the items printed
last (`prev_item`); `fuel` bounds the rounds, and `none` means the bound was
reached. -/
def helpTextLoop (l_hashtext : HelpTexts) (type : Nat) :
    Nat → Option __pmHashNode → Option __pmHashNode → Option (List HelpEntry)
  | 0, _, _ => none
  | fuel + 1, prev0, prev1 =>
    let this0 := searchClass l_hashtext type PM_TEXT_ONELINE prev0
    let this1 := searchClass l_hashtext type PM_TEXT_HELP prev1
    if this0 = none ∧ this1 = none then some []
    else
      let out := printItem type PM_TEXT_ONELINE this0 this1
        ++ printItem type PM_TEXT_HELP this1 this0
      let prev0 := if printsItem this0 this1 then this0 else prev0
      let prev1 := if printsItem this1 this0 then this1 else prev1
      match helpTextLoop l_hashtext type fuel prev0 prev1 with
      | none => none
      | some rest => some (out ++ rest)

/-- Source: `dumpHelpText` (pmdumplog): the entries printed, in order, after
the heading; `fuel` bounds the rounds of the loop for each type. -/
def dumpHelpText (l_hashtext : HelpTexts) (fuel : Nat) : Option (List HelpEntry) :=
  match helpTextLoop l_hashtext PM_TEXT_PMID fuel none none with
  | none => none
  | some pmid =>
    match helpTextLoop l_hashtext PM_TEXT_INDOM fuel none none with
    | none => none
    | some indom => some (pmid ++ indom)

/-- The nodes of the table of a type and class (none when there is no table). -/
def helpTable (l_hashtext : HelpTexts) (type class_ : Nat) : List __pmHashNode :=
  (l_hashtext (type ||| class_)).getD []

/-- The entries of the table of a type and class. -/
def helpEntries (l_hashtext : HelpTexts) (type class_ : Nat) : List HelpEntry :=
  (helpTable l_hashtext type class_).map (helpEntry type class_)

/-- All help-text entries of an archive. -/
def allHelpEntries (l_hashtext : HelpTexts) : List HelpEntry :=
  helpEntries l_hashtext PM_TEXT_PMID PM_TEXT_ONELINE
    ++ helpEntries l_hashtext PM_TEXT_PMID PM_TEXT_HELP
    ++ helpEntries l_hashtext PM_TEXT_INDOM PM_TEXT_ONELINE
    ++ helpEntries l_hashtext PM_TEXT_INDOM PM_TEXT_HELP

/-- Are the identifiers of the table of a type and class all different? -/
abbrev uniqueIdents (l_hashtext : HelpTexts) (type class_ : Nat) : Prop :=
  ((helpTable l_hashtext type class_).map fun tp => tp.key).Nodup

/-- The order of the listing: by type (PMID before InDom), then by identifier,
then by class (one-line before full help). -/
def HelpEntry.before (a b : HelpEntry) : Prop :=
  a.type < b.type ∨ (a.type = b.type ∧ (a.ident < b.ident ∨
    (a.ident = b.ident ∧ a.class_ < b.class_)))

/-- Is the identifier of a node above that of the item printed last? -/
def above (prev_item : Option __pmHashNode) (tp : __pmHashNode) : Bool :=
  match prev_item with
  | some p => decide (p.key < tp.key)
  | none => true

/-- The nodes of a table that are still to be printed: those with an
identifier above that of the item printed last. -/
def remaining (prev_item : Option __pmHashNode) (nodes : List __pmHashNode) : List __pmHashNode :=
  nodes.filter (above prev_item)

/-! ## Sample inputs -/

/-- A sample environment: a 20-octet stand-in for SHA-1 and the values the
constants have in PCP. -/
def sampleEnv : Env :=
  { string_hash := fun s => List.replicate 20 (s.length % 256)
    PM_LABEL_CONTEXT := 1
    PM_ERR_NYI := -12444
    REDIS_ESTREAMXADD :=
      "ERR The ID specified in XADD is equal or smaller than the target stream top item"
    maxstreamlen := "8640"
    streamexpire := "86400" }

/-- A sample load baton: one reference held by the running phase, empty maps,
text search off. -/
def sampleLoader : seriesLoadBaton :=
  { refcount := 1
    namesmap := redisMapCreate "metric.name"
    instmap := redisMapCreate "inst.name"
    labelsmap := redisMapCreate "label.name"
    textSearch := false }

/-- A sample bootstrap baton waiting for the reply to `GET pcp:version:schema`. -/
def sampleSlotsBaton : redisSlotsBaton :=
  { refcount := 1
    phases := [Phase.redis_load_slots, Phase.redis_load_version,
               Phase.redis_load_series_version, Phase.redis_slots_finished]
    current := 2, error := 0, version := -1 }

/-- Sample batons, one of each kind. -/
def sampleBatons : Batons :=
  { map := { mapping := "metric.name", mapKey := List.replicate 20 15,
             mapStr := "kernel.all.load",
             mapped := some redisDoneCallBack.series_name_mapping_callback }
    load := sampleLoader
    stream := { stamp := "1000000-0", hash := "0f0f" }
    slots := sampleSlotsBaton }

/-- A sample context. -/
def sampleContext : context_t :=
  { name := { sds := "host-a", id := List.replicate 20 1, hash := List.replicate 20 2 }
    hostid := List.replicate 20 3 }

/-- The all-zero atom with the 32-bit view set. -/
def sampleAtom (n : Int) : pmAtomValue :=
  { l := n, ul := n.toNat, ll := n, ull := n.toNat, f := "", d := "", cp := "" }

/-- A sample metric with one name, no instance domain, one label and no error,
not yet cached (scenario A of the specification, with an integer value). -/
def sampleMetric : metric_t :=
  { names := [{ sds := "kernel.all.load", id := List.replicate 20 4,
                hash := List.replicate 20 5 }]
    cached := false
    desc := { indomNull := true, type := PmType.i32, indom := "none", pmid := "60.2.0",
              sem := "instant", typeStr := "32", units := "none" }
    vlist := none
    atom := sampleAtom 42
    indom := none
    labellist := []
    labelsets := [{ name := "hostname", value := "a", flags := 1 }]
    error := 0 }

/-- What `redis_series_metric` does for the sample metric with `data` set. -/
def sampleRun : seriesLoadBaton × metric_t × List Event :=
  (redis_series_metric sampleEnv sampleLoader sampleContext sampleMetric "1000.000"
    false true).getD (sampleLoader, sampleMetric, [])

/-- A sample instance domain with the two instances 0 ("sda") and 1 ("sdb"),
each with one label. -/
def sampleInDom : indom_t :=
  { insts :=
      [{ name := { sds := "sda", id := List.replicate 20 6, hash := List.replicate 20 7 }
         inst := 0, cached := false
         labellist := [{ name := "hostname", value := "a", flags := 1,
                         nameid := List.replicate 20 8, valueid := List.replicate 20 1 }]
         labelsets := [] },
       { name := { sds := "sdb", id := List.replicate 20 9, hash := List.replicate 20 10 }
         inst := 1, cached := false
         labellist := [{ name := "hostname", value := "a", flags := 1,
                         nameid := List.replicate 20 8, valueid := List.replicate 20 1 }]
         labelsets := [] }]
    contextHash := List.replicate 20 2 }

/-- A sample metric over the sample instance domain (scenario B of the
specification), with the given value list. -/
def sampleInstMetric (vlist : List value_t) : metric_t :=
  { names := [{ sds := "disk.dev.read", id := List.replicate 20 11,
                hash := List.replicate 20 12 }]
    cached := false
    desc := { indomNull := false, type := PmType.u64, indom := "60.1", pmid := "60.0.4",
              sem := "counter", typeStr := "u64", units := "count" }
    vlist := some vlist
    atom := sampleAtom 0
    indom := some sampleInDom
    labellist := [{ name := "hostname", value := "a", flags := 1,
                    nameid := List.replicate 20 8, valueid := List.replicate 20 1 }]
    labelsets := []
    error := 0 }

/-- The sample metric with its label already on its label list. -/
def sampleLabelled : metric_t :=
  { sampleMetric with
    labellist := [{ name := "hostname", value := "a", flags := 1,
                    nameid := List.replicate 20 8, valueid := List.replicate 20 1 }] }

/-- What `redis_series_metadata` does for the labelled sample metric. -/
def sampleMetadataRun : seriesLoadBaton × metric_t × List Event :=
  (redis_series_metadata sampleEnv sampleLoader sampleContext sampleLabelled).getD
    (sampleLoader, sampleLabelled, [])

/-- Two sample descriptors: `kernel.all.load` and an entry with no metric. -/
def sampleDescs : List pmDesc :=
  [{ pmid := 251660288, type := 5, indom := 251658241, sem := 4, units := 0 },
   { pmid := 4294967295, type := -1, indom := 4294967295, sem := 0, units := 0 }]

/-- A sample archive: one-line and full help texts for metrics, a one-line
help text for an instance domain, no table of full help texts for instance
domains. -/
def sampleHelpTexts : HelpTexts := fun key =>
  if key = 5 then some [{ key := 3, data := "three" }, { key := 1, data := "one" }]
  else if key = 6 then some [{ key := 1, data := "ONE" }, { key := 2, data := "TWO" }]
  else if key = 9 then some [{ key := 0, data := "zero" }]
  else none

/-! ## Properties of the mapping cache -/

/-- A key just inserted is found, with the inserted value. -/
theorem redisMapLookup_insert (m : redisMap) (key : Hash) (value : String) :
    redisMapLookup (redisMapInsert m key value) key = some value := by
  simp [redisMapLookup, redisMapInsert]

/-- On a local-map hit `redisGetMap` only calls the completion callback. -/
theorem redisGetMap_hit (string_hash : String → Hash) (mapping : redisMap) (mapStr : String)
    (on_done : redisDoneCallBack) (alloc : Bool) (v : String)
    (h : redisMapLookup mapping (string_hash mapStr) = some v) :
    redisGetMap string_hash mapping mapStr on_done alloc =
      { mapping := mapping, baton := none, events := [Event.mapped on_done] } := by
  simp [redisGetMap, h]

/-- On a local-map miss `redisGetMap` inserts the string and issues the `HSET`. -/
theorem redisGetMap_miss (string_hash : String → Hash) (mapping : redisMap) (mapStr : String)
    (on_done : redisDoneCallBack) (h : redisMapLookup mapping (string_hash mapStr) = none) :
    redisGetMap string_hash mapping mapStr on_done true =
      { mapping := redisMapInsert mapping (string_hash mapStr) mapStr
        baton := some { mapping := mapping.name, mapKey := string_hash mapStr,
                        mapStr := mapStr, mapped := some on_done }
        events := [Event.request (mapHsetRequest mapping.name (string_hash mapStr) mapStr)] } := by
  simp [redisGetMap, h, redisMapRequest, mapHsetRequest, initRedisMapBaton,
      redis_command, redis_param_str, redis_param_sds]

/-- What `redisGetMap` (baton allocated) requests, and that the hash is mapped
afterwards. -/
theorem redisGetMap_requests (string_hash : String → Hash) (mapping : redisMap)
    (mapStr : String) (on_done : redisDoneCallBack) :
    requests (redisGetMap string_hash mapping mapStr on_done true).events =
        (if (redisMapLookup mapping (string_hash mapStr)).isSome then []
         else [mapHsetRequest mapping.name (string_hash mapStr) mapStr]) ∧
      (redisMapLookup (redisGetMap string_hash mapping mapStr on_done true).mapping
        (string_hash mapStr)).isSome = true := by
  cases h : redisMapLookup mapping (string_hash mapStr) with
  | none => simp [redisGetMap_miss _ _ _ _ h, redisMapLookup_insert, requests]
  | some v => simp [redisGetMap_hit _ _ _ _ _ v h, h, requests]

/-- C2: `redisGetMap` (baton allocated) issues exactly the one 4-element
`HSET pcp:map:<map name> <hash> <string>`, routed on `pcp:map:<map name>`, when
the hash of the string is absent from the local map, issues no request when it
is present, and leaves the hash in the local map in both cases. -/
theorem redisGetMap_store_request (string_hash : String → Hash) (mapping : redisMap)
    (mapStr : String) (on_done : redisDoneCallBack) :
    requests (redisGetMap string_hash mapping mapStr on_done true).events =
        (if (redisMapLookup mapping (string_hash mapStr)).isSome then []
         else [mapHsetRequest mapping.name (string_hash mapStr) mapStr]) ∧
      (redisMapLookup (redisGetMap string_hash mapping mapStr on_done true).mapping
        (string_hash mapStr)).isSome = true :=
  redisGetMap_requests string_hash mapping mapStr on_done

/-- The requests among events in sequence. -/
theorem requests_append (a b : List Event) : requests (a ++ b) = requests a ++ requests b := by
  induction a with
  | nil => rfl
  | cons e es ih => cases e <;> simp [requests, ih]

/-- Once the hash of a string is in the local map, no number of further
`redisGetMap` calls for it issues a request. -/
theorem redisGetMapTimes_present (string_hash : String → Hash) (mapStr : String)
    (on_done : redisDoneCallBack) (n : Nat) (m : redisMap)
    (h : (redisMapLookup m (string_hash mapStr)).isSome = true) :
    requests (redisGetMapTimes string_hash mapStr on_done n m).2 = [] := by
  induction n with
  | zero => rfl
  | succ k ih =>
    obtain ⟨v, hv⟩ := Option.isSome_iff_exists.mp h
    simp [redisGetMapTimes, redisGetMap_hit _ _ _ _ _ v hv, requests_append, ih, requests]

/-- C3: `n + 1` consecutive `redisGetMap` calls for the same string on the same
map issue the `HSET` for it exactly once when its hash was absent at first and
never when it was present; the `HSET` belongs to the first call, the `n`
calls after it issue nothing. -/
theorem redisGetMap_repeated (string_hash : String → Hash) (mapStr : String)
    (on_done : redisDoneCallBack) (n : Nat) (m : redisMap) :
    requests (redisGetMapTimes string_hash mapStr on_done (n + 1) m).2 =
        (if (redisMapLookup m (string_hash mapStr)).isSome then []
         else [mapHsetRequest m.name (string_hash mapStr) mapStr]) ∧
      requests (redisGetMapTimes string_hash mapStr on_done n
        (redisGetMap string_hash m mapStr on_done true).mapping).2 = [] := by
  have key := redisGetMap_requests string_hash m mapStr on_done
  have rest := redisGetMapTimes_present string_hash mapStr on_done n _ key.2
  refine ⟨?_, rest⟩
  simp only [redisGetMapTimes, requests_append, rest, List.append_nil]
  exact key.1

/-- The reply checks only log. -/
theorem checkIntegerReply_mapped (reply : Option redisReply) (what : String) :
    (checkIntegerReply reply what).2.filter Event.isMapped = [] := by
  unfold checkIntegerReply
  split <;> simp [Event.isMapped]

/-- The reply checks issue no request. -/
theorem checkIntegerReply_requests (reply : Option redisReply) (what : String) :
    requests (checkIntegerReply reply what).2 = [] := by
  unfold checkIntegerReply
  split <;> simp [requests]

/-- With no request outstanding nothing more happens. -/
theorem mapRun_nil (baton : redisMapBaton) (ds : List Delivery) : mapRun baton [] ds = [] := by
  cases ds <;> rfl

/-- With no request outstanding none becomes outstanding. -/
theorem mapPending_nil (baton : redisMapBaton) (ds : List Delivery) :
    mapPending baton [] ds = [] := by
  cases ds <;> rfl

/-- The life of a mapping baton once its `PUBLISH` is the outstanding request:
the completion callback has been called exactly when the reply has come. -/
theorem mapRun_publish (baton : redisMapBaton) (on_done : redisDoneCallBack)
    (h : baton.mapped = some on_done) (ds : List Delivery) :
    (mapRun baton [Callback.redis_map_publish_callback] ds).filter Event.isMapped =
      (if mapPending baton [Callback.redis_map_publish_callback] ds = [] then
        [Event.mapped on_done] else []) := by
  cases ds with
  | nil => simp [mapRun, mapPending]
  | cons d ds =>
    have hr : requests (redis_map_publish_callback baton d.reply) = [] := by
      simp [redis_map_publish_callback, requests_append, checkIntegerReply_requests,
        doneRedisMapBaton, h, requests]
    simp only [mapRun, mapPending, mapCallback, mapOutstanding, hr]
    simp [mapRun_nil, mapPending_nil, redis_map_publish_callback,
      checkIntegerReply_mapped, doneRedisMapBaton, h, Event.isMapped]

/-- The three ways `redis_map_request_callback` can take: nothing after a
re-submission; the `PUBLISH` for a positive integer reply that was not
redirected; else the reply check (when not an error of the helper) and the
completion of the baton. -/
theorem redis_map_request_callback_eq (baton : redisMapBaton) (sts : Int)
    (reply : Option redisReply) :
    redis_map_request_callback baton sts reply =
      if sts > 0 then []
      else if sts = 0 ∧ redisReply.isPositiveInteger reply = true then redis_map_publish baton
      else (if sts = 0 then
              (checkIntegerReply reply
                ("HSET: string mapping script (" ++ baton.mapping ++ ")")).2
            else []) ++ doneRedisMapBaton baton := by
  unfold redis_map_request_callback
  by_cases hs : sts > 0
  · simp [hs]
  · by_cases h0 : sts = 0
    · subst h0
      rcases reply with _ | r
      · simp [checkIntegerReply, redisReply.isPositiveInteger]
      · cases r <;> simp [checkIntegerReply, redisReply.isPositiveInteger]
    · simp [hs, h0]

/-- The life of a mapping baton while its `HSET` is the outstanding request:
the completion callback has been called exactly once when no request is
outstanding any more, and not at all before. -/
theorem mapRun_request (baton : redisMapBaton) (on_done : redisDoneCallBack)
    (h : baton.mapped = some on_done) (ds : List Delivery) :
    (mapRun baton [Callback.redis_map_request_callback] ds).filter Event.isMapped =
      (if mapPending baton [Callback.redis_map_request_callback] ds = [] then
        [Event.mapped on_done] else []) := by
  induction ds with
  | nil => simp [mapRun, mapPending]
  | cons d ds ih =>
    simp only [mapRun, mapPending, mapCallback, mapOutstanding]
    rw [redis_map_request_callback_eq]
    by_cases hs : d.sts > 0
    · simp [hs, requests, ih]
    · by_cases hp : d.sts = 0 ∧ redisReply.isPositiveInteger d.reply = true
      · have hpub := mapRun_publish baton on_done h ds
        simp [hs, hp, redis_map_publish, requests, Event.isMapped] at hpub ⊢
        exact hpub
      · simp only [hs, hp, if_false, false_and]
        have hr : requests ((if d.sts = 0 then
              (checkIntegerReply d.reply
                ("HSET: string mapping script (" ++ baton.mapping ++ ")")).2
            else []) ++ doneRedisMapBaton baton) = [] := by
          split <;> simp [requests_append, checkIntegerReply_requests, doneRedisMapBaton, h,
            requests]
        rw [hr]
        simp only [List.map_nil, List.append_nil, mapRun_nil, mapPending_nil]
        split <;> simp [checkIntegerReply_mapped, doneRedisMapBaton, h, Event.isMapped]

/-- When the baton cannot be allocated `redisGetMap` only calls the completion
callback. -/
theorem redisGetMap_oom (string_hash : String → Hash) (mapping : redisMap) (mapStr : String)
    (on_done : redisDoneCallBack) :
    redisGetMap string_hash mapping mapStr on_done false =
      { mapping := mapping, baton := none, events := [Event.mapped on_done] } := by
  cases h : redisMapLookup mapping (string_hash mapStr) <;> simp [redisGetMap, h]

/-- After any number of re-submissions, one reply to the `HSET` that is not
redirected and one more reply (for the `PUBLISH`, when there is one), no
request of the mapping baton is outstanding. -/
theorem mapPending_done (baton : redisMapBaton) (rs : List (Nat × Option redisReply)) (n : Nat)
    (r : Option redisReply) (p : Delivery) :
    mapPending baton [Callback.redis_map_request_callback]
      ((rs.map fun x => Delivery.redirected x.1 x.2) ++ [Delivery.final n r, p]) = [] := by
  induction rs with
  | nil =>
    have hn : ¬ (-(n : Int) > 0) := by omega
    simp only [List.map_nil, List.nil_append, mapPending, mapCallback, mapOutstanding,
      Delivery.final, redis_map_request_callback_eq, hn, if_false, false_and]
    split
    · simp [redis_map_publish, requests, mapPending, mapCallback, mapOutstanding,
        redis_map_publish_callback, requests_append, checkIntegerReply_requests,
        doneRedisMapBaton]
      cases baton.mapped <;> simp [requests, mapPending]
    · have hd : requests (doneRedisMapBaton baton) = [] := by
        unfold doneRedisMapBaton
        cases baton.mapped <;> simp [requests]
      split <;> simp [requests_append, hd, checkIntegerReply_requests, mapPending]
  | cons x rs ih =>
    have hp : ((x.1 : Int) + 1 > 0) := by omega
    simp [mapPending, mapCallback, mapOutstanding, Delivery.redirected,
      redis_map_request_callback_eq, hp, requests]
    simpa [Delivery.redirected] using ih

/-- C4: the completion callback handed to `redisGetMap` is called exactly
once: inside the call itself on a local-map hit (or when no baton can be
allocated), and otherwise exactly once by the time no request of the baton is
outstanding any more, whatever the replies are; before that it has not been
called, so it is never called twice.  The baton has no request outstanding
after any re-submissions of the `HSET`, one reply to it that is not
redirected, and one further reply. -/
theorem redisGetMap_on_done_once (string_hash : String → Hash) (mapping : redisMap)
    (mapStr : String) (on_done : redisDoneCallBack) (alloc : Bool) :
    (redisGetMap string_hash mapping mapStr on_done alloc).events =
        (if (redisMapLookup mapping (string_hash mapStr)).isSome ∨ alloc = false then
          [Event.mapped on_done]
         else [Event.request (mapHsetRequest mapping.name (string_hash mapStr) mapStr)]) ∧
      (∀ ds : List Delivery,
        (mapLife (redisGetMap string_hash mapping mapStr on_done alloc) ds).filter
            Event.isMapped =
          (if mapLeft (redisGetMap string_hash mapping mapStr on_done alloc) ds = [] then
            [Event.mapped on_done] else [])) ∧
      (∀ (rs : List (Nat × Option redisReply)) (n : Nat) (r : Option redisReply) (p : Delivery),
        mapLeft (redisGetMap string_hash mapping mapStr on_done alloc)
          ((rs.map fun x => Delivery.redirected x.1 x.2) ++ [Delivery.final n r, p]) = []) := by
  cases h : redisMapLookup mapping (string_hash mapStr) with
  | some v =>
    simp [redisGetMap_hit _ _ _ _ _ v h, mapLife, mapLeft, Event.isMapped]
  | none =>
    cases alloc with
    | false => simp [redisGetMap_oom, mapLife, mapLeft, Event.isMapped]
    | true =>
      rw [redisGetMap_miss _ _ _ _ h]
      refine ⟨by simp, ?_, ?_⟩
      · intro ds
        have := mapRun_request
          { mapping := mapping.name, mapKey := string_hash mapStr, mapStr := mapStr,
            mapped := some on_done } on_done rfl ds
        simpa [mapLife, mapLeft, requests, mapHsetRequest, Event.isMapped] using this
      · intro rs n r p
        simpa [mapLeft, requests, mapHsetRequest] using
          mapPending_done
            { mapping := mapping.name, mapKey := string_hash mapStr, mapStr := mapStr,
              mapped := some on_done } rs n r p

/-- C5: `redis_map_request_callback` issues a `PUBLISH` exactly when the
redirection helper returned zero and the `HSET` reply is an integer greater
than zero; the `PUBLISH` is the 3-element command on channel
`pcp:channel:<map name>`.  Its message element is built with the `%S`
conversion from the plain `char hash[42]` buffer, so it is not determined to
be the hex hash, a colon and the string. -/
theorem redis_map_request_callback_publish (baton : redisMapBaton) (sts : Int)
    (reply : Option redisReply) :
    requests (redis_map_request_callback baton sts reply) =
      (if sts = 0 ∧ redisReply.isPositiveInteger reply = true then
        [mapPublishRequest baton.mapping Arg.unspecified]
       else []) := by
  rw [redis_map_request_callback_eq]
  have hd : requests (doneRedisMapBaton baton) = [] := by
    unfold doneRedisMapBaton
    cases baton.mapped <;> simp [requests]
  by_cases hs : sts > 0
  · have h0 : sts ≠ 0 := by omega
    simp [hs, h0, requests]
  · by_cases hp : sts = 0 ∧ redisReply.isPositiveInteger reply = true
    · simp [hs, hp, redis_map_publish, redis_map_publish_msg, StrArg.fmt_S, requests,
        mapPublishRequest, redis_command, redis_param_str, redis_param_sds]
    · simp only [hs, hp, if_false]
      split <;> simp [requests_append, hd, checkIntegerReply_requests, requests]

/-! ## Properties of the bootstrap chain -/

/-- C7, as stated, fails: with the error slot set and the last reference
dropped, `redis_slots_end_phase` releases the baton but the `done` callback is
not called. -/
theorem redis_slots_end_phase_error_skips_done :
    (redis_slots_end_phase
        { refcount := 1, phases := [Phase.redis_load_slots, Phase.redis_slots_finished],
          current := 0, error := -12, version := -1 }).2 =
      [Event.deref BatonKind.slots, Event.phase Phase.redis_slots_finished,
       Event.freed BatonKind.slots] ∧
    Event.done ∉
      (redis_slots_end_phase
        { refcount := 1, phases := [Phase.redis_load_slots, Phase.redis_slots_finished],
          current := 0, error := -12, version := -1 }).2 := by
  decide

/-- C7, amended: with the error slot set, `redis_slots_end_phase` starts no
further phase of the chain; it dereferences the baton once and, when that
brings the count to zero, goes straight to `redis_slots_finished`, which
releases the baton without calling the `done` callback. -/
theorem redis_slots_end_phase_error (baton : redisSlotsBaton) (h : baton.error ≠ 0) :
    (redis_slots_end_phase baton).2 =
      [Event.deref BatonKind.slots] ++
        (if baton.refcount - 1 = 0 then
          [Event.phase Phase.redis_slots_finished, Event.freed BatonKind.slots]
         else []) := by
  unfold redis_slots_end_phase
  by_cases hz : baton.refcount - 1 = 0 <;>
    simp [h, hz, seriesBatonDereference, redis_slots_finished]

/-- C7, amended, at a baton holding its last reference. -/
theorem redis_slots_end_phase_error_witness :
    ({ sampleSlotsBaton with error := -12 } : redisSlotsBaton).error ≠ 0 ∧
      (redis_slots_end_phase { sampleSlotsBaton with error := -12 }).2 =
        [Event.deref BatonKind.slots] ++
          (if ({ sampleSlotsBaton with error := -12 } : redisSlotsBaton).refcount - 1 = 0 then
            [Event.phase Phase.redis_slots_finished, Event.freed BatonKind.slots]
           else []) :=
  ⟨by decide, redis_slots_end_phase_error { sampleSlotsBaton with error := -12 } (by decide)⟩

/-- C8: the phase vector `redisSlotsConnect` installs is `redis_load_slots`,
then `redis_load_keymap` iff the keymap flag is set, then `redis_load_version`
and `redis_load_series_version` iff the version flag is set, then
`redis_load_search_schema` iff the search flag is set, then
`redis_slots_finished`; it starts with the `CLUSTER SLOTS` phase, ends with
the finishing phase and has between 2 and 6 entries. -/
theorem redisSlotsConnect_phases (keymapBit versionBit searchBit flags : Nat) :
    (redisSlotsConnect keymapBit versionBit searchBit flags).1.phases =
        [Phase.redis_load_slots]
          ++ (if flags &&& keymapBit ≠ 0 then [Phase.redis_load_keymap] else [])
          ++ (if flags &&& versionBit ≠ 0 then
                [Phase.redis_load_version, Phase.redis_load_series_version] else [])
          ++ (if flags &&& searchBit ≠ 0 then [Phase.redis_load_search_schema] else [])
          ++ [Phase.redis_slots_finished] ∧
      (redisSlotsConnect keymapBit versionBit searchBit flags).1.phases.head? =
        some Phase.redis_load_slots ∧
      (redisSlotsConnect keymapBit versionBit searchBit flags).1.phases.getLast? =
        some Phase.redis_slots_finished ∧
      2 ≤ (redisSlotsConnect keymapBit versionBit searchBit flags).1.phases.length ∧
      (redisSlotsConnect keymapBit versionBit searchBit flags).1.phases.length ≤ 6 := by
  have hp : (redisSlotsConnect keymapBit versionBit searchBit flags).1.phases =
      redisSlotsConnectPhases keymapBit versionBit searchBit flags := by
    by_cases hk : flags &&& keymapBit = 0 <;> by_cases hv : flags &&& versionBit = 0 <;>
      by_cases hs : flags &&& searchBit = 0 <;>
      simp [redisSlotsConnect, seriesBatonPhases, redisSlotsConnectPhases, initRedisSlotsBaton,
        hk, hv, hs, phaseFunc, redis_load_slots, slotsPhaseRequest, seriesBatonReference]
  rw [hp]
  by_cases hk : flags &&& keymapBit = 0 <;> by_cases hv : flags &&& versionBit = 0 <;>
    by_cases hs : flags &&& searchBit = 0 <;>
    simp [redisSlotsConnectPhases, hk, hv, hs]

/-- The `SET` that writes the compiled schema version. -/
theorem redis_update_version_eq (baton : redisSlotsBaton) :
    redis_update_version baton =
      ({ baton with refcount := baton.refcount + 1 },
       [Event.ref BatonKind.slots 1,
        Event.request
          { name := "SET", key := some "pcp:version:schema",
            cmd := { count := 3,
                     params := [Arg.str "SET", Arg.str "pcp:version:schema", Arg.str "2"] },
            callback := Callback.redis_update_version_callback }]) := by
  simp [redis_update_version, seriesBatonReference, redis_command, redis_param_str,
    redis_param_sds]
  decide

/-- C9: when the reply to `GET pcp:version:schema` is nil, or there is no
reply object, `redis_load_series_version_callback` drops one reference, takes
one, and issues exactly one `SET pcp:version:schema 2`; it does not end the
phase, and the reference count when the `SET` is issued is what it was on
entry.  The phase is ended by the reply handler of the `SET`. -/
theorem redis_load_series_version_callback_absent (baton : redisSlotsBaton) (sts : Int)
    (reply : Option redisReply) (hs : sts ≤ 0) (hr : reply = none ∨ reply = some redisReply.nil)
    (hc : 0 < baton.refcount) :
    redis_load_series_version_callback baton sts reply =
        ({ baton with version := 0 },
         [Event.deref BatonKind.slots, Event.ref BatonKind.slots 1,
          Event.request
            { name := "SET", key := some "pcp:version:schema",
              cmd := { count := 3,
                       params := [Arg.str "SET", Arg.str "pcp:version:schema", Arg.str "2"] },
              callback := Callback.redis_update_version_callback }]) ∧
      (∀ (b : redisSlotsBaton) (n : Nat) (r : Option redisReply),
        (redis_update_version_callback b (-(n : Int)) r).2 =
          (if n = 0 then (checkStatusReplyOK r "pcp:version:schema setup").2 else [])
            ++ (redis_slots_end_phase b).2) := by
  constructor
  · have hns : ¬ (sts > 0) := by omega
    have hrc : baton.refcount - 1 + 1 = baton.refcount := by omega
    rcases hr with hr | hr <;> subst hr <;>
      simp [redis_load_series_version_callback, hns, decodeSeriesVersion, SERIES_VERSION,
        seriesBatonDereference, redis_update_version_eq, hrc]
  · intro b n r
    have hn : ¬ (-(n : Int) > 0) := by omega
    by_cases h0 : n = 0
    · subst h0
      simp [redis_update_version_callback]
    · have : ¬ (-(n : Int) = 0) := by omega
      simp [redis_update_version_callback, hn, this, h0]

/-- C9 at a baton holding the reference of the `GET` request, with a nil reply. -/
theorem redis_load_series_version_callback_absent_witness :
    (0 : Int) ≤ 0 ∧ 0 < sampleSlotsBaton.refcount ∧
      redis_load_series_version_callback sampleSlotsBaton 0 (some redisReply.nil) =
        ({ sampleSlotsBaton with version := 0 },
         [Event.deref BatonKind.slots, Event.ref BatonKind.slots 1,
          Event.request
            { name := "SET", key := some "pcp:version:schema",
              cmd := { count := 3,
                       params := [Arg.str "SET", Arg.str "pcp:version:schema", Arg.str "2"] },
              callback := Callback.redis_update_version_callback }]) :=
  ⟨by decide, by decide,
   (redis_load_series_version_callback_absent sampleSlotsBaton 0 (some redisReply.nil)
      (by decide) (Or.inr rfl) (by decide)).1⟩

/-- No phase function logs or issues a `SET`. -/
theorem phaseFunc_quiet (p : Phase) (baton : redisSlotsBaton) :
    ((phaseFunc p baton).2.all fun e => !Event.isInfo e && !Event.isRequest "SET" e) = true := by
  cases p <;>
    simp [phaseFunc, redis_load_slots, redis_load_keymap, redis_load_version,
      redis_load_series_version, redis_load_search_schema, redis_slots_finished,
      slotsPhaseRequest, seriesBatonReference, Event.isInfo, Event.isRequest]

/-- Ending a phase neither logs nor issues a `SET`. -/
theorem redis_slots_end_phase_quiet (baton : redisSlotsBaton) :
    ((redis_slots_end_phase baton).2.all fun e =>
      !Event.isInfo e && !Event.isRequest "SET" e) = true := by
  unfold redis_slots_end_phase
  by_cases he : baton.error = 0
  · simp only [he, if_true, seriesPassBaton, seriesBatonDereference]
    split
    · split
      · rename_i next _
        have := phaseFunc_quiet next
          { refcount := baton.refcount - 1, phases := baton.phases,
            current := baton.current + 1, error := baton.error, version := baton.version }
        simpa [Event.isInfo, Event.isRequest, he] using this
      · simp [Event.isInfo, Event.isRequest]
    · simp [Event.isInfo, Event.isRequest]
  · simp only [he, if_false, seriesBatonDereference]
    split <;> simp [redis_slots_finished, he, Event.isInfo, Event.isRequest]

/-- C10, as stated, fails: a stored version string that parses to 0 differs
from the compiled version 2, yet nothing is logged, the `SET` is issued and the
phase is not ended. -/
theorem redis_load_series_version_callback_zero :
    (redis_load_series_version_callback sampleSlotsBaton 0 (some (redisReply.string "0"))).2 =
      [Event.deref BatonKind.slots, Event.ref BatonKind.slots 1,
       Event.request
         { name := "SET", key := some "pcp:version:schema",
           cmd := { count := 3,
                    params := [Arg.str "SET", Arg.str "pcp:version:schema", Arg.str "2"] },
           callback := Callback.redis_update_version_callback }] ∧
    toUnsigned (atoi "0") ≠ SERIES_VERSION := by
  decide

/-- C10, amended: for a string reply to `GET pcp:version:schema` (not
re-submitted, the baton still without a version, as initialised): when the
parsed version is neither 0 nor the compiled version, the handler logs one
error and ends the phase; when it equals the compiled version it only ends the
phase; when it is 0 the key is treated as absent and the `SET` is issued
instead.  Ending the phase neither logs nor issues a `SET`. -/
theorem redis_load_series_version_callback_string (baton : redisSlotsBaton) (sts : Int)
    (s : String) (hs : sts ≤ 0) (hv : baton.version = -1) :
    (redis_load_series_version_callback baton sts (some (redisReply.string s))).2 =
        (if toUnsigned (atoi s) = SERIES_VERSION then
          (redis_slots_end_phase { baton with version := 2 }).2
         else if toUnsigned (atoi s) = 0 then
          [Event.deref BatonKind.slots, Event.ref BatonKind.slots 1,
           Event.request
             { name := "SET", key := some "pcp:version:schema",
               cmd := { count := 3,
                        params := [Arg.str "SET", Arg.str "pcp:version:schema", Arg.str "2"] },
               callback := Callback.redis_update_version_callback }]
         else
          [Event.info LogLevel.error
             ("unsupported series schema (got v" ++ toString (toUnsigned (atoi s))
               ++ ", expected v" ++ toString SERIES_VERSION ++ ")")]
            ++ (redis_slots_end_phase baton).2) ∧
      (∀ b : redisSlotsBaton,
        ((redis_slots_end_phase b).2.all fun e =>
          !Event.isInfo e && !Event.isRequest "SET" e) = true) := by
  refine ⟨?_, redis_slots_end_phase_quiet⟩
  have hns : ¬ (sts > 0) := by omega
  by_cases h : toUnsigned (atoi s) = SERIES_VERSION
  · simp [redis_load_series_version_callback, hns, decodeSeriesVersion, h, SERIES_VERSION]
  · by_cases h0 : toUnsigned (atoi s) = 0
    · simp [redis_load_series_version_callback, hns, decodeSeriesVersion, h0, SERIES_VERSION,
        seriesBatonDereference, redis_update_version_eq]
    · simp [redis_load_series_version_callback, hns, decodeSeriesVersion, h, h0, hv]

/-- C10, amended, at a stored version "3". -/
theorem redis_load_series_version_callback_string_witness :
    (0 : Int) ≤ 0 ∧ sampleSlotsBaton.version = -1 ∧
      (redis_load_series_version_callback sampleSlotsBaton 0 (some (redisReply.string "3"))).2 =
        [Event.info LogLevel.error "unsupported series schema (got v3, expected v2)",
         Event.deref BatonKind.slots, Event.phase Phase.redis_slots_finished, Event.done,
         Event.freed BatonKind.slots] :=
  ⟨by decide, by decide,
   ((redis_load_series_version_callback_string sampleSlotsBaton 0 "3" (by decide)
      (by decide)).1.trans (by decide))⟩

/-! ## The redirection contract of the reply handlers -/

/-- The number of events that complete or dereference a baton of a kind. -/
theorem settles_append (kind : BatonKind) (a b : List Event) :
    ((a ++ b).filter (Event.settles kind)).length =
      (a.filter (Event.settles kind)).length + (b.filter (Event.settles kind)).length := by
  simp

/-- Log messages settle no baton. -/
theorem settles_info (kind : BatonKind) (l : List Event)
    (h : l.all Event.isInfo = true) : (l.filter (Event.settles kind)).length = 0 := by
  induction l with
  | nil => rfl
  | cons e es ih =>
    simp only [List.all_cons, Bool.and_eq_true] at h
    cases e <;> simp_all [Event.isInfo, Event.settles]

/-- The integer reply check only logs. -/
theorem checkIntegerReply_info (reply : Option redisReply) (what : String) :
    (checkIntegerReply reply what).2.all Event.isInfo = true := by
  unfold checkIntegerReply
  split <;> simp [Event.isInfo]

/-- The status reply check only logs. -/
theorem checkStatusReplyOK_info (reply : Option redisReply) (what : String) :
    (checkStatusReplyOK reply what).2.all Event.isInfo = true := by
  unfold checkStatusReplyOK
  split <;> simp [Event.isInfo]

/-- Handing on the load baton dereferences it once. -/
theorem doneSeriesLoadBaton_settles (l : seriesLoadBaton) :
    ((doneSeriesLoadBaton l).2.filter (Event.settles BatonKind.load)).length = 1 := by
  unfold doneSeriesLoadBaton
  split <;> simp [Event.settles]

/-- An integer-checking handler of the load baton dereferences it once. -/
theorem loadIntegerCallback_settles (what : String) (l : seriesLoadBaton) (sts : Int)
    (reply : Option redisReply) (hs : ¬ sts > 0) :
    ((loadIntegerCallback what l sts reply).2.filter (Event.settles BatonKind.load)).length
      = 1 := by
  simp only [loadIntegerCallback, hs, if_false, settles_append, doneSeriesLoadBaton_settles]
  split <;> simp [settles_info _ _ (checkIntegerReply_info reply what)]

/-- A status-checking handler of the load baton dereferences it once. -/
theorem loadStatusCallback_settles (what : String) (l : seriesLoadBaton) (sts : Int)
    (reply : Option redisReply) (hs : ¬ sts > 0) :
    ((loadStatusCallback what l sts reply).2.filter (Event.settles BatonKind.load)).length
      = 1 := by
  simp only [loadStatusCallback, hs, if_false, settles_append, doneSeriesLoadBaton_settles]
  split <;> simp [settles_info _ _ (checkStatusReplyOK_info reply what)]

/-- No phase function dereferences the bootstrap baton. -/
theorem phaseFunc_settles (p : Phase) (baton : redisSlotsBaton) :
    ((phaseFunc p baton).2.filter (Event.settles BatonKind.slots)).length = 0 := by
  cases p <;>
    simp [phaseFunc, redis_load_slots, redis_load_keymap, redis_load_version,
      redis_load_series_version, redis_load_search_schema, redis_slots_finished,
      slotsPhaseRequest, seriesBatonReference, Event.settles]

/-- Ending a phase dereferences the bootstrap baton exactly once. -/
theorem redis_slots_end_phase_settles (baton : redisSlotsBaton) :
    ((redis_slots_end_phase baton).2.filter (Event.settles BatonKind.slots)).length = 1 := by
  unfold redis_slots_end_phase
  by_cases he : baton.error = 0
  · simp only [he, if_true, seriesPassBaton, seriesBatonDereference]
    split
    · split
      · rename_i next _
        have := phaseFunc_settles next
          { refcount := baton.refcount - 1, phases := baton.phases,
            current := baton.current + 1, error := baton.error, version := baton.version }
        simp only [settles_append]
        simp only [he] at this
        simp [this, Event.settles]
      · simp [Event.settles]
    · simp [Event.settles]
  · simp only [he, if_false, seriesBatonDereference]
    split <;> simp [redis_slots_finished, he, Event.settles]

/-- The version checks only log. -/
theorem checkServerVersion_info (rest : List Char) :
    (checkServerVersion rest).all Event.isInfo = true := by
  simp only [checkServerVersion]
  split
  · simp [Event.isInfo]
  · split <;> simp [Event.isInfo]

/-- The scan for the server version only logs. -/
theorem versionScan_info (fuel : Nat) (cs : List Char) :
    (versionScan fuel cs).all Event.isInfo = true := by
  induction fuel generalizing cs with
  | zero => simp [versionScan]
  | succ n ih =>
    cases cs with
    | nil => simp [versionScan]
    | cons c cs =>
      simp only [versionScan]
      split
      · exact checkServerVersion_info _
      · exact ih _

/-- Decoding the schema version only logs. -/
theorem decodeSeriesVersion_info (baton : redisSlotsBaton) (sts : Int) (reply : Option redisReply) :
    (decodeSeriesVersion baton sts reply).2.2.all Event.isInfo = true := by
  unfold decodeSeriesVersion
  split <;> try simp [Event.isInfo]
  all_goals split <;> simp [Event.isInfo]

/-- Completing a mapping baton settles it once. -/
theorem doneRedisMapBaton_settles (baton : redisMapBaton) :
    ((doneRedisMapBaton baton).filter (Event.settles BatonKind.mapping)).length = 1 := by
  unfold doneRedisMapBaton
  cases baton.mapped <;> simp [Event.settles]

/-- The `HSET` handler, when it does not publish, completes its baton once. -/
theorem redis_map_request_callback_settles (baton : redisMapBaton) (sts : Int)
    (reply : Option redisReply) (hs : ¬ sts > 0)
    (hp : ¬ (sts = 0 ∧ redisReply.isPositiveInteger reply = true)) :
    ((redis_map_request_callback baton sts reply).filter
      (Event.settles BatonKind.mapping)).length = 1 := by
  rw [redis_map_request_callback_eq]
  simp only [hs, hp, if_false, settles_append, doneRedisMapBaton_settles]
  split <;> simp [settles_info _ _ (checkIntegerReply_info reply _)]

/-- The `EXPIRE` handler dereferences the load baton once. -/
theorem redis_series_timer_callback_settles (l : seriesLoadBaton) (sts : Int) (hs : ¬ sts > 0) :
    ((redis_series_timer_callback l sts).2.filter (Event.settles BatonKind.load)).length
      = 1 := by
  simp only [redis_series_timer_callback, hs, if_false, doneSeriesLoadBaton_settles]

/-- The `XADD` handler completes its stream baton once. -/
theorem redis_series_stream_callback_settles (env : Env) (baton : redisStreamBaton)
    (l : seriesLoadBaton) (sts : Int) (reply : Option redisReply) (hs : ¬ sts > 0) :
    ((redis_series_stream_callback env baton l sts reply).2.filter
      (Event.settles BatonKind.stream)).length = 1 := by
  have hd : ((doneRedisStreamBaton l).2.filter (Event.settles BatonKind.stream)).length
      = 1 := by
    unfold doneRedisStreamBaton doneSeriesLoadBaton
    split <;> simp [Event.settles]
  have hc : ∀ what, (checkStreamReplyString reply baton.stamp what).all Event.isInfo
      = true := by
    intro what
    unfold checkStreamReplyString
    split
    · split <;> simp [Event.isInfo]
    · simp [Event.isInfo]
  simp only [redis_series_stream_callback, hs, if_false, settles_append, hd]
  split
  · split
    · simp [Event.settles]
    · simp [settles_info _ _ (hc _)]
  · simp

/-- The `SET` handler dereferences the bootstrap baton once. -/
theorem redis_update_version_callback_settles (baton : redisSlotsBaton) (sts : Int)
    (reply : Option redisReply) (hs : ¬ sts > 0) :
    ((redis_update_version_callback baton sts reply).2.filter
      (Event.settles BatonKind.slots)).length = 1 := by
  simp only [redis_update_version_callback, hs, if_false, settles_append,
    redis_slots_end_phase_settles]
  split <;> simp [settles_info _ _ (checkStatusReplyOK_info reply _)]

/-- The `INFO SERVER` handler dereferences the bootstrap baton once. -/
theorem redis_load_version_callback_settles (baton : redisSlotsBaton) (sts : Int)
    (reply : Option redisReply) (hs : ¬ sts > 0) :
    ((redis_load_version_callback baton sts reply).2.filter
      (Event.settles BatonKind.slots)).length = 1 := by
  simp only [redis_load_version_callback, hs, if_false, settles_append,
    redis_slots_end_phase_settles]
  have : ∀ l : List Event, l.all Event.isInfo = true →
      (l.filter (Event.settles BatonKind.slots)).length + 1 = 1 := by
    intro l hl
    simp [settles_info _ _ hl]
  apply this
  split
  · simp [Event.isInfo]
  · exact versionScan_info _ _
  · split <;> simp [Event.isInfo]
  · simp [Event.isInfo]

/-- The `GET pcp:version:schema` handler dereferences the bootstrap baton once. -/
theorem redis_load_series_version_callback_settles (baton : redisSlotsBaton) (sts : Int)
    (reply : Option redisReply) (hs : ¬ sts > 0) :
    ((redis_load_series_version_callback baton sts reply).2.filter
      (Event.settles BatonKind.slots)).length = 1 := by
  simp only [redis_load_series_version_callback, hs, if_false]
  split
  · simp only [settles_append, settles_info _ _ (decodeSeriesVersion_info baton sts reply),
      seriesBatonDereference, redis_update_version_eq]
    simp [Event.settles]
  · simp only [settles_append, settles_info _ _ (decodeSeriesVersion_info baton sts reply),
      redis_slots_end_phase_settles]

/-- C6, as stated, fails for `redis_map_request_callback`: on a reply that is
not redirected and reports a new name (integer 1) the handler neither
completes nor dereferences its baton; it issues the `PUBLISH` instead. -/
theorem redis_map_request_callback_defers :
    Callback.consultsRedirect Callback.redis_map_request_callback = true ∧
    ((callbackEvents sampleEnv sampleBatons { sts := 0, reply := some (redisReply.integer 1) }
        Callback.redis_map_request_callback).filter
      (Event.settles (Callback.batonKind Callback.redis_map_request_callback))).length = 0 := by
  decide

/-- C6, amended: a reply handler that consults `redisSlotsRedirect` does
nothing at all when the helper returns a positive value; when it returns zero
or a negative value the handler completes or dereferences its baton exactly
once, except that `redis_map_request_callback`, on a positive integer reply
with result zero, issues the one `PUBLISH` instead and leaves the completion to
the reply handler of the `PUBLISH`. -/
theorem callback_redirect_contract (env : Env) (b : Batons) (d : Delivery) (cb : Callback)
    (h : cb.consultsRedirect = true) :
    if d.sts > 0 then callbackEvents env b d cb = []
    else if cb = Callback.redis_map_request_callback ∧ d.sts = 0 ∧
        redisReply.isPositiveInteger d.reply = true then
      callbackEvents env b d cb =
        [Event.request (mapPublishRequest b.map.mapping Arg.unspecified)]
    else
      ((callbackEvents env b d cb).filter (Event.settles cb.batonKind)).length = 1 := by
  by_cases hs : d.sts > 0
  · simp only [hs, if_true]
    cases cb <;>
      simp [callbackEvents, redis_map_request_callback, loadIntegerCallback,
        loadStatusCallback, redis_series_timer_callback, redis_series_stream_callback,
        redis_update_version_callback, redis_load_series_version_callback,
        redis_load_version_callback, hs]
    all_goals simp [Callback.consultsRedirect] at h
  · simp only [hs, if_false]
    cases cb with
    | redis_map_publish_callback => simp [Callback.consultsRedirect] at h
    | redis_load_keymap_callback => simp [Callback.consultsRedirect] at h
    | redis_load_slots_callback => simp [Callback.consultsRedirect] at h
    | redis_map_request_callback =>
      by_cases hp : d.sts = 0 ∧ redisReply.isPositiveInteger d.reply = true
      · simp [hp, callbackEvents, redis_map_request_callback_eq, redis_map_publish,
          redis_map_publish_msg, StrArg.fmt_S, mapPublishRequest, redis_command,
          redis_param_str, redis_param_sds]
      · simp only [hp, and_false, if_false, true_and, callbackEvents, Callback.batonKind]
        exact redis_map_request_callback_settles b.map d.sts d.reply hs hp
    | redis_series_stream_callback =>
      simpa [callbackEvents, Callback.batonKind] using
        redis_series_stream_callback_settles env b.stream b.load d.sts d.reply hs
    | redis_series_timer_callback =>
      simpa [callbackEvents, Callback.batonKind] using
        redis_series_timer_callback_settles b.load d.sts hs
    | redis_update_version_callback =>
      simpa [callbackEvents, Callback.batonKind] using
        redis_update_version_callback_settles b.slots d.sts d.reply hs
    | redis_load_series_version_callback =>
      simpa [callbackEvents, Callback.batonKind] using
        redis_load_series_version_callback_settles b.slots d.sts d.reply hs
    | redis_load_version_callback =>
      simpa [callbackEvents, Callback.batonKind] using
        redis_load_version_callback_settles b.slots d.sts d.reply hs
    | _ =>
      first
      | simpa [callbackEvents, Callback.batonKind] using
          loadIntegerCallback_settles _ b.load d.sts d.reply hs
      | simpa [callbackEvents, Callback.batonKind] using
          loadStatusCallback_settles _ b.load d.sts d.reply hs

/-- C6, amended, at the reply handler of the descriptor `HMSET` with the
original reply `OK`. -/
theorem callback_redirect_contract_witness :
    Callback.consultsRedirect Callback.redis_desc_series_callback = true ∧
      ((callbackEvents sampleEnv sampleBatons { sts := 0, reply := some (redisReply.status "OK") }
          Callback.redis_desc_series_callback).filter
        (Event.settles BatonKind.load)).length = 1 :=
  ⟨rfl, by
    simpa [Callback.batonKind] using
      callback_redirect_contract sampleEnv sampleBatons
        { sts := 0, reply := some (redisReply.status "OK") } Callback.redis_desc_series_callback rfl⟩

/-! ## Metadata and values in `redis_series_metric` -/

/-- C1, as stated, fails: for the sample metric (one name, not cached) the
call with `data` set issues the `XADD` while the reply handlers of the `HMSET`
and `SADD` requests it has just issued are all still awaited; no reply handler
runs inside the call. -/
theorem redis_series_metric_not_causal :
    (redis_series_metric sampleEnv sampleLoader sampleContext sampleMetric "1000.000"
        false true).map (fun r => causallyOrdered [] r.2.2) = some false ∧
    (redis_series_metric sampleEnv sampleLoader sampleContext sampleMetric "1000.000"
        false true).map (fun r => r.2.2.map fun e =>
          (Event.isMetadata e, Event.isXadd e, Event.isReplied e)) =
      some [(false, false, false), (false, false, false), (false, false, false),
            (false, false, false), (false, false, false), (false, false, false),
            (true, false, false), (true, false, false), (true, false, false),
            (false, false, false), (true, false, false), (false, false, false),
            (true, false, false), (true, false, false), (true, false, false),
            (false, false, false), (false, true, false), (false, false, false)] := by
  decide

/-- Handing on the load baton issues nothing. -/
theorem doneSeriesLoadBaton_beforeValues (l : seriesLoadBaton) :
    (doneSeriesLoadBaton l).2.all Event.beforeValues = true := by
  unfold doneSeriesLoadBaton
  split <;> simp [Event.beforeValues, Event.isXadd, Event.isRequest, Event.isReplied]

/-- A `redisGetMap` call issues at most an `HSET`. -/
theorem redisGetMap_beforeValues (string_hash : String → Hash) (mapping : redisMap)
    (mapStr : String) (on_done : redisDoneCallBack) (alloc : Bool) :
    (redisGetMap string_hash mapping mapStr on_done alloc).events.all Event.beforeValues
      = true := by
  cases h : redisMapLookup mapping (string_hash mapStr) <;> cases alloc <;>
    simp [redisGetMap, h, redisMapRequest, Event.beforeValues, Event.isXadd, Event.isRequest,
      Event.isReplied]

/-- A `redisGetMap` call made for the load baton issues at most an `HSET`. -/
theorem loadGetMap_beforeValues (l : seriesLoadBaton) (g : GetMap)
    (h : g.events.all Event.beforeValues = true) :
    (loadGetMap l g).2.all Event.beforeValues = true := by
  unfold loadGetMap
  split
  · simp only [List.all_append, h, doneSeriesLoadBaton_beforeValues, Bool.and_self]
  · exact h

/-- Mapping one label issues no `XADD`. -/
theorem annotate_metric_beforeValues (env : Env) (l : seriesLoadBaton) (list : List labellist_t)
    (label : Label) : (annotate_metric env l list label).2.2.all Event.beforeValues = true := by
  unfold annotate_metric
  split
  · rfl
  · simp only [List.all_append, Bool.and_eq_true]
    refine ⟨⟨?_, ?_⟩, ?_⟩
    · simp [seriesLoadBaton.references, Event.beforeValues, Event.isXadd, Event.isRequest,
        Event.isReplied]
    · exact loadGetMap_beforeValues _ _ (redisGetMap_beforeValues _ _ _ _ _)
    · exact loadGetMap_beforeValues _ _ (redisGetMap_beforeValues _ _ _ _ _)

/-- Mapping a label set issues no `XADD`. -/
theorem labelMapping_beforeValues (env : Env) (labels : List Label) (l : seriesLoadBaton)
    (list : List labellist_t) :
    (labelMapping env labels l list).2.2.all Event.beforeValues = true := by
  induction labels generalizing l list with
  | nil => rfl
  | cons label rest ih =>
    simp only [labelMapping, List.all_append, annotate_metric_beforeValues, ih, Bool.and_self]

/-- Mapping the names of a metric issues no `XADD`. -/
theorem mapNames_beforeValues (env : Env) (names : List seriesname_t) (l : seriesLoadBaton) :
    (mapNames env names l).2.2.all Event.beforeValues = true := by
  induction names generalizing l with
  | nil => rfl
  | cons n rest ih =>
    simp only [mapNames, List.all_append, ih, Bool.and_true, Bool.and_eq_true]
    refine ⟨?_, loadGetMap_beforeValues _ _ (redisGetMap_beforeValues _ _ _ _ _)⟩
    simp [seriesLoadBaton.references, Event.beforeValues, Event.isXadd, Event.isRequest,
      Event.isReplied]

/-- Mapping the instances of a value list issues no `XADD`. -/
theorem mapInstances_beforeValues (env : Env) (values : List value_t) (l : seriesLoadBaton) (d : indom_t) :
    (mapInstances env values l d).2.2.all Event.beforeValues = true := by
  induction values generalizing l d with
  | nil => rfl
  | cons v rest ih =>
    simp only [mapInstances]
    split
    · exact ih _ _
    · simp only [List.all_append, ih, Bool.and_true, Bool.and_eq_true]
      refine ⟨⟨?_, loadGetMap_beforeValues _ _ (redisGetMap_beforeValues _ _ _ _ _)⟩, ?_⟩
      · simp [seriesLoadBaton.references, Event.beforeValues, Event.isXadd, Event.isRequest,
          Event.isReplied]
      · split
        · simp only [series_instance_label_mapping, labelMapping_beforeValues]
        · rfl

/-- The mappings of `redis_series_metric` issue no `XADD`. -/
theorem seriesMetricMappings_beforeValues (env : Env) (l : seriesLoadBaton) (metric : metric_t)
    (r : seriesLoadBaton × metric_t × List Event) (h : seriesMetricMappings env l metric = some r) :
    r.2.2.all Event.beforeValues = true := by
  have hn := mapNames_beforeValues env metric.names l
  cases hc : metric.cached
  · simp only [seriesMetricMappings, hc, ↓reduceIte] at h
    split at h
    · simp only [Option.some.injEq] at h
      subst h
      simp only [series_metric_label_mapping, List.all_append, hn,
        labelMapping_beforeValues, Bool.and_self]
    · split at h
      · split at h
        · simp only [Option.some.injEq] at h
          subst h
          exact hn
        · exact absurd h (by simp)
      · simp only [Option.some.injEq] at h
        subst h
        simp only [List.all_append, hn, mapInstances_beforeValues, Bool.and_self]
  · simp only [seriesMetricMappings, hc, Bool.true_eq_false, ↓reduceIte] at h
    split at h
    · simp only [Option.some.injEq] at h
      subst h
      rfl
    · split at h
      · split at h
        · simp only [Option.some.injEq] at h
          subst h
          rfl
        · exact absurd h (by simp)
      · simp only [Option.some.injEq] at h
        subst h
        simp only [List.all_append, List.all_nil, mapInstances_beforeValues, Bool.and_self]

/-- Publishing one label issues no `XADD`. -/
theorem redis_series_label_beforeValues (env : Env) (l : seriesLoadBaton) (metric : metric_t)
    (hash : String) (list : labellist_t) :
    (redis_series_label env l metric hash list).2.all Event.beforeValues = true := by
  unfold redis_series_label
  by_cases hf : list.flags = env.PM_LABEL_CONTEXT <;>
    simp [hf, seriesLoadBaton.references, Event.beforeValues, Event.isXadd, Event.isRequest,
      Event.isReplied]

/-- Publishing the labels of a list issues no `XADD`. -/
theorem labelLoop_beforeValues (env : Env) (metric : metric_t) (hash : String)
    (list : List labellist_t) (l : seriesLoadBaton) :
    (labelLoop env metric hash list l).2.all Event.beforeValues = true := by
  induction list generalizing l with
  | nil => rfl
  | cons node rest ih =>
    simp only [labelLoop, List.all_append, redis_series_label_beforeValues, ih, Bool.and_self]

/-- One label loop of `redis_series_labelset` issues no `XADD`. -/
theorem labelDoWhile_beforeValues (env : Env) (metric : metric_t) (hash : String)
    (list : List labellist_t) (l : seriesLoadBaton) (r : seriesLoadBaton × List Event)
    (h : labelDoWhile env metric hash list l = some r) :
    r.2.all Event.beforeValues = true := by
  cases list with
  | nil => simp [labelDoWhile] at h
  | cons node rest =>
    simp only [labelDoWhile, Option.some.injEq] at h
    subst h
    exact labelLoop_beforeValues _ _ _ _ _

/-- The label loops over the names of a metric issue no `XADD`. -/
theorem labelsetNames_beforeValues (env : Env) (metric : metric_t) (names : List seriesname_t)
    (l : seriesLoadBaton) (r : seriesLoadBaton × List Event) (h : labelsetNames env metric names l = some r) :
    r.2.all Event.beforeValues = true := by
  induction names generalizing l r with
  | nil =>
    simp only [labelsetNames, Option.some.injEq] at h
    subst h
    rfl
  | cons n rest ih =>
    simp only [labelsetNames] at h
    split at h
    · exact absurd h (by simp)
    · rename_i a ha
      split at h
      · exact absurd h (by simp)
      · rename_i b hb
        simp only [Option.some.injEq] at h
        subst h
        simp only [List.all_append, labelDoWhile_beforeValues _ _ _ _ _ _ ha, ih _ _ hb,
          Bool.and_self]

/-- Publishing a label set issues no `XADD`. -/
theorem redis_series_labelset_beforeValues (env : Env) (l : seriesLoadBaton) (metric : metric_t)
    (ins : Option instance_t) (r : seriesLoadBaton × List Event)
    (h : redis_series_labelset env l metric ins = some r) :
    r.2.all Event.beforeValues = true := by
  cases ins with
  | none => exact labelsetNames_beforeValues _ _ _ _ _ h
  | some i => exact labelDoWhile_beforeValues _ _ _ _ _ _ h

/-- Publishing an instance issues no `XADD`. -/
theorem redis_series_instance_beforeValues (l : seriesLoadBaton) (metric : metric_t) (d : indom_t)
    (ins : instance_t) :
    (redis_series_instance l metric d ins).2.all Event.beforeValues = true := by
  have hper : ∀ (names : List seriesname_t) (f : seriesname_t → Request)
      (_ : ∀ n, (f n).name = "SADD"),
      (names.flatMap fun n => [Event.ref BatonKind.load 1, Event.request (f n)]).all
        Event.beforeValues = true := by
    intro names f hf
    induction names with
    | nil => rfl
    | cons n rest ih =>
      simp only [List.flatMap_cons, List.all_append, ih, Bool.and_true]
      simp [Event.beforeValues, Event.isXadd, Event.isRequest, Event.isReplied, hf]
  unfold redis_series_instance
  simp only [List.all_append, Bool.and_eq_true]
  refine ⟨⟨⟨?_, ?_⟩, ?_⟩, ?_⟩
  · simp [seriesLoadBaton.references, Event.beforeValues, Event.isXadd, Event.isRequest,
      Event.isReplied]
  · simp [Event.beforeValues, Event.isXadd, Event.isRequest, Event.isReplied]
  · exact hper _ _ (fun _ => rfl)
  · simp [Event.beforeValues, Event.isXadd, Event.isRequest, Event.isReplied]

/-- The descriptor part of `redis_series_metadata` issues no `XADD`. -/
theorem metadataDesc_beforeValues (l : seriesLoadBaton) (context : context_t) (metric : metric_t) :
    (metadataDesc l context metric).2.all Event.beforeValues = true := by
  have hname : ∀ (l : seriesLoadBaton) (n : seriesname_t),
      (metadataName l context metric n).2.all Event.beforeValues = true := by
    intro l n
    unfold metadataName
    cases l.textSearch <;>
      simp [seriesLoadBaton.references, Event.beforeValues, Event.isXadd, Event.isRequest,
        Event.isReplied]
  have hnames : ∀ (names : List seriesname_t) (l : seriesLoadBaton),
      (metadataNames context metric names l).2.all Event.beforeValues = true := by
    intro names
    induction names with
    | nil => intro l; rfl
    | cons n rest ih =>
      intro l
      simp only [metadataNames, List.all_append, hname, ih, Bool.and_self]
  unfold metadataDesc
  simp only [List.all_append, hnames, Bool.true_and]
  simp [seriesLoadBaton.references, Event.beforeValues, Event.isXadd, Event.isRequest, Event.isReplied]

/-- The instance part of `redis_series_metadata` issues no `XADD`. -/
theorem metadataInstances_beforeValues (env : Env) (metric : metric_t) (values : List value_t)
    (l : seriesLoadBaton) (d : indom_t) (r : seriesLoadBaton × indom_t × List Event)
    (h : metadataInstances env metric values l d = some r) :
    r.2.2.all Event.beforeValues = true := by
  induction values generalizing l d r with
  | nil =>
    simp only [metadataInstances, Option.some.injEq] at h
    subst h
    rfl
  | cons v rest ih =>
    simp only [metadataInstances] at h
    split at h
    · exact ih _ _ _ h
    · split at h
      · split at h
        · exact absurd h (by simp)
        · rename_i b hb
          split at h
          · exact absurd h (by simp)
          · rename_i t ht
            simp only [Option.some.injEq] at h
            subst h
            simp only [List.all_append, redis_series_instance_beforeValues,
              redis_series_labelset_beforeValues _ _ _ _ _ hb, ih _ _ _ ht, Bool.and_true,
              Bool.true_and]
            split <;>
              simp [Event.beforeValues, Event.isXadd, Event.isRequest, Event.isReplied]
      · exact ih _ _ _ h

/-- `redis_series_metadata` issues no `XADD` and runs no reply handler. -/
theorem redis_series_metadata_beforeValues (env : Env) (l : seriesLoadBaton) (context : context_t)
    (metric : metric_t) (r : seriesLoadBaton × metric_t × List Event)
    (h : redis_series_metadata env l context metric = some r) :
    r.2.2.all Event.beforeValues = true := by
  have ha : (if metric.cached = true then (l, ([] : List Event))
      else metadataDesc l context metric).2.all Event.beforeValues = true := by
    split
    · rfl
    · exact metadataDesc_beforeValues _ _ _
  have htxt : ∀ txt : List Event,
      (if metric.desc.indomNull = false ∧ l.textSearch = true then
        match metric.indom with
        | some _ => some [Event.searchText "indom" metric.desc.indom]
        | none => none
       else some []) = some txt → txt.all Event.beforeValues = true := by
    intro txt ht
    split at ht
    · split at ht
      · simp only [Option.some.injEq] at ht
        subst ht
        simp [Event.beforeValues, Event.isXadd, Event.isRequest, Event.isReplied]
      · exact absurd ht (by simp)
    · simp only [Option.some.injEq] at ht
      subst ht
      rfl
  simp only [redis_series_metadata] at h
  split at h
  · exact absurd h (by simp)
  · rename_i txt ht
    have htx := htxt txt ht
    split at h
    · split at h
      · split at h
        · exact absurd h (by simp)
        · rename_i b hb
          simp only [Option.some.injEq] at h
          subst h
          simp only [List.all_append, ha, htx,
            redis_series_labelset_beforeValues _ _ _ _ _ hb, Bool.and_self]
      · simp only [Option.some.injEq] at h
        subst h
        simp only [List.all_append, ha, htx, Bool.and_self]
    · split at h
      · split at h
        · simp only [Option.some.injEq] at h
          subst h
          simp only [List.all_append, ha, htx, Bool.and_self]
        · exact absurd h (by simp)
      · split at h
        · exact absurd h (by simp)
        · rename_i t ht2
          simp only [Option.some.injEq] at h
          subst h
          simp only [List.all_append, ha, htx,
            metadataInstances_beforeValues _ _ _ _ _ _ ht2, Bool.and_self]

/-- `redis_series_stream` issues no metadata write and runs no reply handler. -/
theorem redis_series_stream_valuesOnly (env : Env) (l : seriesLoadBaton) (stamp : String)
    (metric : metric_t) (hash : String) (alloc : Bool) (r : seriesLoadBaton × List Event)
    (h : redis_series_stream env l stamp metric hash alloc = some r) :
    r.2.all Event.valuesOnly = true := by
  simp only [redis_series_stream] at h
  split at h
  · simp only [Option.some.injEq] at h
    subst h
    simp [Event.valuesOnly, Event.isMetadata, Event.isReplied]
  · split at h
    · exact absurd h (by simp)
    · simp only [Option.some.injEq] at h
      subst h
      simp [seriesLoadBaton.references, Event.valuesOnly, Event.isMetadata, Event.isReplied]

/-- `redis_series_streamed` issues no metadata write and runs no reply handler. -/
theorem redis_series_streamed_valuesOnly (env : Env) (stamp : String) (metric : metric_t)
    (names : List seriesname_t) (l : seriesLoadBaton) (r : seriesLoadBaton × List Event)
    (h : streamedNames env stamp metric names l = some r) :
    r.2.all Event.valuesOnly = true := by
  induction names generalizing l r with
  | nil =>
    simp only [streamedNames, Option.some.injEq] at h
    subst h
    rfl
  | cons n rest ih =>
    simp only [streamedNames] at h
    split at h
    · exact absurd h (by simp)
    · rename_i a ha
      split at h
      · exact absurd h (by simp)
      · rename_i b hb
        simp only [Option.some.injEq] at h
        subst h
        simp only [List.all_append, redis_series_stream_valuesOnly _ _ _ _ _ _ _ ha,
          ih _ _ hb, Bool.and_self]

/-- Events that hold no metadata write keep the order of issue. -/
theorem metadataIssuedFirst_of_valuesOnly (c : List Event)
    (h : c.all Event.valuesOnly = true) : metadataIssuedFirst c = true := by
  induction c with
  | nil => rfl
  | cons e es ih =>
    simp only [List.all_cons, Bool.and_eq_true] at h
    simp only [metadataIssuedFirst, ih h.2, Bool.and_true, Bool.or_eq_true]
    right
    rw [List.all_eq_true] at h ⊢
    intro x hx
    have := h.2 x hx
    simp only [Event.valuesOnly, Bool.and_eq_true] at this
    exact this.1

/-- Events that hold no `XADD` may precede any events that keep the order of
issue. -/
theorem metadataIssuedFirst_append (a c : List Event)
    (ha : a.all Event.beforeValues = true) (hc : metadataIssuedFirst c = true) :
    metadataIssuedFirst (a ++ c) = true := by
  induction a with
  | nil => exact hc
  | cons e es ih =>
    simp only [List.all_cons, Bool.and_eq_true] at ha
    have hx := ha.1
    simp only [Event.beforeValues, Bool.and_eq_true] at hx
    have ht := ih ha.2
    show ((!Event.isXadd e || (es ++ c).all fun x => !Event.isMetadata x)
      && metadataIssuedFirst (es ++ c)) = true
    rw [ht, hx.1]
    rfl

/-- C1, amended: in a call of `redis_series_metric` with `data` set that
returns, every `XADD` is issued after all `HMSET` and `SADD` requests of
`redis_series_metadata` have been issued, and no reply handler runs inside the
call: metadata and values are issued together, the `XADD` does not wait for the
replies to the metadata writes. -/
theorem redis_series_metric_issue_order (env : Env) (l : seriesLoadBaton) (context : context_t)
    (metric : metric_t) (timestamp : String) (meta : Bool)
    (r : seriesLoadBaton × metric_t × List Event)
    (h : redis_series_metric env l context metric timestamp meta true = some r) :
    metadataIssuedFirst r.2.2 = true ∧ r.2.2.all (fun e => !Event.isReplied e) = true := by
  simp only [redis_series_metric, or_true, if_true] at h
  split at h
  · exact absurd h (by simp)
  · rename_i a ha
    split at h
    · exact absurd h (by simp)
    · rename_i b hb
      split at h
      · exact absurd h (by simp)
      · rename_i c hc
        simp only [Option.some.injEq] at h
        subst h
        have h1 := seriesMetricMappings_beforeValues _ _ _ _ ha
        have h2 := redis_series_metadata_beforeValues _ _ _ _ _ hb
        have h3 := redis_series_streamed_valuesOnly _ _ _ _ _ _ hc
        constructor
        · rw [List.append_assoc]
          exact metadataIssuedFirst_append _ _ h1
            (metadataIssuedFirst_append _ _ h2 (metadataIssuedFirst_of_valuesOnly _ h3))
        · rw [List.all_eq_true] at h1 h2 h3
          simp only [List.all_append, Bool.and_eq_true, List.all_eq_true]
          refine ⟨⟨?_, ?_⟩, ?_⟩
          · intro x hx
            have := h1 x hx
            simp only [Event.beforeValues, Bool.and_eq_true] at this
            exact this.2
          · intro x hx
            have := h2 x hx
            simp only [Event.beforeValues, Bool.and_eq_true] at this
            exact this.2
          · intro x hx
            have := h3 x hx
            simp only [Event.valuesOnly, Bool.and_eq_true] at this
            exact this.2

/-- C1, amended, on the sample metric. -/
theorem redis_series_metric_issue_order_witness :
    redis_series_metric sampleEnv sampleLoader sampleContext sampleMetric "1000.000"
        false true = some sampleRun ∧
      metadataIssuedFirst sampleRun.2.2 = true ∧
      sampleRun.2.2.all (fun e => !Event.isReplied e) = true :=
  ⟨by decide,
   redis_series_metric_issue_order sampleEnv sampleLoader sampleContext sampleMetric
     "1000.000" false sampleRun (by decide)⟩

/-! ## The value stream -/

/-- What `series_stream_value` appends for a value that is there. -/
theorem series_stream_value_eq (env : Env) (cmd : List Arg) (name : Arg) (type : PmType)
    (a : pmAtomValue) :
    series_stream_value env cmd name type (some a) =
      cmd ++ [name, Arg.str (formatAtom env type a)] := by
  cases type <;> rfl

/-- What `redis_series_stream` requests, given the stream part of the frame. -/
theorem redis_series_stream_requests (env : Env) (l : seriesLoadBaton) (stamp : String)
    (metric : metric_t) (hash : String) (sf : List Arg × Nat)
    (h : streamFields env metric = some sf) :
    redis_series_stream env l stamp metric hash true =
      some ({ l with refcount := l.refcount + 2 },
        [Event.ref BatonKind.load 2,
         Event.request (xaddRequest env stamp hash sf.2 sf.1),
         Event.request (expireRequest env hash)]) := by
  simp [redis_series_stream, h, seriesLoadBaton.references, xaddRequest, expireRequest,
    redis_command, redis_param_str, redis_param_sds, redis_param_raw]

/-- C18: for a metric whose error code is negative, whatever its instance
domain and values, `redis_series_stream` issues an `XADD` with exactly the one
pair of field "-1" and the decimal error code; the frame declares and holds
exactly 8 elements. -/
theorem redis_series_stream_error (env : Env) (l : seriesLoadBaton) (stamp : String)
    (metric : metric_t) (hash : String) (h : metric.error < 0) :
    (redis_series_stream env l stamp metric hash true).map (fun r => requests r.2) =
        some [xaddRequest env stamp hash 8 [Arg.str "-1", Arg.str (toString metric.error)],
              expireRequest env hash] ∧
      (xaddRequest env stamp hash 8
        [Arg.str "-1", Arg.str (toString metric.error)]).cmd.params.length = 8 := by
  have hf : streamFields env metric =
      some ([Arg.str "-1", Arg.str (toString metric.error)], 8) := by
    simp [streamFields, h, series_stream_append]
  simp [redis_series_stream_requests env l stamp metric hash _ hf, requests, xaddRequest]

/-- C18 on the sample metric with an error code. -/
theorem redis_series_stream_error_witness :
    ({ sampleMetric with error := -12357 } : metric_t).error < 0 ∧
      (redis_series_stream sampleEnv sampleLoader "1000.000"
          { sampleMetric with error := -12357 } "0505" true).map (fun r => requests r.2) =
        some [xaddRequest sampleEnv "1000.000" "0505" 8
                [Arg.str "-1", Arg.str (toString (-12357 : Int))],
              expireRequest sampleEnv "0505"] :=
  ⟨by decide,
   (redis_series_stream_error sampleEnv sampleLoader "1000.000"
      { sampleMetric with error := -12357 } "0505" (by decide)).1⟩

/-- C16: for an error-free metric without instance domain (`PM_INDOM_NULL`, or
no value list) `redis_series_stream` issues an `XADD` with exactly one pair:
the empty field name and the formatted value of the metric, which is the
decimal rendering of the atom for the types i32, u32, i64 and u64, and the
decimal `PM_ERR_NYI` code for an unsupported type such as event. -/
theorem redis_series_stream_no_indom (env : Env) (l : seriesLoadBaton) (stamp : String)
    (metric : metric_t) (hash : String) (he : ¬ metric.error < 0)
    (hi : metric.desc.indomNull = true ∨ metric.vlist = none) :
    (redis_series_stream env l stamp metric hash true).map (fun r => requests r.2) =
        some [xaddRequest env stamp hash 8
                [Arg.str "", Arg.str (formatAtom env metric.desc.type metric.atom)],
              expireRequest env hash] ∧
      (∀ a : pmAtomValue,
        formatAtom env PmType.i32 a = toString a.l ∧
        formatAtom env PmType.u32 a = toString a.ul ∧
        formatAtom env PmType.i64 a = toString a.ll ∧
        formatAtom env PmType.u64 a = toString a.ull ∧
        formatAtom env PmType.event a = toString env.PM_ERR_NYI) := by
  have hf : streamFields env metric =
      some ([Arg.str "", Arg.str (formatAtom env metric.desc.type metric.atom)], 8) := by
    simp [streamFields, he, hi, series_stream_value_eq]
  refine ⟨?_, fun a => ⟨rfl, rfl, rfl, rfl, rfl⟩⟩
  simp [redis_series_stream_requests env l stamp metric hash _ hf, requests]

/-- C16 on the sample metric (no instance domain, value 42 of type i32). -/
theorem redis_series_stream_no_indom_witness :
    ¬ sampleMetric.error < 0 ∧
      (sampleMetric.desc.indomNull = true ∨ sampleMetric.vlist = none) ∧
      (redis_series_stream sampleEnv sampleLoader "1000.000" sampleMetric "0505" true).map
          (fun r => requests r.2) =
        some [xaddRequest sampleEnv "1000.000" "0505" 8
                [Arg.str "", Arg.str (formatAtom sampleEnv sampleMetric.desc.type
                  sampleMetric.atom)],
              expireRequest sampleEnv "0505"] :=
  ⟨by decide, Or.inl rfl,
   (redis_series_stream_no_indom sampleEnv sampleLoader "1000.000" sampleMetric "0505"
      (by decide) (Or.inl rfl)).1⟩

/-- C17, as stated, fails: for a metric with an instance domain and an empty
value list the one pair has the field name "0", not the empty field name. -/
theorem redis_series_stream_empty_vlist_zero :
    (redis_series_stream sampleEnv sampleLoader "1000.000" (sampleInstMetric []) "0c0c"
        true).map (fun r => requests r.2) =
      some [xaddRequest sampleEnv "1000.000" "0c0c" 8 [Arg.str "0", Arg.str "0"],
            expireRequest sampleEnv "0c0c"] ∧
    [Arg.str "0", Arg.str "0"] ≠ [Arg.str "", Arg.str "0"] := by
  decide

/-- C17, amended: for an error-free metric that has an instance domain and a
value list holding no values, `redis_series_stream` issues an `XADD` with
exactly one pair, of field name "0" and value "0". -/
theorem redis_series_stream_empty_vlist (env : Env) (l : seriesLoadBaton) (stamp : String)
    (metric : metric_t) (hash : String) (he : ¬ metric.error < 0)
    (hi : metric.desc.indomNull = false) (hv : metric.vlist = some []) :
    (redis_series_stream env l stamp metric hash true).map (fun r => requests r.2) =
      some [xaddRequest env stamp hash 8 [Arg.str "0", Arg.str "0"],
            expireRequest env hash] := by
  have hf : streamFields env metric = some ([Arg.str "0", Arg.str "0"], 8) := by
    simp [streamFields, he, hi, hv, series_stream_append]
  simp [redis_series_stream_requests env l stamp metric hash _ hf, requests]

/-- C17, amended, on the sample metric with an instance domain and no values. -/
theorem redis_series_stream_empty_vlist_witness :
    ¬ (sampleInstMetric []).error < 0 ∧ (sampleInstMetric []).desc.indomNull = false ∧
      (sampleInstMetric []).vlist = some [] ∧
      (redis_series_stream sampleEnv sampleLoader "1000.000" (sampleInstMetric []) "0c0c"
          true).map (fun r => requests r.2) =
        some [xaddRequest sampleEnv "1000.000" "0c0c" 8 [Arg.str "0", Arg.str "0"],
              expireRequest sampleEnv "0c0c"] :=
  ⟨by decide, rfl, rfl,
   redis_series_stream_empty_vlist sampleEnv sampleLoader "1000.000" (sampleInstMetric [])
     "0c0c" (by decide) rfl rfl⟩

/-- The loop of `redis_series_stream` over a value list appends the pairs of
the values that resolve and counts two elements for each pair. -/
theorem streamInstances_eq (env : Env) (type : PmType) (d : indom_t) (values : List value_t)
    (acc : List Arg × Nat) :
    streamInstances env type d values acc =
      (acc.1 ++ streamPairs env type d values,
       acc.2 + (streamPairs env type d values).length) := by
  induction values generalizing acc with
  | nil => simp [streamInstances, streamPairs]
  | cons v rest ih =>
    simp only [streamInstances]
    cases h : d.fetch v.inst with
    | none =>
      simp only [ih]
      simp [streamPairs, h]
    | some ins =>
      simp only [ih, series_stream_value_eq]
      simp [streamPairs, h, List.append_assoc]
      omega

/-- Each value that resolves contributes one pair. -/
theorem streamPairs_length (env : Env) (type : PmType) (d : indom_t) (values : List value_t) :
    (streamPairs env type d values).length =
      2 * (values.filter fun v => (d.fetch v.inst).isSome).length := by
  induction values with
  | nil => rfl
  | cons v rest ih =>
    have hc : streamPairs env type d (v :: rest) =
        (match d.fetch v.inst with
         | some ins => [Arg.sha ins.name.hash, Arg.str (formatAtom env type v.atom)]
         | none => []) ++ streamPairs env type d rest := by
      simp [streamPairs]
    rw [hc, List.length_append, ih]
    cases h : d.fetch v.inst with
    | none => simp [List.filter_cons, h]
    | some ins =>
      simp [List.filter_cons, h]
      omega

/-- C15, as stated, fails: a value whose instance does not resolve in the
instance domain gets no pair, so a value list of one such value yields an
`XADD` with no pair at all. -/
theorem redis_series_stream_unresolved_skipped :
    (redis_series_stream sampleEnv sampleLoader "1000.000"
        (sampleInstMetric [{ inst := 7, atom := sampleAtom 5 }]) "0c0c" true).map
        (fun r => requests r.2) =
      some [xaddRequest sampleEnv "1000.000" "0c0c" 6 [], expireRequest sampleEnv "0c0c"] := by
  decide

/-- C15, amended: for an error-free metric with an instance domain and a value
list that is not empty, the `XADD` that `redis_series_stream` issues on
`pcp:values:series:<hash>` (`MAXLEN ~ <maxstreamlen> <stamp>`) carries, in
value-list order, exactly one pair for every value whose instance resolves in
the instance domain, the field being the 20 octets of that instance's name
hash; values whose instance does not resolve are skipped.  It is followed by
exactly one `EXPIRE pcp:values:series:<hash> <streamexpire>`. -/
theorem redis_series_stream_instances (env : Env) (l : seriesLoadBaton) (stamp : String)
    (metric : metric_t) (hash : String) (values : List value_t) (d : indom_t)
    (he : ¬ metric.error < 0) (hi : metric.desc.indomNull = false)
    (hv : metric.vlist = some values) (hk : values ≠ []) (hd : metric.indom = some d) :
    (redis_series_stream env l stamp metric hash true).map (fun r => requests r.2) =
        some [xaddRequest env stamp hash
                (6 + (streamPairs env metric.desc.type d values).length)
                (streamPairs env metric.desc.type d values),
              expireRequest env hash] ∧
      (streamPairs env metric.desc.type d values).length =
        2 * (values.filter fun v => (d.fetch v.inst).isSome).length := by
  have hlen : ¬ values.length ≤ 0 := by
    cases values with
    | nil => exact absurd rfl hk
    | cons v vs => simp
  have hf : streamFields env metric =
      some (streamPairs env metric.desc.type d values,
            6 + (streamPairs env metric.desc.type d values).length) := by
    simp [streamFields, he, hi, hv, hd, hlen, streamInstances_eq]
  refine ⟨?_, streamPairs_length _ _ _ _⟩
  simp [redis_series_stream_requests env l stamp metric hash _ hf, requests]

/-- C15, amended, on the sample metric with values for the instances 0, 7 (not
in the instance domain) and 1. -/
theorem redis_series_stream_instances_witness :
    ¬ (sampleInstMetric [{ inst := 0, atom := sampleAtom 3 }, { inst := 7, atom := sampleAtom 5 },
        { inst := 1, atom := sampleAtom 4 }]).error < 0 ∧
      (redis_series_stream sampleEnv sampleLoader "1000.000"
          (sampleInstMetric [{ inst := 0, atom := sampleAtom 3 },
            { inst := 7, atom := sampleAtom 5 }, { inst := 1, atom := sampleAtom 4 }])
          "0c0c" true).map (fun r => requests r.2) =
        some [xaddRequest sampleEnv "1000.000" "0c0c" 10
                [Arg.sha (List.replicate 20 7), Arg.str "3",
                 Arg.sha (List.replicate 20 10), Arg.str "4"],
              expireRequest sampleEnv "0c0c"] :=
  ⟨by decide,
   (redis_series_stream_instances sampleEnv sampleLoader "1000.000"
      (sampleInstMetric [{ inst := 0, atom := sampleAtom 3 },
        { inst := 7, atom := sampleAtom 5 }, { inst := 1, atom := sampleAtom 4 }])
      "0c0c" _ sampleInDom (by decide) rfl rfl (by decide) rfl).1.trans (by decide)⟩

/-! ## The reply to a duplicate `XADD` -/

/-- C19: when the reply to an `XADD` is the store's duplicate-or-earlier-id
error and the redirection helper returns zero, `redis_series_stream_callback`
logs exactly one message, at WARNING level, issues no request, releases the
stream baton and dereferences the load baton exactly once; the load baton
moves on to its next phase when that was its last reference. -/
theorem redis_series_stream_callback_duplicate (env : Env) (baton : redisStreamBaton)
    (l : seriesLoadBaton) :
    redis_series_stream_callback env baton l 0 (some (redisReply.error env.REDIS_ESTREAMXADD)) =
      ({ l with refcount := l.refcount - 1 },
       [Event.info LogLevel.warning
          ("duplicate or early stream " ++ baton.hash ++ " insert at time " ++ baton.stamp),
        Event.freed BatonKind.stream, Event.deref BatonKind.load]
         ++ (if l.refcount - 1 = 0 then [Event.loadNext] else [])) := by
  simp [redis_series_stream_callback, testReplyError, doneRedisStreamBaton,
    doneSeriesLoadBaton]

/-! ## Label and descriptor writes -/

/-- The elements `paramNameHashes` appends. -/
theorem paramNameHashes_eq (cmd : Cmd) (names : List seriesname_t) :
    paramNameHashes cmd names =
      { count := cmd.count, params := cmd.params ++ names.map fun n => Arg.sha n.hash } := by
  induction names generalizing cmd with
  | nil => simp [paramNameHashes]
  | cons n rest ih =>
    have := ih (redis_param_sha cmd n.hash)
    simp only [paramNameHashes, List.foldl_cons] at this ⊢
    rw [this]
    simp [redis_param_sha]

/-- What `redis_series_label` requests and how many references it takes. -/
theorem redis_series_label_eq (env : Env) (l : seriesLoadBaton) (metric : metric_t)
    (hash : String) (list : labellist_t) :
    requests (redis_series_label env l metric hash list).2 =
        (if list.flags ≠ env.PM_LABEL_CONTEXT then [labelflagsRequest hash list] else [])
          ++ [labelvalueRequest hash list, maplabelvalueRequest list,
              labelSetRequest metric list] ∧
      loadReferences (redis_series_label env l metric hash list).2 =
        (if list.flags ≠ env.PM_LABEL_CONTEXT then 4 else 3) := by
  unfold redis_series_label
  by_cases hf : list.flags = env.PM_LABEL_CONTEXT <;>
    simp [hf, seriesLoadBaton.references, requests, loadReferences, labelflagsRequest,
      labelvalueRequest, maplabelvalueRequest, labelSetRequest, paramNameHashes_eq,
      redis_command, redis_param_str, redis_param_sds, redis_param_sha]

/-- C12, as stated, fails: a label whose flags have the context bit and the
optional bit set (129) still gets its `HMSET pcp:labelflags:series:<hash>`. -/
theorem redis_series_label_context_bit :
    contextBitSet sampleEnv 129 = true ∧
    requests (redis_series_label sampleEnv sampleLoader sampleMetric "0505"
        { name := "hostname", value := "a", flags := 129,
          nameid := List.replicate 20 8, valueid := List.replicate 20 1 }).2 =
      [labelflagsRequest "0505"
         { name := "hostname", value := "a", flags := 129,
           nameid := List.replicate 20 8, valueid := List.replicate 20 1 },
       labelvalueRequest "0505"
         { name := "hostname", value := "a", flags := 129,
           nameid := List.replicate 20 8, valueid := List.replicate 20 1 },
       maplabelvalueRequest
         { name := "hostname", value := "a", flags := 129,
           nameid := List.replicate 20 8, valueid := List.replicate 20 1 },
       labelSetRequest sampleMetric
         { name := "hostname", value := "a", flags := 129,
           nameid := List.replicate 20 8, valueid := List.replicate 20 1 }] := by
  decide

/-- C12, amended: `redis_series_label` issues the
`HMSET pcp:labelflags:series:<hash> <name-hash> <flags>` if and only if the
flags value of the label is not exactly `PM_LABEL_CONTEXT`; the `HMSET` to
`pcp:labelvalue:series:<hash>`, the `HMSET` to `pcp:map:label.<name-hash>.value`
and the `SADD` to `pcp:series:label.<name-hash>.value:<value-hash>` follow for
every label, whatever its flags. -/
theorem redis_series_label_requests (env : Env) (l : seriesLoadBaton) (metric : metric_t)
    (hash : String) (list : labellist_t) :
    requests (redis_series_label env l metric hash list).2 =
      (if list.flags ≠ env.PM_LABEL_CONTEXT then [labelflagsRequest hash list] else [])
        ++ [labelvalueRequest hash list, maplabelvalueRequest list,
            labelSetRequest metric list] :=
  (redis_series_label_eq env l metric hash list).1

/-- The references among events in sequence. -/
theorem loadReferences_append (a b : List Event) :
    loadReferences (a ++ b) = loadReferences a + loadReferences b := by
  induction a with
  | nil => simp [loadReferences]
  | cons e es ih =>
    cases e with
    | ref k n =>
      cases k <;> simp [loadReferences, ih]
      omega
    | _ => simp [loadReferences, ih]

/-- The descriptor requests and references of one name. -/
theorem metadataName_eq (l : seriesLoadBaton) (context : context_t) (metric : metric_t)
    (n : seriesname_t) :
    requests (metadataName l context metric n).2 = descNameRequests context metric n ∧
      loadReferences (metadataName l context metric n).2 = 3 := by
  unfold metadataName
  cases l.textSearch <;>
    simp [seriesLoadBaton.references, requests, loadReferences, descNameRequests,
      redis_command, redis_param_str, redis_param_sds, redis_param_sha]

/-- The descriptor requests and references of all names. -/
theorem metadataNames_eq (context : context_t) (metric : metric_t)
    (names : List seriesname_t) (l : seriesLoadBaton) :
    requests (metadataNames context metric names l).2 =
        names.flatMap (fun n => descNameRequests context metric n) ∧
      loadReferences (metadataNames context metric names l).2 = 3 * names.length := by
  induction names generalizing l with
  | nil => simp [metadataNames, requests, loadReferences]
  | cons n rest ih =>
    have h1 := metadataName_eq l context metric n
    have h2 := ih (metadataName l context metric n).1
    simp only [metadataNames, requests_append, loadReferences_append, h1.1, h1.2, h2.1, h2.2,
      List.flatMap_cons, List.length_cons]
    exact ⟨trivial, by omega⟩

/-- The descriptor part of `redis_series_metadata`: its requests and references. -/
theorem metadataDesc_eq (l : seriesLoadBaton) (context : context_t) (metric : metric_t) :
    requests (metadataDesc l context metric).2 = descRequests context metric ∧
      loadReferences (metadataDesc l context metric).2 = 3 * metric.names.length + 1 := by
  have h := metadataNames_eq context metric metric.names l
  unfold metadataDesc
  simp only [requests_append, loadReferences_append, h.1, h.2]
  simp [seriesLoadBaton.references, requests, loadReferences, descRequests,
    contextSeriesRequest, paramNameHashes_eq, redis_command, redis_param_str, redis_param_sds]

/-- The length of the descriptor requests. -/
theorem descRequests_length (context : context_t) (metric : metric_t) :
    (descRequests context metric).length = 3 * metric.names.length + 1 := by
  have h : ∀ names : List seriesname_t,
      (names.flatMap fun n => descNameRequests context metric n).length = 3 * names.length := by
    intro names
    induction names with
    | nil => rfl
    | cons n rest ih =>
      simp only [List.flatMap_cons, List.length_append, ih, List.length_cons]
      simp [descNameRequests]
      omega
  simp [descRequests, h]

/-- For a metric that is not cached, `redis_series_metadata` starts with the
descriptor part. -/
theorem redis_series_metadata_uncached (env : Env) (l : seriesLoadBaton) (context : context_t)
    (metric : metric_t) (r : seriesLoadBaton × metric_t × List Event)
    (hc : metric.cached = false)
    (h : redis_series_metadata env l context metric = some r) :
    ∃ rest, r.2.2 = (metadataDesc l context metric).2 ++ rest := by
  simp only [redis_series_metadata, hc, Bool.false_eq_true, ↓reduceIte] at h
  split at h
  · exact absurd h (by simp)
  · rename_i txt ht
    split at h
    · split at h
      · exact absurd h (by simp)
      · simp only [Option.some.injEq] at h
        subst h
        exact ⟨_, List.append_assoc _ _ _⟩
    · split at h
      · split at h
        · simp only [Option.some.injEq] at h
          subst h
          exact ⟨_, rfl⟩
        · exact absurd h (by simp)
      · split at h
        · exact absurd h (by simp)
        · simp only [Option.some.injEq] at h
          subst h
          exact ⟨_, List.append_assoc _ _ _⟩

/-- With text search off the descriptor part makes no text search call. -/
theorem metadataDesc_no_search (l : seriesLoadBaton) (context : context_t) (metric : metric_t)
    (ht : l.textSearch = false) :
    (metadataDesc l context metric).2.any Event.isSearchText = false := by
  have hn : ∀ (names : List seriesname_t) (l : seriesLoadBaton), l.textSearch = false →
      (metadataNames context metric names l).2.any Event.isSearchText = false ∧
        (metadataNames context metric names l).1.textSearch = false := by
    intro names
    induction names with
    | nil => intro l hl; exact ⟨rfl, hl⟩
    | cons n rest ih =>
      intro l hl
      have h1 : (metadataName l context metric n).2.any Event.isSearchText = false := by
        simp [metadataName, hl, seriesLoadBaton.references, Event.isSearchText]
      have h2 : (metadataName l context metric n).1.textSearch = false := by
        simp [metadataName, hl, seriesLoadBaton.references]
      have h3 := ih _ h2
      simp only [metadataNames, List.any_append, h1, h3.1, h3.2, Bool.or_self, and_self]
  simp only [metadataDesc, List.any_append, (hn metric.names l ht).1, Bool.false_or]
  simp [seriesLoadBaton.references, Event.isSearchText]

/-- C13: for a metric that is not cached, with text search off,
`redis_series_metadata` first issues, for each name in turn,
`SADD pcp:series:metric.name:<hex name-hash> <series-hash>`,
`SADD pcp:metric.name:series:<hex series-hash> <name-hash>` and the 14-element
`HMSET pcp:desc:series:<hex series-hash>` with the fields indom, pmid,
semantics, source (the context hash), type and units in that order, and then
one `SADD pcp:series:context.name:<hex context id>` carrying the series hashes
of all names: 3n+1 requests for n names, with 3n+1 references taken for them
and nothing else in between. -/
theorem redis_series_metadata_descriptor (env : Env) (l : seriesLoadBaton)
    (context : context_t) (metric : metric_t) (r : seriesLoadBaton × metric_t × List Event)
    (hc : metric.cached = false) (ht : l.textSearch = false)
    (h : redis_series_metadata env l context metric = some r) :
    (∃ rest, r.2.2 = (metadataDesc l context metric).2 ++ rest) ∧
      requests (metadataDesc l context metric).2 = descRequests context metric ∧
      (descRequests context metric).length = 3 * metric.names.length + 1 ∧
      loadReferences (metadataDesc l context metric).2 = 3 * metric.names.length + 1 ∧
      (metadataDesc l context metric).2.any Event.isSearchText = false :=
  ⟨redis_series_metadata_uncached env l context metric r hc h,
   (metadataDesc_eq l context metric).1, descRequests_length context metric,
   (metadataDesc_eq l context metric).2, metadataDesc_no_search l context metric ht⟩

/-- C13 on the labelled sample metric. -/
theorem redis_series_metadata_descriptor_witness :
    sampleLabelled.cached = false ∧ sampleLoader.textSearch = false ∧
      redis_series_metadata sampleEnv sampleLoader sampleContext sampleLabelled =
        some sampleMetadataRun ∧
      requests (metadataDesc sampleLoader sampleContext sampleLabelled).2 =
        descRequests sampleContext sampleLabelled ∧
      (descRequests sampleContext sampleLabelled).length = 3 * 1 + 1 :=
  ⟨rfl, rfl, by decide,
   (redis_series_metadata_descriptor sampleEnv sampleLoader sampleContext sampleLabelled
      sampleMetadataRun rfl rfl (by decide)).2.1,
   (redis_series_metadata_descriptor sampleEnv sampleLoader sampleContext sampleLabelled
      sampleMetadataRun rfl rfl (by decide)).2.2.1⟩

/-! ## The reconnect worker -/

/-- What the invocations of the reconnect worker do, from a counter value of 1
or 2: the state test is reached exactly when the counter is 1. -/
theorem workerRun_get (disconnected : Nat) (ps : List ProxyView) (w i : Nat)
    (hw : w = 1 ∨ w = 2) :
    (workerRun disconnected w ps)[i]? =
      ps[i]?.map fun p => if (i + w) % 2 = 1 then workerCheck disconnected p else [] := by
  induction ps generalizing w i with
  | nil => simp [workerRun]
  | cons p rest ih =>
    rcases hw with hw | hw <;> subst hw
    · cases i with
      | zero => simp [workerRun, redis_reconnect_worker]
      | succ j =>
        have := ih 2 j (Or.inr rfl)
        simp only [workerRun, redis_reconnect_worker, REDIS_RECONNECT_INTERVAL,
          List.getElem?_cons_succ]
        simp only [gt_iff_lt, lt_self_iff_false, ↓reduceIte, this]
    · cases i with
      | zero => simp [workerRun, redis_reconnect_worker]
      | succ j =>
        have := ih 1 j (Or.inl rfl)
        simp only [workerRun, redis_reconnect_worker, List.getElem?_cons_succ]
        simp only [gt_iff_lt, Nat.one_lt_ofNat, ↓reduceIte, Nat.add_one_sub_one, this]
        have he : (j + 1) % 2 = (j + 1 + 2) % 2 := by omega
        rw [he]

/-- C20: over any sequence of invocations of `redis_reconnect_worker` from its
initial state, the test of the slots state is reached exactly on the
invocations number 2, 4, 6, and so on; on such an invocation
`redisSlotsReconnect` is called if and only if the slots object exists and its
state is `SLOTS_DISCONNECTED`, and every other invocation does nothing but
count down. -/
theorem redis_reconnect_worker_schedule (disconnected : Nat) (ps : List ProxyView) (i : Nat) :
    (workerRun disconnected REDIS_RECONNECT_INTERVAL ps)[i]? =
        ps[i]?.map (fun p => if (i + 1) % 2 = 0 then workerCheck disconnected p else []) ∧
      (∀ p : ProxyView,
        (WorkerEvent.reconnect ∈ workerCheck disconnected p ↔ p.slots = some disconnected) ∧
        WorkerEvent.stateChecked ∈ workerCheck disconnected p) ∧
      (∀ (w : Nat) (p : ProxyView),
        redis_reconnect_worker disconnected w p =
          if w > 1 then (w - 1, []) else (2, workerCheck disconnected p)) := by
  refine ⟨?_, ?_, ?_⟩
  · show (workerRun disconnected 2 ps)[i]? = _
    rw [workerRun_get disconnected ps 2 i (Or.inr rfl)]
    congr 1
    funext p
    have : ((i + 2) % 2 = 1) ↔ ((i + 1) % 2 = 0) := by omega
    simp only [this]
  · intro p
    unfold workerCheck
    by_cases h : p.slots = some disconnected
    · simp [h]
    · cases hs : p.slots with
      | none => simp [hs] at h ⊢
      | some st =>
        have : st ≠ disconnected := by
          intro e
          exact h (by rw [hs, e])
        simp [this]
  · intro w p
    rfl

/-! ## Publishing once -/

/-- An instance that is fetched is one of the instance domain, under the
number asked for. -/
theorem indom_fetch_some (d : indom_t) (n : Nat) (ins : instance_t)
    (h : d.fetch n = some ins) : ins ∈ d.insts ∧ ins.inst = n := by
  unfold indom_t.fetch at h
  refine ⟨List.mem_of_find?_eq_some h, ?_⟩
  have := List.find?_some h
  simpa using this

/-- Nothing is fetched only when no instance has the number asked for. -/
theorem indom_fetch_none (d : indom_t) (n : Nat) (h : d.fetch n = none) :
    ∀ j ∈ d.insts, j.inst ≠ n := by
  unfold indom_t.fetch at h
  intro j hj
  have := List.find?_eq_none.mp h j hj
  simpa using this

/-- Storing a cached instance keeps the instances of any number cached. -/
theorem indom_store_cached (d : indom_t) (i : instance_t) (n : Nat) (hi : i.cached = true)
    (h : ∀ j ∈ d.insts, j.inst = n → j.cached = true) :
    ∀ j ∈ (d.store i).insts, j.inst = n → j.cached = true := by
  intro j hj hn
  simp only [indom_t.store, List.mem_map] at hj
  obtain ⟨k, hk, rfl⟩ := hj
  by_cases hb : (k.inst == i.inst) = true
  · simp only [hb, if_true] at hn ⊢
    exact hi
  · simp only [hb] at hn ⊢
    exact h k hk hn

/-- Storing an instance makes all instances of its number equal to it. -/
theorem indom_store_same (d : indom_t) (i : instance_t) :
    ∀ j ∈ (d.store i).insts, j.inst = i.inst → j = i := by
  intro j hj hn
  simp only [indom_t.store, List.mem_map] at hj
  obtain ⟨k, hk, rfl⟩ := hj
  by_cases hb : (k.inst == i.inst) = true
  · simp only [hb, if_true]
  · simp only [hb] at hn
    exact absurd (by simpa using hn) hb

/-- Marking keeps the instances of any number cached. -/
theorem markCached_keeps (values : List value_t) (d : indom_t) (n : Nat)
    (h : ∀ j ∈ d.insts, j.inst = n → j.cached = true) :
    ∀ j ∈ (markCached d values).insts, j.inst = n → j.cached = true := by
  induction values generalizing d with
  | nil => exact h
  | cons v rest ih =>
    simp only [markCached]
    split
    · exact ih _ (indom_store_cached d _ n rfl h)
    · exact ih _ h

/-- After marking, every instance under the number of a value of the list is
cached. -/
theorem markCached_marks (values : List value_t) (d : indom_t) :
    ∀ v ∈ values, ∀ j ∈ (markCached d values).insts, j.inst = v.inst → j.cached = true := by
  induction values generalizing d with
  | nil => intro v hv; simp at hv
  | cons w rest ih =>
    intro v hv
    simp only [markCached]
    rcases List.mem_cons.mp hv with rfl | hr
    · cases hf : d.fetch v.inst with
      | none =>
        simp only []
        apply markCached_keeps
        intro j hj hn
        exact absurd hn (indom_fetch_none d _ hf j hj)
      | some ins =>
        simp only []
        apply markCached_keeps
        intro j hj hn
        have hi := (indom_fetch_some d _ ins hf).2
        have := indom_store_same d { ins with cached := true } j hj (by simpa [hi] using hn)
        rw [this]
    · split
      · exact ih _ v hr
      · exact ih _ v hr

/-- The loop of `redis_series_metadata` over the value list leaves the
instance domain with every resolved instance marked. -/
theorem metadataInstances_indom (env : Env) (metric : metric_t) (values : List value_t)
    (l : seriesLoadBaton) (d : indom_t) (r : seriesLoadBaton × indom_t × List Event)
    (h : metadataInstances env metric values l d = some r) : r.2.1 = markCached d values := by
  induction values generalizing l d r with
  | nil =>
    simp only [metadataInstances, Option.some.injEq] at h
    subst h
    rfl
  | cons v rest ih =>
    simp only [metadataInstances] at h
    simp only [markCached]
    split at h
    · rename_i hf
      simp only [hf]
      exact ih _ _ _ h
    · rename_i ins hf
      simp only [hf]
      split at h
      · split at h
        · exact absurd h (by simp)
        · split at h
          · exact absurd h (by simp)
          · rename_i t ht
            simp only [Option.some.injEq] at h
            subst h
            exact ih _ _ t ht
      · exact ih _ _ _ h

/-- Storing an instance of the domain back with its cached mark set keeps all
label lists. -/
theorem indom_store_labellist (d : indom_t) (ins : instance_t) (hm : ins ∈ d.insts)
    (h : ∀ j ∈ d.insts, j.labellist ≠ []) :
    ∀ j ∈ (d.store { ins with cached := true }).insts, j.labellist ≠ [] := by
  intro j hj
  simp only [indom_t.store, List.mem_map] at hj
  obtain ⟨k, hk, rfl⟩ := hj
  split
  · exact h ins hm
  · exact h k hk

/-- With label lists that are not empty the loop of `redis_series_metadata`
over the value list returns. -/
theorem metadataInstances_returns (env : Env) (metric : metric_t) (values : List value_t)
    (l : seriesLoadBaton) (d : indom_t) (h : ∀ j ∈ d.insts, j.labellist ≠ []) :
    (metadataInstances env metric values l d).isSome = true := by
  induction values generalizing l d with
  | nil => rfl
  | cons v rest ih =>
    simp only [metadataInstances]
    split
    · exact ih _ _ h
    · rename_i ins hf
      have hm := (indom_fetch_some d _ ins hf).1
      have hl := h ins hm
      have hs := indom_store_labellist d ins hm h
      split
      · cases hll : ins.labellist with
        | nil => exact absurd hll hl
        | cons node more =>
          simp only [redis_series_labelset, labelDoWhile, hll]
          have := ih (labelLoop env metric (pmwebapi_hash_str ins.name.hash) (node :: more)
            (redis_series_instance l metric d ins).1).1 _ hs
          simp only [hll] at this
          obtain ⟨t, ht⟩ := Option.isSome_iff_exists.mp this
          simp only [ht, Option.isSome_some]
      · exact ih _ _ hs

/-- With a label list that is not empty the label loops over the names of a
metric return. -/
theorem labelsetNames_returns (env : Env) (metric : metric_t) (names : List seriesname_t)
    (l : seriesLoadBaton) (h : metric.labellist ≠ []) :
    (labelsetNames env metric names l).isSome = true := by
  induction names generalizing l with
  | nil => rfl
  | cons n rest ih =>
    cases hll : metric.labellist with
    | nil => exact absurd hll h
    | cons node more =>
      simp only [labelsetNames, labelDoWhile, hll]
      have := ih (labelLoop env metric (pmwebapi_hash_str n.hash) (node :: more) l).1
      obtain ⟨t, ht⟩ := Option.isSome_iff_exists.mp this
      simp only [ht, Option.isSome_some]

/-- When the metric and every instance under the number of a value are cached,
the loop of `redis_series_metadata` over the value list does nothing. -/
theorem metadataInstances_cached (env : Env) (metric : metric_t) (values : List value_t)
    (l : seriesLoadBaton) (d : indom_t) (hc : metric.cached = true)
    (h : ∀ v ∈ values, ∀ j ∈ d.insts, j.inst = v.inst → j.cached = true) :
    metadataInstances env metric values l d = some (l, markCached d values, []) := by
  induction values generalizing d with
  | nil => rfl
  | cons v rest ih =>
    simp only [metadataInstances, markCached]
    cases hf : d.fetch v.inst with
    | none =>
      simp only []
      exact ih d (fun w hw => h w (List.mem_cons_of_mem _ hw))
    | some ins =>
      have hi := indom_fetch_some d _ ins hf
      have hcached : ins.cached = true := h v (List.mem_cons_self _ _) ins hi.1 hi.2
      simp only [hcached, hc, Bool.true_eq_false, or_self, ↓reduceIte]
      exact ih _ (fun w hw => indom_store_cached d _ w.inst rfl
        (h w (List.mem_cons_of_mem _ hw)))

/-- `redis_series_label` leaves the text search setting alone. -/
theorem redis_series_label_textSearch (env : Env) (l : seriesLoadBaton) (metric : metric_t)
    (hash : String) (list : labellist_t) :
    (redis_series_label env l metric hash list).1.textSearch = l.textSearch := by
  unfold redis_series_label
  by_cases hf : list.flags = env.PM_LABEL_CONTEXT <;> simp [hf, seriesLoadBaton.references]

/-- The label loop leaves the text search setting alone. -/
theorem labelLoop_textSearch (env : Env) (metric : metric_t) (hash : String)
    (list : List labellist_t) (l : seriesLoadBaton) :
    (labelLoop env metric hash list l).1.textSearch = l.textSearch := by
  induction list generalizing l with
  | nil => rfl
  | cons node rest ih => simp only [labelLoop, ih, redis_series_label_textSearch]

/-- The label loops over the names leave the text search setting alone. -/
theorem labelsetNames_textSearch (env : Env) (metric : metric_t) (names : List seriesname_t)
    (l : seriesLoadBaton) (r : seriesLoadBaton × List Event)
    (h : labelsetNames env metric names l = some r) : r.1.textSearch = l.textSearch := by
  induction names generalizing l r with
  | nil =>
    simp only [labelsetNames, Option.some.injEq] at h
    subst h
    rfl
  | cons n rest ih =>
    simp only [labelsetNames] at h
    split at h
    · exact absurd h (by simp)
    · rename_i a ha
      split at h
      · exact absurd h (by simp)
      · rename_i b hb
        simp only [Option.some.injEq] at h
        subst h
        have h1 := ih _ _ hb
        cases hl : metric.labellist with
        | nil => simp [labelDoWhile, hl] at ha
        | cons node more =>
          simp only [labelDoWhile, hl, Option.some.injEq] at ha
          subst ha
          simp only [h1, labelLoop_textSearch]

/-- `redis_series_instance` leaves the text search setting alone. -/
theorem redis_series_instance_textSearch (l : seriesLoadBaton) (metric : metric_t)
    (d : indom_t) (ins : instance_t) :
    (redis_series_instance l metric d ins).1.textSearch = l.textSearch := by
  simp [redis_series_instance, seriesLoadBaton.references]

/-- The descriptor part leaves the text search setting alone. -/
theorem metadataDesc_textSearch (l : seriesLoadBaton) (context : context_t)
    (metric : metric_t) : (metadataDesc l context metric).1.textSearch = l.textSearch := by
  have hn : ∀ (names : List seriesname_t) (l : seriesLoadBaton),
      (metadataNames context metric names l).1.textSearch = l.textSearch := by
    intro names
    induction names with
    | nil => intro l; rfl
    | cons n rest ih =>
      intro l
      simp only [metadataNames, ih]
      simp [metadataName, seriesLoadBaton.references]
  simp only [metadataDesc, seriesLoadBaton.references, hn]

/-- The loop over the value list leaves the text search setting alone. -/
theorem metadataInstances_textSearch (env : Env) (metric : metric_t) (values : List value_t)
    (l : seriesLoadBaton) (d : indom_t) (r : seriesLoadBaton × indom_t × List Event)
    (h : metadataInstances env metric values l d = some r) :
    r.1.textSearch = l.textSearch := by
  induction values generalizing l d r with
  | nil =>
    simp only [metadataInstances, Option.some.injEq] at h
    subst h
    rfl
  | cons v rest ih =>
    simp only [metadataInstances] at h
    split at h
    · exact ih _ _ _ h
    · rename_i ins hf
      split at h
      · split at h
        · exact absurd h (by simp)
        · rename_i b hb
          split at h
          · exact absurd h (by simp)
          · rename_i t ht
            simp only [Option.some.injEq] at h
            subst h
            have h1 := ih _ _ _ ht
            cases hl : ins.labellist with
            | nil => simp [redis_series_labelset, labelDoWhile, hl] at hb
            | cons node more =>
              simp only [redis_series_labelset, labelDoWhile, hl, Option.some.injEq] at hb
              subst hb
              simp only [h1, labelLoop_textSearch, redis_series_instance_textSearch]
      · exact ih _ _ _ h

/-- `redis_series_metadata` with text search off and no instance domain in
use. -/
theorem redis_series_metadata_no_indom (env : Env) (l : seriesLoadBaton) (context : context_t)
    (metric : metric_t) (ht : l.textSearch = false)
    (hb : metric.desc.indomNull = true ∨ metric.vlist = none) :
    redis_series_metadata env l context metric =
      if metric.cached = false then
        match labelsetNames env metric metric.names (metadataDesc l context metric).1 with
        | none => none
        | some b =>
          some (b.1, { metric with cached := true }, (metadataDesc l context metric).2 ++ b.2)
      else some (l, metric, []) := by
  cases hc : metric.cached <;>
    simp [redis_series_metadata, ht, hb, hc, redis_series_labelset]

/-- `redis_series_metadata` with text search off and the instance domain in
use. -/
theorem redis_series_metadata_indom (env : Env) (l : seriesLoadBaton) (context : context_t)
    (metric : metric_t) (d : indom_t) (ht : l.textSearch = false)
    (hb : ¬ (metric.desc.indomNull = true ∨ metric.vlist = none))
    (hd : metric.indom = some d) :
    redis_series_metadata env l context metric =
      match metadataInstances env metric (metric.vlist.getD [])
        (if metric.cached = true then l else (metadataDesc l context metric).1) d with
      | none => none
      | some r =>
        some (r.1, { metric with indom := some r.2.1, cached := true },
          (if metric.cached = true then [] else (metadataDesc l context metric).2) ++ r.2.2) := by
  cases hc : metric.cached <;>
    simp [redis_series_metadata, ht, hb, hc, hd]

/-- C14: for a metric whose label lists are not empty, with text search off,
`redis_series_metadata` returns with the metric marked cached and, when its
instance domain is in use, with every instance of its value list that resolves
in the instance domain marked cached; a second call with the same metric and
values returns at once, without any event: no store request is issued and no
reference taken. -/
theorem redis_series_metadata_once (env : Env) (l : seriesLoadBaton) (context : context_t)
    (metric : metric_t) (ht : l.textSearch = false) (hl : metric.labellist ≠ [])
    (hil : ∀ d, metric.indom = some d → ∀ j ∈ d.insts, j.labellist ≠ [])
    (hi : metric.desc.indomNull = false → metric.vlist ≠ none → metric.indom ≠ none) :
    ∃ r, redis_series_metadata env l context metric = some r ∧
      r.2.1.cached = true ∧
      (metric.desc.indomNull = true ∨
        ∀ d, r.2.1.indom = some d → ∀ v ∈ metric.vlist.getD [], ∀ ins,
          d.fetch v.inst = some ins → ins.cached = true) ∧
      ∃ m, redis_series_metadata env r.1 context r.2.1 = some (r.1, m, []) := by
  by_cases hb : metric.desc.indomNull = true ∨ metric.vlist = none
  · rw [redis_series_metadata_no_indom env l context metric ht hb]
    cases hc : metric.cached with
    | true =>
      refine ⟨(l, metric, []), by simp, hc, ?_, ⟨metric, ?_⟩⟩
      · rcases hb with hb | hb
        · exact Or.inl hb
        · right
          intro d _ v hv
          simp [hb] at hv
      · rw [redis_series_metadata_no_indom env l context metric ht hb]
        simp [hc]
    | false =>
      have hs := labelsetNames_returns env metric metric.names
        (metadataDesc l context metric).1 hl
      obtain ⟨b, hbs⟩ := Option.isSome_iff_exists.mp hs
      have htb : b.1.textSearch = false := by
        rw [labelsetNames_textSearch _ _ _ _ _ hbs, metadataDesc_textSearch, ht]
      refine ⟨(b.1, { metric with cached := true }, (metadataDesc l context metric).2 ++ b.2),
        by simp [hbs], rfl, ?_, ⟨{ metric with cached := true }, ?_⟩⟩
      · rcases hb with hb | hb
        · exact Or.inl hb
        · right
          intro d _ v hv
          simp [hb] at hv
      · rw [redis_series_metadata_no_indom env b.1 context { metric with cached := true }
          htb hb]
        simp
  · have hb' : metric.desc.indomNull = false ∧ metric.vlist ≠ none := by
      simpa [not_or] using hb
    obtain ⟨d, hd⟩ := Option.ne_none_iff_exists'.mp (hi hb'.1 hb'.2)
    rw [redis_series_metadata_indom env l context metric d ht hb hd]
    have hs := metadataInstances_returns env metric (metric.vlist.getD [])
      (if metric.cached = true then l else (metadataDesc l context metric).1) d (hil d hd)
    obtain ⟨t, hts⟩ := Option.isSome_iff_exists.mp hs
    have hind := metadataInstances_indom _ _ _ _ _ _ hts
    have htt : t.1.textSearch = false := by
      rw [metadataInstances_textSearch _ _ _ _ _ _ hts]
      split
      · exact ht
      · rw [metadataDesc_textSearch, ht]
    have hmarks := markCached_marks (metric.vlist.getD []) d
    refine ⟨(t.1, { metric with indom := some t.2.1, cached := true },
        (if metric.cached = true then [] else (metadataDesc l context metric).2) ++ t.2.2),
      by simp [hts], rfl, Or.inr ?_, ?_⟩
    · intro d' hd' v hv ins hf
      simp only [Option.some.injEq] at hd'
      subst hd'
      rw [hind] at hf
      have hi' := indom_fetch_some _ _ ins hf
      exact hmarks v hv ins hi'.1 hi'.2
    · have hb2 : ¬ (({ metric with indom := some t.2.1, cached := true } : metric_t).desc.indomNull
          = true ∨ ({ metric with indom := some t.2.1, cached := true } : metric_t).vlist
          = none) := hb
      refine ⟨{ metric with indom := some (markCached t.2.1 (metric.vlist.getD [])),
                            cached := true }, ?_⟩
      rw [redis_series_metadata_indom env t.1 context
        { metric with indom := some t.2.1, cached := true } t.2.1 htt hb2 rfl]
      have hc2 := metadataInstances_cached env
        { metric with indom := some t.2.1, cached := true } (metric.vlist.getD []) t.1 t.2.1 rfl
        (by rw [hind]; exact hmarks)
      simp [hc2]

/-- C14 on the sample metric over the sample instance domain, with values for
the instances 0, 7 (not in the instance domain) and 1. -/
theorem redis_series_metadata_once_witness :
    sampleLoader.textSearch = false ∧
      (sampleInstMetric [{ inst := 0, atom := sampleAtom 3 }, { inst := 7, atom := sampleAtom 5 },
        { inst := 1, atom := sampleAtom 4 }]).labellist ≠ [] ∧
      ∃ r, redis_series_metadata sampleEnv sampleLoader sampleContext
          (sampleInstMetric [{ inst := 0, atom := sampleAtom 3 },
            { inst := 7, atom := sampleAtom 5 }, { inst := 1, atom := sampleAtom 4 }]) = some r ∧
        r.2.1.cached = true ∧
        ∃ m, redis_series_metadata sampleEnv r.1 sampleContext r.2.1 = some (r.1, m, []) :=
  ⟨rfl, by decide, by
    obtain ⟨r, h1, h2, _, h4⟩ :=
      redis_series_metadata_once sampleEnv sampleLoader sampleContext
        (sampleInstMetric [{ inst := 0, atom := sampleAtom 3 },
          { inst := 7, atom := sampleAtom 5 }, { inst := 1, atom := sampleAtom 4 }])
        rfl (by decide)
        (by
          intro d hd j hj
          simp only [sampleInstMetric, Option.some.injEq] at hd
          subst hd
          simp only [sampleInDom, List.mem_cons, List.mem_singleton, List.not_mem_nil,
            or_false] at hj
          rcases hj with rfl | rfl <;> simp)
        (by intro _ _; simp [sampleInstMetric])
    exact ⟨r, h1, h2, h4⟩⟩

/-! ## The server version check -/

/-- A decimal digit is no white space, no sign and no dot. -/
theorem isDigit_plain (c : Char) (h : c.isDigit = true) :
    isspace c = false ∧ c ≠ '-' ∧ c ≠ '+' ∧ c ≠ '.' := by
  have hv : 48 ≤ c.toNat ∧ c.toNat ≤ 57 := by
    simp only [Char.isDigit, Bool.and_eq_true, decide_eq_true_eq] at h
    exact ⟨h.1, h.2⟩
  refine ⟨?_, ?_, ?_, ?_⟩
  · simp only [isspace, Bool.or_eq_false_iff, beq_eq_false_iff_ne, ne_eq]
    refine ⟨⟨⟨⟨⟨?_, ?_⟩, ?_⟩, ?_⟩, ?_⟩, ?_⟩
    · rintro rfl; simp at hv
    · rintro rfl; simp at hv
    · rintro rfl; simp at hv
    · rintro rfl; simp at hv
    · omega
    · omega
  · rintro rfl; simp at hv
  · rintro rfl; simp at hv
  · rintro rfl; simp at hv

/-- `scanDigits` reads a string of digits up to the dot behind it. -/
theorem scanDigits_digits (ds rest : List Char) (acc : Nat)
    (h : ds.all Char.isDigit = true) :
    scanDigits (ds ++ '.' :: rest) acc =
      (ds.foldl (fun a c => a * 10 + (c.toNat - 48)) acc, '.' :: rest) := by
  induction ds generalizing acc with
  | nil => simp [scanDigits, Char.isDigit]
  | cons d more ih =>
    simp only [List.all_cons, Bool.and_eq_true] at h
    simp only [List.cons_append, scanDigits, h.1, if_true, List.foldl_cons]
    exact ih _ h.2

/-- `strtoul` on a string of digits followed by a dot. -/
theorem strtoul_digits (ds rest : List Char) (hne : ds ≠ [])
    (h : ds.all Char.isDigit = true) :
    strtoul (ds ++ '.' :: rest) = (min (decimalValue ds) 18446744073709551615, '.' :: rest) := by
  cases ds with
  | nil => exact absurd rfl hne
  | cons d more =>
    have hd : d.isDigit = true := by
      simp only [List.all_cons, Bool.and_eq_true] at h
      exact h.1
    obtain ⟨hsp, hm, hp, _⟩ := isDigit_plain d hd
    have hs := scanDigits_digits (d :: more) rest 0 h
    simp only [List.cons_append] at hs
    have hws : (d :: (more ++ '.' :: rest)).dropWhile isspace = d :: (more ++ '.' :: rest) := by
      simp [List.dropWhile, hsp]
    have hsign : (match d :: (more ++ '.' :: rest) with
        | '-' :: r => (true, r)
        | '+' :: r => (false, r)
        | r => (false, r)) = (false, d :: (more ++ '.' :: rest)) := by
      split
      · rename_i r heq
        simp only [List.cons.injEq] at heq
        exact absurd heq.1 hm
      · rename_i r heq
        simp only [List.cons.injEq] at heq
        exact absurd heq.1 hp
      · rfl
    simp only [strtoul, List.cons_append, hws, hsign, hd, if_true, hs, decimalValue,
      Bool.false_eq_true, if_false]

/-- The checks on the line found, for a major number within 32 bits. -/
theorem checkServerVersion_digits (ds rest : List Char) (hne : ds ≠ [])
    (h : ds.all Char.isDigit = true) (hM : decimalValue ds < 4294967296) :
    checkServerVersion (ds ++ '.' :: rest) =
      if decimalValue ds < SERVER_VERSION then
        [Event.info LogLevel.error
           ("unsupported redis server (got v" ++ toString (decimalValue ds) ++ ", expected v"
             ++ toString SERVER_VERSION ++ " or above)")]
      else [] := by
  have hmin : min (decimalValue ds) 18446744073709551615 % 4294967296 = decimalValue ds := by
    rw [Nat.min_eq_left (by omega), Nat.mod_eq_of_lt hM]
  simp only [checkServerVersion, strtoul_digits ds rest hne h, hmin, List.head?_cons, ne_eq,
    not_true_eq_false, if_false]

/-- A text that begins with `redis_version:` with a line break inside its
first 14 characters does not exist: what begins a line followed by a newline
begins the line. -/
theorem isPrefixOf_line (p ln tail : List Char) (hp : p.all (fun c => !(c == '\n')) = true)
    (h : p.isPrefixOf ln = false) : p.isPrefixOf (ln ++ '\n' :: tail) = false := by
  induction p generalizing ln with
  | nil => simp at h
  | cons a p' ih =>
    simp only [List.all_cons, Bool.and_eq_true] at hp
    cases ln with
    | nil =>
      simp only [List.nil_append, List.isPrefixOf, Bool.and_eq_false_imp]
      intro hc
      have := hp.1
      simp_all
    | cons b ln' =>
      simp only [List.cons_append, List.isPrefixOf, Bool.and_eq_false_imp] at h ⊢
      intro hc
      exact ih ln' hp.2 (h hc)

/-- The scan passes over a line that is not empty, holds no line break and
does not begin with `redis_version:`. -/
theorem versionScan_line (fuel : Nat) (ln tail : List Char) (h : passedLine ln = true) :
    versionScan (fuel + 1) (ln ++ '\n' :: tail) = versionScan fuel tail := by
  simp only [passedLine, Bool.and_eq_true, Bool.not_eq_true', List.isEmpty_eq_false] at h
  obtain ⟨⟨hne, hall⟩, hpre⟩ := h
  cases ln with
  | nil => simp at hne
  | cons c ln' =>
    have hp := isPrefixOf_line "redis_version:".toList (c :: ln') tail (by decide) hpre
    simp only [List.cons_append] at hp
    simp only [List.all_cons, Bool.and_eq_true] at hall
    have hdrop : (ln' ++ '\n' :: tail).dropWhile (fun x => !(x == '\n' || x.toNat == 0))
        = '\n' :: tail := by
      have : ∀ (xs : List Char), xs.all (fun c => !(c == '\n' || c.toNat == 0)) = true →
          (xs ++ '\n' :: tail).dropWhile (fun x => !(x == '\n' || x.toNat == 0))
            = '\n' :: tail := by
        intro xs hxs
        induction xs with
        | nil => simp [List.dropWhile]
        | cons x xs ih =>
          simp only [List.all_cons, Bool.and_eq_true] at hxs
          simp only [List.cons_append, List.dropWhile, hxs.1]
          exact ih hxs.2
      exact this ln' hall.2
    rw [List.cons_append]
    simp only [versionScan, hp, Bool.false_eq_true, if_false, hdrop,
      List.drop_succ_cons, List.drop_zero]

/-- The scan reaches the first line that begins with `redis_version:` when the
lines before it are passed over, and checks the number on it. -/
theorem versionScan_infoText (pre : List (List Char)) (ds rest : List Char) (fuel : Nat)
    (hpre : pre.all passedLine = true) (hf : pre.length + 1 ≤ fuel) :
    versionScan fuel (infoText pre ds rest) = checkServerVersion (ds ++ '.' :: rest) := by
  induction pre generalizing fuel with
  | nil =>
    obtain ⟨k, rfl⟩ : ∃ k, fuel = k + 1 := ⟨fuel - 1, by omega⟩
    have hp : "redis_version:".toList.isPrefixOf
        ("redis_version:".toList ++ (ds ++ '.' :: rest)) = true := by
      simp [List.isPrefixOf_iff_prefix]
    have hd : ("redis_version:".toList ++ (ds ++ '.' :: rest)).drop 14
        = ds ++ '.' :: rest := by
      rfl
    simp only [infoText, List.flatMap_nil, List.nil_append]
    have hc : "redis_version:".toList ++ (ds ++ '.' :: rest)
        = 'r' :: ("edis_version:".toList ++ (ds ++ '.' :: rest)) := rfl
    rw [hc] at hp hd ⊢
    simp only [versionScan, hp, if_true, hd]
  | cons ln more ih =>
    obtain ⟨k, rfl⟩ : ∃ k, fuel = k + 1 := ⟨fuel - 1, by omega⟩
    simp only [List.all_cons, Bool.and_eq_true] at hpre
    have : infoText (ln :: more) ds rest = ln ++ '\n' :: infoText more ds rest := by
      simp [infoText, List.append_assoc]
    rw [this, versionScan_line k ln _ hpre.1]
    exact ih k hpre.2 (by simp only [List.length_cons] at hf; omega)

/-- What is not logged is not logged at any level. -/
theorem isLog_of_quiet (level : LogLevel) (l : List Event)
    (h : (l.all fun e => !Event.isInfo e && !Event.isRequest "SET" e) = true) :
    l.any (Event.isLog level) = false := by
  induction l with
  | nil => rfl
  | cons e es ih =>
    simp only [List.all_cons, Bool.and_eq_true] at h
    simp only [List.any_cons, ih h.2, Bool.or_false]
    cases e <;> simp_all [Event.isInfo, Event.isLog]

/-- C11, as stated, fails: the major number is kept in an `unsigned int`, so
for the line `redis_version:4294967297.0.0` the handler reports the version 1
as unsupported although the major number is not below 5. -/
theorem redis_load_version_callback_wraps :
    "# Server\r\nredis_version:4294967297.0.0\r\n".toList =
        infoText ["# Server\r".toList] "4294967297".toList "0.0\r\n".toList ∧
      decimalValue "4294967297".toList = 4294967297 ∧
      (redis_load_version_callback { sampleSlotsBaton with current := 1 } 0
          (some (redisReply.string "# Server\r\nredis_version:4294967297.0.0\r\n"))).2 =
        [Event.info LogLevel.error "unsupported redis server (got v1, expected v5 or above)",
         Event.deref BatonKind.slots, Event.phase Phase.redis_load_series_version,
         Event.ref BatonKind.slots 1,
         Event.request
           { name := "GET", key := some "pcp:version:schema",
             cmd := { count := 2, params := [Arg.str "GET", Arg.str "pcp:version:schema"] },
             callback := Callback.redis_load_series_version_callback }] := by
  decide

/-- The scan does not look at a line that follows an empty line ended by a
bare newline: for the text of an empty line and the line `redis_version:4.0.0`
nothing is reported. -/
theorem versionScan_after_empty_line :
    versionScan "\nredis_version:4.0.0\n".length "\nredis_version:4.0.0\n".toList = [] := by
  decide

/-- C11, amended: for a string reply to `INFO SERVER` in which the lines before
the first line beginning with `redis_version:` are not empty (as with the CR
LF line ends of the store) and that line goes on with a decimal major number
below 2^32 and a '.', `redis_load_version_callback` (not re-submitted) reports
an error if and only if the major number is below `SERVER_VERSION`; nothing
behind the number is examined, and the phase is ended exactly once. -/
theorem redis_load_version_callback_version (baton : redisSlotsBaton) (n : Nat)
    (pre : List (List Char)) (ds rest : List Char) (hpre : pre.all passedLine = true)
    (hne : ds ≠ []) (hds : ds.all Char.isDigit = true)
    (hM : decimalValue ds < 4294967296) :
    redis_load_version_callback baton (-(n : Int))
        (some (redisReply.string (String.mk (infoText pre ds rest)))) =
        ((redis_slots_end_phase baton).1,
         (if decimalValue ds < SERVER_VERSION then
            [Event.info LogLevel.error
               ("unsupported redis server (got v" ++ toString (decimalValue ds)
                 ++ ", expected v" ++ toString SERVER_VERSION ++ " or above)")]
          else []) ++ (redis_slots_end_phase baton).2) ∧
      (redis_load_version_callback baton (-(n : Int))
          (some (redisReply.string (String.mk (infoText pre ds rest))))).2.any
          (Event.isLog LogLevel.error) = decide (decimalValue ds < SERVER_VERSION) ∧
      ((redis_load_version_callback baton (-(n : Int))
          (some (redisReply.string (String.mk (infoText pre ds rest))))).2.filter
          (Event.settles BatonKind.slots)).length = 1 := by
  have hn : ¬ (-(n : Int) > 0) := by omega
  have hlen : pre.length + 1 ≤ (infoText pre ds rest).length := by
    have : ∀ p : List (List Char), p.length ≤ (p.flatMap fun ln => ln ++ ['\n']).length := by
      intro p
      induction p with
      | nil => simp
      | cons ln more ih =>
        simp only [List.flatMap_cons, List.length_append, List.length_cons, List.length_nil]
        omega
    have h14 : "redis_version:".toList.length = 14 := by decide
    simp only [infoText, List.length_append, List.length_cons, h14]
    have := this pre
    omega
  have hscan := versionScan_infoText pre ds rest (infoText pre ds rest).length hpre hlen
  have hev : redis_load_version_callback baton (-(n : Int))
      (some (redisReply.string (String.mk (infoText pre ds rest)))) =
      ((redis_slots_end_phase baton).1,
       (if decimalValue ds < SERVER_VERSION then
          [Event.info LogLevel.error
             ("unsupported redis server (got v" ++ toString (decimalValue ds)
               ++ ", expected v" ++ toString SERVER_VERSION ++ " or above)")]
        else []) ++ (redis_slots_end_phase baton).2) := by
    simp only [redis_load_version_callback, hn, if_false, String.length, String.toList, hscan,
      checkServerVersion_digits ds rest hne hds hM]
  refine ⟨hev, ?_, redis_load_version_callback_settles baton _ _ hn⟩
  rw [hev]
  simp only [List.any_append, isLog_of_quiet _ _ (redis_slots_end_phase_quiet baton),
    Bool.or_false]
  by_cases hv : decimalValue ds < SERVER_VERSION <;> simp [hv, Event.isLog]

/-- C11, amended, on the first lines of a reply of a version 4 store. -/
theorem redis_load_version_callback_version_witness :
    ["# Server\r".toList].all passedLine = true ∧ "4".toList ≠ [] ∧
      "4".toList.all Char.isDigit = true ∧ decimalValue "4".toList < 4294967296 ∧
      (redis_load_version_callback { sampleSlotsBaton with current := 1 } (-((0 : Nat) : Int))
          (some (redisReply.string
            (String.mk (infoText ["# Server\r".toList] "4".toList "0.9\r\n".toList))))).2.any
          (Event.isLog LogLevel.error) = decide (decimalValue "4".toList < SERVER_VERSION) :=
  ⟨by decide, by decide, by decide, by decide,
   (redis_load_version_callback_version { sampleSlotsBaton with current := 1 } 0
      ["# Server\r".toList] "4".toList "0.9\r\n".toList (by decide) (by decide) (by decide)
      (by decide)).2.1⟩

/-! ## The settings of the series module -/

/-- Once all three settings have a value a call leaves them as they are. -/
theorem redisSeriesInit_set (config : dict) (g : SeriesSettings)
    (h1 : g.cursorcount ≠ none) (h2 : g.maxstreamlen ≠ none) (h3 : g.streamexpire ≠ none) :
    redisSeriesInit config g = g := by
  simp [redisSeriesInit, h1, h2, h3]

/-- The value each setting has after a call. -/
theorem redisSeriesInit_eq (config : dict) (g : SeriesSettings) :
    redisSeriesInit config g =
      { cursorcount :=
          some (g.cursorcount.getD ((pmIniFileLookup config "pmseries" "cursor.count").getD "256"))
        maxstreamlen :=
          some (g.maxstreamlen.getD ((pmIniFileLookup config "pmseries" "stream.maxlen").getD "8640"))
        streamexpire :=
          some (g.streamexpire.getD
            ((pmIniFileLookup config "pmseries" "stream.expire").getD "86400")) } := by
  obtain ⟨c, m, s⟩ := g
  unfold redisSeriesInit
  cases c <;> cases m <;> cases s <;>
    cases pmIniFileLookup config "pmseries" "cursor.count" <;>
    cases pmIniFileLookup config "pmseries" "stream.maxlen" <;>
    cases pmIniFileLookup config "pmseries" "stream.expire" <;> rfl

/-- Calls that follow a first call change nothing. -/
theorem redisSeriesInitTimes_set (later : List dict) (g : SeriesSettings)
    (h1 : g.cursorcount ≠ none) (h2 : g.maxstreamlen ≠ none) (h3 : g.streamexpire ≠ none) :
    redisSeriesInitTimes g later = g := by
  induction later with
  | nil => rfl
  | cons config rest ih =>
    simp only [redisSeriesInitTimes, redisSeriesInit_set config g h1 h2 h3]
    exact ih

/-- C21: after `redisSeriesInit`, each of the cursor count, the stream maximum
length and the stream expiry holds the value it already had, or else the value
of `pmseries` `cursor.count`, `stream.maxlen`, `stream.expire` of the
configuration, or else "256", "8640", "86400"; in particular from the unset
state the settings are those of the configuration or the defaults, and any
later calls, with any configurations, leave all three unchanged. -/
theorem redisSeriesInit_settings (config : dict) (g : SeriesSettings) (later : List dict) :
    (redisSeriesInit config g).cursorcount =
        some (g.cursorcount.getD
          ((pmIniFileLookup config "pmseries" "cursor.count").getD "256")) ∧
      (redisSeriesInit config g).maxstreamlen =
        some (g.maxstreamlen.getD
          ((pmIniFileLookup config "pmseries" "stream.maxlen").getD "8640")) ∧
      (redisSeriesInit config g).streamexpire =
        some (g.streamexpire.getD
          ((pmIniFileLookup config "pmseries" "stream.expire").getD "86400")) ∧
      redisSeriesInit config SeriesSettings.unset =
        { cursorcount := some ((pmIniFileLookup config "pmseries" "cursor.count").getD "256")
          maxstreamlen := some ((pmIniFileLookup config "pmseries" "stream.maxlen").getD "8640")
          streamexpire :=
            some ((pmIniFileLookup config "pmseries" "stream.expire").getD "86400") } ∧
      redisSeriesInitTimes (redisSeriesInit config g) later = redisSeriesInit config g := by
  refine ⟨?_, ?_, ?_, ?_, ?_⟩
  · rw [redisSeriesInit_eq]
  · rw [redisSeriesInit_eq]
  · rw [redisSeriesInit_eq]
  · rw [redisSeriesInit_eq]; rfl
  · apply redisSeriesInitTimes_set <;> rw [redisSeriesInit_eq] <;> simp

/-! ## The script table -/

/-- An invocation on a proxy that is set up already only logs, and records the
answer of `pmSearchEnabled`. -/
theorem on_redis_connected_again (s : Bool) (m : RedisModule) :
    ∃ message, on_redis_connected s m 1 =
      ({ m with search_queries := s }, 1, [ConnectEvent.notify message]) := by
  simp [on_redis_connected]

/-- The first invocation leaves the flag `redisetup` at 1. -/
theorem on_redis_connected_flag (s : Bool) (m : RedisModule) (redisetup : Int) :
    (on_redis_connected s m redisetup).2.1 = 1 := by
  unfold on_redis_connected
  by_cases h : redisetup = 1
  · simp [h]
  · simp [h]

/-- What the invocations on a proxy that is set up already do. -/
theorem connectRun_again (m : RedisModule) (answers : List Bool) :
    ∀ r ∈ connectRun m 1 answers,
      r.2.1 = 1 ∧ r.2.2.filter ConnectEvent.isDiscover = [] ∧ r.1.callbacks = m.callbacks ∧
        r.1.redis_series_next = m.redis_series_next := by
  induction answers generalizing m with
  | nil => simp [connectRun]
  | cons s rest ih =>
    intro r hr
    obtain ⟨message, hm⟩ := on_redis_connected_again s m
    simp only [connectRun, hm, List.mem_cons] at hr
    rcases hr with hr | hr
    · subst hr
      simp [ConnectEvent.isDiscover]
    · have := ih _ r hr
      simpa using this

/-- C30: over any sequence of invocations of `on_redis_connected` on a proxy
whose `redisetup` flag starts at 0, the discovery module is configured and
registered only by the first invocation, there exactly once and exactly when
archive discovery and at least one of series or search are enabled; the flag
is 1 after every invocation, and the later invocations make no discovery call
and leave the discovery callbacks and the `next` link as the first one left
them. -/
theorem on_redis_connected_once (m : RedisModule) (s : Bool) (answers : List Bool) :
    (on_redis_connected s m 0).2.1 = 1 ∧
      (on_redis_connected s m 0).2.2.filter ConnectEvent.isDiscover =
        (if m.archive_discovery ∧ (m.series_queries ∨ s) then
          [ConnectEvent.pmDiscoverSetEventLoop, ConnectEvent.pmDiscoverSetConfiguration,
           ConnectEvent.pmDiscoverSetMetricRegistry,
           ConnectEvent.pmDiscoverSetup (on_redis_connected s m 0).1.callbacks,
           ConnectEvent.pmDiscoverSetSlots]
         else []) ∧
      connectRun m 0 (s :: answers) =
        on_redis_connected s m 0 :: connectRun (on_redis_connected s m 0).1 1 answers ∧
      (connectRun (on_redis_connected s m 0).1 1 answers).all (fun r =>
        r.2.1 = 1 ∧ r.2.2.filter ConnectEvent.isDiscover = [] ∧
          r.1.callbacks = (on_redis_connected s m 0).1.callbacks ∧
          r.1.redis_series_next = (on_redis_connected s m 0).1.redis_series_next) = true := by
  refine ⟨on_redis_connected_flag s m 0, ?_, ?_, ?_⟩
  · unfold on_redis_connected
    cases hs : m.series_queries <;> cases hq : s <;> cases ha : m.archive_discovery <;>
      cases hp : m.redis_protocol <;> simp [ConnectEvent.isDiscover]
  · simp [connectRun, on_redis_connected_flag]
  · rw [List.all_eq_true]
    intro r hr
    have := connectRun_again _ answers r hr
    simpa using this

/-! ## References and requests of the loader -/

/-- The store requests of a list of events that are all requests. -/
theorem requests_map_request (rs : List Request) :
    requests (rs.map Event.request) = rs := by
  induction rs with
  | nil => rfl
  | cons r rest ih => simp [requests, ih]

/-- What `redis_series_source` does: four references, then four requests. -/
theorem redis_series_source_eq (l : seriesLoadBaton) (context : context_t)
    (location : String × String) :
    ∃ r1 r2 r3 r4 : Request,
      (redis_series_source l context location).2 =
        [Event.ref BatonKind.load 4, Event.request r1, Event.request r2, Event.request r3,
         Event.request r4] ∧
      r1.callback = Callback.redis_source_context_name ∧
      r2.callback = Callback.redis_source_context_name ∧
      r3.callback = Callback.redis_context_name_source ∧
      r4.callback = Callback.redis_source_location :=
  ⟨_, _, _, _, rfl, rfl, rfl, rfl, rfl⟩

/-- The requests and references of a loop that takes one reference and issues
one request for each name. -/
theorem perName_requests (f : seriesname_t → Request) (names : List seriesname_t) :
    requests (names.flatMap fun n => [Event.ref BatonKind.load 1, Event.request (f n)])
        = names.map f ∧
      loadReferences (names.flatMap fun n => [Event.ref BatonKind.load 1, Event.request (f n)])
        = names.length := by
  induction names with
  | nil => exact ⟨rfl, rfl⟩
  | cons n rest ih =>
    obtain ⟨hr, hn⟩ := ih
    constructor
    · rw [List.flatMap_cons, List.cons_append, List.cons_append, List.nil_append]
      simp only [requests, hr, List.map_cons]
    · rw [List.flatMap_cons, List.cons_append, List.cons_append, List.nil_append]
      simp only [loadReferences, hn, List.length_cons]
      omega

/-- Requests whose reply handlers all dereference the load baton are all load
requests. -/
theorem filter_map_load (f : seriesname_t → Request) (names : List seriesname_t)
    (h : ∀ n, (f n).callback.dereferencesLoad = true) :
    ((names.map f).filter fun r => r.callback.dereferencesLoad) = names.map f := by
  apply List.filter_eq_self.2
  intro q hq
  obtain ⟨n, _, rfl⟩ := List.mem_map.1 hq
  exact h n

/-- What `redis_series_instance` does: as many references as requests, two
more than the metric has names, every request with a reply handler of the load
baton. -/
theorem redis_series_instance_counts (l : seriesLoadBaton) (metric : metric_t) (d : indom_t)
    (ins : instance_t) :
    loadReferences (redis_series_instance l metric d ins).2 = 2 + metric.names.length ∧
      (requests (redis_series_instance l metric d ins).2).length = 2 + metric.names.length ∧
      (loadRequests (redis_series_instance l metric d ins).2).length
        = 2 + metric.names.length := by
  unfold loadRequests redis_series_instance
  simp only [seriesLoadBaton.references, loadReferences_append, requests_append,
    (perName_requests _ metric.names).1, (perName_requests _ metric.names).2,
    List.filter_append, List.length_append]
  rw [filter_map_load]
  · simp [loadReferences, requests, Callback.dereferencesLoad, Callback.batonKind]
    omega
  · intro n
    rfl

/-- The `XADD` handler dereferences the load baton once, through the stream
baton it completes. -/
theorem redis_series_stream_callback_load (env : Env) (baton : redisStreamBaton)
    (l : seriesLoadBaton) (sts : Int) (reply : Option redisReply) (hs : ¬ sts > 0) :
    ((redis_series_stream_callback env baton l sts reply).2.filter
      (Event.settles BatonKind.load)).length = 1 := by
  have hd : ((doneRedisStreamBaton l).2.filter (Event.settles BatonKind.load)).length
      = 1 := by
    unfold doneRedisStreamBaton doneSeriesLoadBaton
    split <;> simp [Event.settles]
  have hc : ∀ what, (checkStreamReplyString reply baton.stamp what).all Event.isInfo
      = true := by
    intro what
    unfold checkStreamReplyString
    split
    · split <;> simp [Event.isInfo]
    · simp [Event.isInfo]
  simp only [redis_series_stream_callback, hs, if_false, settles_append, hd]
  split
  · split
    · simp [Event.settles]
    · simp [settles_info _ _ (hc _)]
  · simp

/-- Every reply handler that is handed the load baton or a stream baton drops
exactly one reference of the load baton when it is given the final reply. -/
theorem callbackEvents_load (env : Env) (b : Batons) (d : Delivery) (cb : Callback)
    (hs : ¬ d.sts > 0) (h : cb.dereferencesLoad = true) :
    ((callbackEvents env b d cb).filter (Event.settles BatonKind.load)).length = 1 := by
  cases cb with
  | redis_map_publish_callback => simp [Callback.dereferencesLoad, Callback.batonKind] at h
  | redis_map_request_callback => simp [Callback.dereferencesLoad, Callback.batonKind] at h
  | redis_update_version_callback => simp [Callback.dereferencesLoad, Callback.batonKind] at h
  | redis_load_series_version_callback =>
    simp [Callback.dereferencesLoad, Callback.batonKind] at h
  | redis_load_version_callback => simp [Callback.dereferencesLoad, Callback.batonKind] at h
  | redis_load_keymap_callback => simp [Callback.dereferencesLoad, Callback.batonKind] at h
  | redis_load_slots_callback => simp [Callback.dereferencesLoad, Callback.batonKind] at h
  | redis_series_stream_callback =>
    simpa [callbackEvents] using
      redis_series_stream_callback_load env b.stream b.load d.sts d.reply hs
  | redis_series_timer_callback =>
    simpa [callbackEvents] using redis_series_timer_callback_settles b.load d.sts hs
  | _ =>
    first
    | simpa [callbackEvents] using loadIntegerCallback_settles _ b.load d.sts d.reply hs
    | simpa [callbackEvents] using loadStatusCallback_settles _ b.load d.sts d.reply hs

/-- When `redis_series_stream` does not come back: the loop over the values
reads an instance domain that is not there. -/
theorem streamFields_none (env : Env) (metric : metric_t) (h : streamFields env metric = none) :
    metric.indom = none ∧ metric.desc.indomNull = false ∧
      0 < (metric.vlist.getD []).length := by
  unfold streamFields at h
  split at h
  · simp at h
  · split at h
    · simp at h
    · rename_i hv
      split at h
      · simp at h
      · rename_i hl
        cases hi : metric.indom with
        | some d => simp [hi] at h
        | none =>
          refine ⟨rfl, ?_, by omega⟩
          cases hn : metric.desc.indomNull with
          | false => rfl
          | true => simp [hn] at hv

/-- The stream part of an `XADD` frame holds whole pairs, and the declared
count is 6 more than its elements. -/
theorem streamFields_count (env : Env) (metric : metric_t) (sf : List Arg × Nat)
    (h : streamFields env metric = some sf) :
    ∃ k, sf.1.length = 2 * k ∧ sf.2 = 6 + 2 * k := by
  unfold streamFields at h
  split at h
  · simp only [Option.some.injEq] at h
    subst h
    exact ⟨1, by simp [series_stream_append], rfl⟩
  · split at h
    · simp only [Option.some.injEq] at h
      subst h
      exact ⟨1, by simp [series_stream_value_eq], rfl⟩
    · split at h
      · simp only [Option.some.injEq] at h
        subst h
        exact ⟨1, by simp [series_stream_append], rfl⟩
      · cases hi : metric.indom with
        | none => simp [hi] at h
        | some d =>
          simp only [hi, Option.some.injEq] at h
          subst h
          refine ⟨((metric.vlist.getD []).filter fun v => (d.fetch v.inst).isSome).length, ?_, ?_⟩
          · simp [streamInstances_eq, streamPairs_length]
          · simp [streamInstances_eq, streamPairs_length]

/-- C22: each fan-out operation of the loader adds to the load baton exactly as
many references as it issues store requests, and every one of those requests
has a reply handler that dereferences the load baton exactly once on its final
reply: `redis_series_source` 4 and 4; `redis_series_instance` 2 + numnames and
2 + numnames; `redis_series_label` 4 and 4 for a label whose flags are not
`PM_LABEL_CONTEXT`, 3 and 3 for one whose flags are; `redis_series_stream` 2
and 2 (the `XADD` and the `EXPIRE`) whenever it comes back, and 0 and 0 when
the allocation of its baton fails. -/
theorem loader_references_balance (env : Env) (l : seriesLoadBaton) (context : context_t)
    (location : String × String) (metric : metric_t) (d : indom_t) (ins : instance_t)
    (hash stamp : String) (list : labellist_t) (b : Batons) (n : Nat)
    (reply : Option redisReply) (cb : Callback) :
    (loadReferences (redis_series_source l context location).2 = 4 ∧
      (requests (redis_series_source l context location).2).length = 4 ∧
      (loadRequests (redis_series_source l context location).2).length = 4) ∧
    (loadReferences (redis_series_instance l metric d ins).2 = 2 + metric.names.length ∧
      (requests (redis_series_instance l metric d ins).2).length = 2 + metric.names.length ∧
      (loadRequests (redis_series_instance l metric d ins).2).length
        = 2 + metric.names.length) ∧
    (loadReferences (redis_series_label env l metric hash list).2 =
        (if list.flags ≠ env.PM_LABEL_CONTEXT then 4 else 3) ∧
      (requests (redis_series_label env l metric hash list).2).length =
        (if list.flags ≠ env.PM_LABEL_CONTEXT then 4 else 3) ∧
      (loadRequests (redis_series_label env l metric hash list).2).length =
        (if list.flags ≠ env.PM_LABEL_CONTEXT then 4 else 3)) ∧
    (match redis_series_stream env l stamp metric hash true with
     | some r =>
       loadReferences r.2 = 2 ∧ (requests r.2).map (fun q => q.name) = ["XADD", "EXPIRE"] ∧
         (loadRequests r.2).length = 2
     | none =>
       metric.indom = none ∧ metric.desc.indomNull = false ∧
         0 < (metric.vlist.getD []).length) ∧
    (redis_series_stream env l stamp metric hash false).map
        (fun r => (loadReferences r.2, (requests r.2).length)) = some (0, 0) ∧
    (if cb.dereferencesLoad then
      ((callbackEvents env b (Delivery.final n reply) cb).filter
        (Event.settles BatonKind.load)).length = 1
     else True) := by
  refine ⟨?_, redis_series_instance_counts l metric d ins, ?_, ?_, ?_, ?_⟩
  · obtain ⟨r1, r2, r3, r4, he, h1, h2, h3, h4⟩ := redis_series_source_eq l context location
    rw [he]
    simp [loadReferences, requests, loadRequests, h1, h2, h3, h4, Callback.dereferencesLoad,
      Callback.batonKind]
  · obtain ⟨hr, hn⟩ := redis_series_label_eq env l metric hash list
    unfold loadRequests
    rw [hr, hn]
    by_cases hf : list.flags = env.PM_LABEL_CONTEXT <;>
      simp [hf, labelflagsRequest, labelvalueRequest, maplabelvalueRequest, labelSetRequest,
        Callback.dereferencesLoad, Callback.batonKind]
  · cases hsf : streamFields env metric with
    | none =>
      have hnone : redis_series_stream env l stamp metric hash true = none := by
        simp [redis_series_stream, hsf]
      rw [hnone]
      exact streamFields_none env metric hsf
    | some sf =>
      rw [redis_series_stream_requests env l stamp metric hash sf hsf]
      simp [loadReferences, requests, loadRequests, xaddRequest, expireRequest,
        Callback.dereferencesLoad, Callback.batonKind]
  · simp [redis_series_stream, loadReferences, requests]
  · by_cases h : cb.dereferencesLoad = true
    · simp only [h, if_true]
      exact callbackEvents_load env b (Delivery.final n reply) cb
        (by simp [Delivery.final]) h
    · simp [h]

/-! ## The declared element count of an `XADD` -/

/-- C28: whenever `redis_series_stream` issues an `XADD`, the frame is `XADD
key MAXLEN ~ length stamp` followed by `k` (field, value) pairs for some `k`,
its header declares `6 + 2 * k` elements and it holds exactly that many; the
only case with no `XADD` is that of a missing instance domain.  In the loop
over a value list `k` is the number of values whose instance resolves: values
that do not resolve add neither elements nor count. -/
theorem redis_series_stream_declared_count (env : Env) (l : seriesLoadBaton) (stamp : String)
    (metric : metric_t) (hash : String) (type : PmType) (d : indom_t) (values : List value_t) :
    (match redis_series_stream env l stamp metric hash true with
     | some r =>
       ∃ (fields : List Arg) (k : Nat),
         fields.length = 2 * k ∧
         requests r.2 = [xaddRequest env stamp hash (6 + 2 * k) fields, expireRequest env hash] ∧
         (xaddRequest env stamp hash (6 + 2 * k) fields).cmd.count =
           (xaddRequest env stamp hash (6 + 2 * k) fields).cmd.params.length
     | none =>
       metric.indom = none ∧ metric.desc.indomNull = false ∧
         0 < (metric.vlist.getD []).length) ∧
    streamInstances env type d values ([], 6) =
      (streamPairs env type d values,
       6 + 2 * (values.filter fun v => (d.fetch v.inst).isSome).length) ∧
    (streamPairs env type d values).length =
      2 * (values.filter fun v => (d.fetch v.inst).isSome).length := by
  refine ⟨?_, ?_, streamPairs_length env type d values⟩
  · cases hsf : streamFields env metric with
    | none =>
      have hnone : redis_series_stream env l stamp metric hash true = none := by
        simp [redis_series_stream, hsf]
      rw [hnone]
      exact streamFields_none env metric hsf
    | some sf =>
      rw [redis_series_stream_requests env l stamp metric hash sf hsf]
      obtain ⟨k, hk, hc⟩ := streamFields_count env metric sf hsf
      refine ⟨sf.1, k, hk, ?_, ?_⟩
      · simp [requests, hc]
      · simp [xaddRequest, hk]
        omega
  · rw [streamInstances_eq, streamPairs_length]
    simp

/-! ## Empty label lists -/

/-- A metric that has no label at all, loaded through `redis_series_metric`:
the mappings leave its label list empty, and the label loop then reads a label
entry that is not there. -/
theorem redis_series_metric_no_labels :
    redis_series_metric sampleEnv sampleLoader sampleContext
      { sampleMetric with labelsets := [] } "1000.000" true false = none := by
  decide

/-- C29: the label loops of `redis_series_labelset` run their body before they
test the list.  For an instance with an empty label list, and for a metric with
at least one name and an empty label list, the call of `redis_series_label`
reads a label entry that is not there; so `redis_series_metadata` does not
complete for an uncached metric with a name, no instance domain and an empty
label list. -/
theorem redis_series_labelset_empty_list (env : Env) (l : seriesLoadBaton) (context : context_t)
    (metric : metric_t) (ins : instance_t) (n : seriesname_t) (ns : List seriesname_t) :
    redis_series_labelset env l metric (some { ins with labellist := [] }) = none ∧
      redis_series_labelset env l { metric with labellist := [], names := n :: ns } none
        = none ∧
      redis_series_metadata env l context
        { metric with
          cached := false, labellist := [], names := n :: ns,
          desc := { metric.desc with indomNull := true } }
        = none := by
  refine ⟨rfl, rfl, ?_⟩
  simp [redis_series_metadata, redis_series_labelset, labelsetNames, labelDoWhile]

/-! ## Decoding `CLUSTER SLOTS` -/

/-- The replica loop fills one server per node. -/
theorem decodeReplicas_length (start end_ : Nat) (nodes : List redisReply) (i : Nat) :
    (decodeReplicas start end_ nodes i).1.length = nodes.length := by
  induction nodes generalizing i with
  | nil => rfl
  | cons node rest ih => simp [decodeReplicas, ih]

/-- A malformed node is refused by `decodeRedisNode`. -/
theorem decodeRedisNode_malformed (node : redisReply) (h : malformedNode node = true) :
    (decodeRedisNode node).1 = -EINVAL := by
  unfold decodeRedisNode
  unfold malformedNode at h
  generalize node.elements = es at h ⊢
  match es, h with
  | [], _ => simp
  | [_], _ => simp
  | x :: y :: more, h =>
    have h2 : ¬ (x :: y :: more).length < 2 := by simp
    simp only [h2, if_false]
    cases y <;> cases x <;> simp_all

/-- A refused entry makes `decodeRedisSlot` fail and leaves the slot map. -/
theorem decodeRedisSlot_refused (slots : List redisSlotRange) (reply : redisReply)
    (h : refusedEntry reply = true) :
    (decodeRedisSlot slots reply).1 = -EINVAL ∧ (decodeRedisSlot slots reply).2.1 = slots := by
  unfold decodeRedisSlot
  unfold refusedEntry at h
  generalize reply.elements = es at h ⊢
  match es, h with
  | [], _ => simp
  | [_], _ => simp
  | [_, _], _ => simp
  | a :: b :: node :: rest, h =>
    have h3 : ¬ (a :: b :: node :: rest).length < 3 := by simp
    simp only [h3, if_false]
    cases a with
    | integer s =>
      by_cases hs : s < 0
      · simp [checkIntegerReply, hs]
      · cases b with
        | integer e =>
          by_cases he : e < 0
          · simp [checkIntegerReply, hs, he]
          · have hm : malformedNode node = true := by simpa [hs, he] using h
            have hn := decodeRedisNode_malformed node hm
            have hneg : (decodeRedisNode node).1 < 0 := by
              rw [hn]
              decide
            simp [checkIntegerReply, hs, he, hneg]
        | _ => simp [checkIntegerReply, hs]
    | _ => simp [checkIntegerReply]

/-- C23, as stated, fails: a start of 4294967296 and an end of 4294967297 are
non-negative integers, yet the range inserted has start 0 and end 1; and a
port of -1 is rendered as 4294967295. -/
theorem decodeRedisSlot_truncates :
    decodeRedisSlot []
        (redisReply.array [redisReply.integer 4294967296, redisReply.integer 4294967297,
          redisReply.array [redisReply.string "10.0.0.1", redisReply.integer (-1)]]) =
      (0, [{ start := 0, end_ := 1, primary := { hostspec := some "10.0.0.1:4294967295" },
             nreplicas := 0, replicas := [] }], []) := by
  decide

/-- C23, amended: for every entry whose first two elements are non-negative
integers `s` and `e` and whose third is a node array that begins with a host
string and an integer port, `decodeRedisSlot` returns 0 and adds exactly one
range to the slot map, with start `s mod 2^32`, end `e mod 2^32`, the primary
`host:port` with the port rendered as an unsigned 32-bit number, and one
replica for each further element; for an entry with fewer than three elements,
a start or end that is not an integer or is negative, or a malformed primary
node, it returns `-EINVAL` and leaves the slot map as it was. -/
theorem decodeRedisSlot_entry (slots : List redisSlotRange) (s e : Nat) (host : String)
    (port : Int) (more rest : List redisReply) (reply : redisReply) :
    (∃ (replicas : List redisSlotServer) (log : List Event),
      replicas.length = rest.length ∧
      decodeRedisSlot slots
          (redisReply.array (redisReply.integer s :: redisReply.integer e ::
            redisReply.array (redisReply.string host :: redisReply.integer port :: more)
              :: rest)) =
        (0,
         slots ++ [{ start := s % 4294967296, end_ := e % 4294967296,
                     primary := { hostspec := some (host ++ ":" ++ toString (toUnsigned port)) },
                     nreplicas := rest.length, replicas := replicas }],
         log)) ∧
    (if refusedEntry reply then
      (decodeRedisSlot slots reply).1 = -EINVAL ∧ (decodeRedisSlot slots reply).2.1 = slots
     else True) := by
  constructor
  · refine ⟨_, (decodeReplicas (s % 4294967296) (e % 4294967296) rest 0).2,
      decodeReplicas_length (s % 4294967296) (e % 4294967296) rest 0, ?_⟩
    have hs : toUnsigned (s : Int) = s % 4294967296 := by
      unfold toUnsigned
      omega
    have he : toUnsigned (e : Int) = e % 4294967296 := by
      unfold toUnsigned
      omega
    have h3 : ¬ rest.length + 1 + 1 + 1 < 3 := by omega
    have h2 : ¬ more.length + 1 + 1 < 2 := by omega
    have hs0 : ¬ (s : Int) < 0 := by omega
    have he0 : ¬ (e : Int) < 0 := by omega
    simp [decodeRedisSlot, redisReply.elements, checkIntegerReply, decodeRedisNode,
      redisSlotRangeInsert, hs, he, EINVAL, h3, h2, hs0, he0]
  · by_cases h : refusedEntry reply = true
    · simp only [h, if_true]
      exact decodeRedisSlot_refused slots reply h
    · simp [h]

/-! ## Descriptor PDUs -/

/-- An `int` survives the way through `uint32_t` and back. -/
theorem toSigned_toUnsigned (n : Int) (h1 : -2147483648 ≤ n) (h2 : n < 2147483648) :
    toSigned (toUnsigned n) = n := by
  unfold toSigned toUnsigned
  split <;> omega

/-- A 32-bit word survives the way through `int` and back. -/
theorem toUnsigned_toSigned (w : Nat) (h : w < 4294967296) : toUnsigned (toSigned w) = w := by
  unfold toSigned toUnsigned
  split <;> omega

/-- An `int` field survives the conversion to network byte order and back. -/
theorem int_roundTrip (hton ntoh : Nat → Nat) (h : roundTrips hton ntoh) (n : Int)
    (h1 : -2147483648 ≤ n) (h2 : n < 2147483648) :
    toSigned (ntoh (toUnsigned (toSigned (hton (toUnsigned n))))) = n := by
  have hu : toUnsigned n < 4294967296 := by
    unfold toUnsigned
    omega
  obtain ⟨hlt, hback⟩ := h (toUnsigned n) hu
  rw [toUnsigned_toSigned _ hlt, hback, toSigned_toUnsigned n h1 h2]

/-- A descriptor survives the conversion to network byte order and back. -/
theorem ntohDesc_htonDesc (env : Libpcp) (hlaw : env.lawful) (desc : pmDesc)
    (hv : desc.valid = true) : ntohDesc env (htonDesc env desc) = desc := by
  obtain ⟨hl, hid, hin, hun⟩ := hlaw
  simp only [pmDesc.valid, Bool.and_eq_true, decide_eq_true_eq] at hv
  obtain ⟨⟨⟨⟨⟨⟨hp, ht1⟩, ht2⟩, hi⟩, hs1⟩, hs2⟩, hu⟩ := hv
  obtain ⟨pmid, type, indom, sem, units⟩ := desc
  simp only at hp ht1 ht2 hi hs1 hs2 hu
  simp only [ntohDesc, htonDesc, int_roundTrip _ _ hl type ht1 ht2,
    int_roundTrip _ _ hl sem hs1 hs2, (hid pmid hp).2, (hin indom hi).2, (hun units hu).2]

/-- The loop of `__pmDecodeDescs` over the descriptors `__pmSendDescs` stored. -/
theorem decodeDescsLoop_htonDesc (env : Libpcp) (hlaw : env.lawful) (d : List pmDesc)
    (hd : d.all pmDesc.valid = true) :
    decodeDescsLoop env d.length (d.map (htonDesc env)) =
      some (((d.filter fun x => x.pmid ≠ env.PM_ID_NULL).length : Int), d) := by
  induction d with
  | nil => rfl
  | cons x rest ih =>
    simp only [List.all_cons, Bool.and_eq_true] at hd
    simp only [List.length_cons, List.map_cons, decodeDescsLoop, ih hd.2,
      ntohDesc_htonDesc env hlaw x hd.1]
    by_cases hx : x.pmid = env.PM_ID_NULL
    · simp [hx]
    · simp [hx, List.filter_cons]
      omega

/-- The byte swap yields a 32-bit word. -/
theorem bswap32_lt (x : Nat) : bswap32 x < 4294967296 := by
  unfold bswap32
  omega

/-- The byte swap of a word given by its four octets. -/
theorem bswap32_bytes (b0 b1 b2 b3 : Nat) (h0 : b0 < 256) (h1 : b1 < 256) (h2 : b2 < 256)
    (h3 : b3 < 256) :
    bswap32 (b0 + 256 * b1 + 65536 * b2 + 16777216 * b3)
      = b3 + 256 * b2 + 65536 * b1 + 16777216 * b0 := by
  unfold bswap32
  omega

/-- Swapping the octets twice gives the word back. -/
theorem bswap32_bswap32 (x : Nat) (h : x < 4294967296) : bswap32 (bswap32 x) = x := by
  have hx : x = x % 256 + 256 * (x / 256 % 256) + 65536 * (x / 65536 % 256)
      + 16777216 * (x / 16777216 % 256) := by omega
  have h0 : x % 256 < 256 := Nat.mod_lt _ (by decide)
  have h1 : x / 256 % 256 < 256 := Nat.mod_lt _ (by decide)
  have h2 : x / 65536 % 256 < 256 := Nat.mod_lt _ (by decide)
  have h3 : x / 16777216 % 256 < 256 := Nat.mod_lt _ (by decide)
  generalize x % 256 = b0 at hx h0
  generalize x / 256 % 256 = b1 at hx h1
  generalize x / 65536 % 256 = b2 at hx h2
  generalize x / 16777216 % 256 = b3 at hx h3
  rw [hx, bswap32_bytes b0 b1 b2 b3 h0 h1 h2 h3, bswap32_bytes b3 b2 b1 b0 h3 h2 h1 h0]

/-- The conversions of a little-endian host are inverse to each other. -/
theorem littleEndianHost_lawful : littleEndianHost.lawful := by
  have h : roundTrips bswap32 bswap32 := fun x hx => ⟨bswap32_lt x, bswap32_bswap32 x hx⟩
  exact ⟨h, h, h, h⟩

/-- A small word converts to `int` unchanged. -/
theorem toSigned_of_lt (w : Nat) (h : w < 2147483648) : toSigned w = (w : Int) := by
  have hm : w % 4294967296 = w := Nat.mod_eq_of_lt (by omega)
  unfold toSigned
  rw [hm, if_pos h]

/-- A natural number within the range of `size_t` converts unchanged. -/
theorem toSize_natCast (w : Nat) (h : w < 18446744073709551616) : toSize (w : Int) = w := by
  unfold toSize
  omega

/-- What `__pmDecodeDescs` does with a PDU whose length and count fit the
descriptors it holds. -/
theorem pmDecodeDescs_eq (env : Libpcp) (hdr : __pmPDUHdr) (num : Int) (ds : List pmDesc)
    (n : Nat) (hn : 1 ≤ n) (hsize : 36 + (n - 1) * 20 ≤ 2147483647)
    (hlen : toSize hdr.len = 36 + (n - 1) * 20)
    (hnum : toSigned (env.ntohl (toUnsigned num)) = n) :
    __pmDecodeDescs env { hdr := hdr, numdescs := num, desc := ds } n =
      decodeDescsLoop env n ds := by
  have hsz : toSize ((n : Int) - 1) = n - 1 := by
    have h := toSize_natCast (n - 1) (by omega)
    rwa [Nat.cast_sub hn, Nat.cast_one] at h
  have htot : toSize (n : Int) = n := toSize_natCast n (by omega)
  have c1 : ¬ (36 + (n - 1) * 20 < 36) := by omega
  have c2 : ¬ ((n : Int) ≤ 0 ∨ (n : Int) ≠ n ∨ n > 2147483647 / 20) := by omega
  have c3 : ¬ (36 + (n - 1) * 20 ≠ (36 + (n - 1) * 20) % 18446744073709551616) := by omega
  simp only [__pmDecodeDescs, hnum, hlen, hsz, htot, sizeof_descs_t, sizeof_pmDesc, INT_MAX,
    c1, c2, c3, if_false, Int.toNat_ofNat]

/-- C27: for conversions that are inverse to each other on 32-bit words, every
array `d` of `n >= 1` descriptors whose fields hold values of their C types,
with the size of the PDU within the range of `int`: `__pmSendDescs` builds a
PDU, and `__pmDecodeDescs` with `numdescs = n` on that PDU writes exactly `d`,
in order, and returns the number of entries whose `pmid` is not `PM_ID_NULL`;
and `__pmDecodeDesc` on the PDU that `__pmSendDesc` builds for a descriptor
returns 0 and writes that descriptor. -/
theorem pmDecodeDescs_pmSendDescs (env : Libpcp) (hlaw : env.lawful) (ctx : Int)
    (d : List pmDesc) (hn : 1 ≤ d.length)
    (hsize : sizeof_descs_t + (d.length - 1) * sizeof_pmDesc ≤ INT_MAX)
    (hd : d.all pmDesc.valid = true) (desc : pmDesc) (hdesc : desc.valid = true) :
    (∃ pp, __pmSendDescs env ctx d = Except.ok pp ∧
      __pmDecodeDescs env pp d.length =
        some (((d.filter fun x => x.pmid ≠ env.PM_ID_NULL).length : Int), d)) ∧
    __pmDecodeDesc env (__pmSendDesc env ctx desc) = (0, some desc) := by
  simp only [sizeof_descs_t, sizeof_pmDesc, INT_MAX] at hsize
  constructor
  · have hpos : ¬ ((d.length : Int) ≤ 0) := by omega
    refine ⟨{ hdr := { len := toSigned (sizeof_descs_t + toSize ((d.length : Int) - 1)
                          * sizeof_pmDesc),
                       type := env.PDU_DESCS, from_ := ctx },
              numdescs := toSigned (env.htonl (toUnsigned (d.length : Int))),
              desc := d.map (htonDesc env) },
      by simp only [__pmSendDescs, hpos, if_false], ?_⟩
    have hlen : (d.length : Int) < 2147483648 := by omega
    have hnum : toSigned (env.ntohl (toUnsigned (toSigned (env.htonl
        (toUnsigned (d.length : Int)))))) = d.length :=
      int_roundTrip _ _ hlaw.1 _ (by omega) hlen
    have hsz : toSize ((d.length : Int) - 1) = d.length - 1 := by
      have h := toSize_natCast (d.length - 1) (by omega)
      rwa [Nat.cast_sub hn, Nat.cast_one] at h
    have hneed : toSize (toSigned (sizeof_descs_t + toSize ((d.length : Int) - 1)
        * sizeof_pmDesc)) = 36 + (d.length - 1) * 20 := by
      rw [hsz, toSigned_of_lt _ (by simp only [sizeof_descs_t, sizeof_pmDesc]; omega)]
      exact toSize_natCast _ (by simp only [sizeof_descs_t, sizeof_pmDesc]; omega)
    rw [pmDecodeDescs_eq env _ _ _ d.length hn hsize hneed hnum]
    exact decodeDescsLoop_htonDesc env hlaw d hd
  · have h32 : toSize ((sizeof_desc_t : Nat) : Int) = sizeof_desc_t :=
      toSize_natCast _ (by decide)
    simp only [__pmDecodeDesc, __pmSendDesc, h32, ne_eq, not_true_eq_false, if_false,
      ntohDesc_htonDesc env hlaw desc hdesc]

/-- C27 on a little-endian host, for the two sample descriptors. -/
theorem pmDecodeDescs_pmSendDescs_witness :
    littleEndianHost.lawful ∧ 1 ≤ sampleDescs.length ∧
      sizeof_descs_t + (sampleDescs.length - 1) * sizeof_pmDesc ≤ INT_MAX ∧
      sampleDescs.all pmDesc.valid = true ∧
      ((∃ pp, __pmSendDescs littleEndianHost 7 sampleDescs = Except.ok pp ∧
        __pmDecodeDescs littleEndianHost pp sampleDescs.length =
          some (((sampleDescs.filter fun x => x.pmid ≠ littleEndianHost.PM_ID_NULL).length
            : Int), sampleDescs)) ∧
      __pmDecodeDesc littleEndianHost
        (__pmSendDesc littleEndianHost 7
          { pmid := 251660288, type := 5, indom := 251658241, sem := 4, units := 0 }) =
        (0, some { pmid := 251660288, type := 5, indom := 251658241, sem := 4, units := 0 })) :=
  ⟨littleEndianHost_lawful, by decide, by decide, by decide,
   pmDecodeDescs_pmSendDescs littleEndianHost littleEndianHost_lawful 7 sampleDescs
     (by decide) (by decide) (by decide) _ (by decide)⟩

/-! ## The wire form of a reply -/

/-- The ten digit characters and their values. -/
theorem digitChar_value : ∀ k, k < 10 →
    (Nat.digitChar k).isDigit = true ∧ (Nat.digitChar k).toNat - 48 = k := by
  decide

/-- The decimal rendering only adds digits. -/
theorem toDigitsCore_isDigit (fuel n : Nat) (ds : List Char) (c : Char)
    (h : c ∈ Nat.toDigitsCore 10 fuel n ds) : c.isDigit = true ∨ c ∈ ds := by
  induction fuel generalizing n ds with
  | zero => exact Or.inr h
  | succ fuel ih =>
    have hd := (digitChar_value (n % 10) (Nat.mod_lt _ (by decide))).1
    simp only [Nat.toDigitsCore] at h
    split at h
    · rcases List.mem_cons.1 h with h | h
      · exact Or.inl (h ▸ hd)
      · exact Or.inr h
    · rcases ih _ _ h with h | h
      · exact Or.inl h
      · rcases List.mem_cons.1 h with h | h
        · exact Or.inl (h ▸ hd)
        · exact Or.inr h

/-- Reading the decimal rendering back gives the number. -/
theorem toDigitsCore_value (fuel n : Nat) (ds : List Char) (h : n < fuel) :
    (Nat.toDigitsCore 10 fuel n ds).foldl (fun acc c => acc * 10 + (c.toNat - 48)) 0 =
      ds.foldl (fun acc c => acc * 10 + (c.toNat - 48)) n := by
  induction fuel generalizing n ds with
  | zero => omega
  | succ fuel ih =>
    have hd := (digitChar_value (n % 10) (Nat.mod_lt _ (by decide))).2
    simp only [Nat.toDigitsCore]
    split
    · rename_i h0
      simp only [List.foldl_cons, hd]
      congr 1
      omega
    · rename_i h0
      rw [ih (n / 10) _ (by omega)]
      simp only [List.foldl_cons, hd]
      congr 1
      omega

/-- The decimal rendering of a number is not empty. -/
theorem toDigits_ne_nil (n : Nat) : Nat.toDigits 10 n ≠ [] := by
  unfold Nat.toDigits
  simp only [Nat.toDigitsCore]
  split
  · simp
  · intro h
    have := congrArg List.length h
    rw [Nat.toDigitsCore_lens_eq] at this
    simp at this

/-- The value of the decimal rendering of a number is the number. -/
theorem decimalValue_toDigits (n : Nat) : decimalValue (Nat.toDigits 10 n) = n := by
  unfold decimalValue Nat.toDigits
  rw [toDigitsCore_value _ _ _ (Nat.lt_succ_self n)]
  rfl

/-- The characters of the decimal rendering of a natural number. -/
theorem toString_nat_data (n : Nat) : (toString n).data = Nat.toDigits 10 n := rfl

/-- Two texts that end at the first occurrence of a character and agree with
what follows are equal, and so is what follows. -/
theorem append_cons_inj (c : Char) (x1 x2 z1 z2 : List Char) (h1 : c ∉ x1) (h2 : c ∉ x2)
    (h : x1 ++ c :: z1 = x2 ++ c :: z2) : x1 = x2 ∧ z1 = z2 := by
  induction x1 generalizing x2 with
  | nil =>
    cases x2 with
    | nil => simpa using h
    | cons b x2 =>
      simp only [List.nil_append, List.cons_append, List.cons.injEq] at h
      exact absurd (List.mem_cons.2 (Or.inl h.1)) h2
  | cons a x1 ih =>
    cases x2 with
    | nil =>
      simp only [List.nil_append, List.cons_append, List.cons.injEq] at h
      exact absurd (List.mem_cons.2 (Or.inl h.1.symm)) h1
    | cons b x2 =>
      simp only [List.cons_append, List.cons.injEq] at h
      obtain ⟨hx, hz⟩ := ih x2 (fun hc => h1 (List.mem_cons_of_mem _ hc))
        (fun hc => h2 (List.mem_cons_of_mem _ hc)) h.2
      exact ⟨by rw [h.1, hx], hz⟩

/-- The decimal rendering consists of digits. -/
theorem toDigits_isDigit (n : Nat) (c : Char) (h : c ∈ Nat.toDigits 10 n) : c.isDigit = true := by
  rcases toDigitsCore_isDigit _ _ _ _ h with h | h
  · exact h
  · simp at h

/-- A decimal count followed by a carriage return is read back in one way
only. -/
theorem toDigits_delimited (n m : Nat) (x y : List Char)
    (h : Nat.toDigits 10 n ++ '\r' :: x = Nat.toDigits 10 m ++ '\r' :: y) : n = m ∧ x = y := by
  have hn : '\r' ∉ Nat.toDigits 10 n := fun hc => by
    have := toDigits_isDigit n _ hc
    simp at this
  have hm : '\r' ∉ Nat.toDigits 10 m := fun hc => by
    have := toDigits_isDigit m _ hc
    simp at this
  obtain ⟨hd, hr⟩ := append_cons_inj _ _ _ _ _ hn hm h
  refine ⟨?_, hr⟩
  rw [← decimalValue_toDigits n, ← decimalValue_toDigits m, hd]

/-- A decimal integer followed by a carriage return is read back in one way
only. -/
theorem toString_int_delimited (n m : Int) (x y : List Char)
    (h : (toString n).data ++ '\r' :: x = (toString m).data ++ '\r' :: y) : n = m ∧ x = y := by
  have hminus : ∀ k : Nat, ∀ u v : List Char,
      Nat.toDigits 10 k ++ u ≠ '-' :: v := by
    intro k u v hk
    cases hd : Nat.toDigits 10 k with
    | nil => exact toDigits_ne_nil k hd
    | cons d ds =>
      rw [hd] at hk
      simp only [List.cons_append, List.cons.injEq] at hk
      have := toDigits_isDigit k d (hd ▸ List.mem_cons_self _ _)
      rw [hk.1] at this
      simp at this
  cases n with
  | ofNat a =>
    cases m with
    | ofNat b =>
      obtain ⟨h1, h2⟩ := toDigits_delimited a b x y h
      exact ⟨by rw [h1], h2⟩
    | negSucc b => exact absurd h (hminus a _ _)
  | negSucc a =>
    cases m with
    | ofNat b => exact absurd h.symm (hminus b _ _)
    | negSucc b =>
      have h' : Nat.toDigits 10 (a + 1) ++ '\r' :: x = Nat.toDigits 10 (b + 1) ++ '\r' :: y := by
        have := h
        simp only [show ∀ k : Nat, (toString (Int.negSucc k)).data = '-' :: Nat.toDigits 10 (k + 1)
          from fun _ => rfl, List.cons_append, List.cons.injEq, true_and] at this
        exact this
      obtain ⟨h1, h2⟩ := toDigits_delimited _ _ x y h'
      have : a = b := by omega
      exact ⟨by rw [this], h2⟩

/-- The wire form of a string. -/
theorem redisfmt_string (s : String) :
    (redisfmt (redisReply.string s)).data =
      '$' :: (Nat.toDigits 10 s.length ++ '\r' :: '\n' :: (s.data ++ ['\r', '\n'])) := by
  simp [redisfmt, String.data_append, toString_nat_data]

/-- The wire form of nil. -/
theorem redisfmt_nil : (redisfmt redisReply.nil).data = ['$', '-', '1', '\r', '\n'] := rfl

/-- The wire form of an integer. -/
theorem redisfmt_integer (n : Int) :
    (redisfmt (redisReply.integer n)).data = ':' :: ((toString n).data ++ ['\r', '\n']) := by
  simp [redisfmt, String.data_append]

/-- The wire form of a boolean. -/
theorem redisfmt_bool (n : Int) :
    (redisfmt (redisReply.bool n)).data = ['#', if n ≠ 0 then 't' else 'f', '\r', '\n'] := by
  by_cases h : n = 0 <;> simp [redisfmt, String.data_append, h]

/-- The wire form of an array. -/
theorem redisfmt_array (es : List redisReply) :
    (redisfmt (redisReply.array es)).data =
      '*' :: (Nat.toDigits 10 es.length ++ '\r' :: '\n' :: (redisfmtElements es).data) := by
  simp [redisfmt, String.data_append, toString_nat_data]

/-- The wire form of a map. -/
theorem redisfmt_map (es : List redisReply) :
    (redisfmt (redisReply.map es)).data =
      '%' :: (Nat.toDigits 10 es.length ++ '\r' :: '\n' :: (redisfmtElements es).data) := by
  simp [redisfmt, String.data_append, toString_nat_data]

/-- The wire form of a set. -/
theorem redisfmt_set (es : List redisReply) :
    (redisfmt (redisReply.set es)).data =
      '~' :: (Nat.toDigits 10 es.length ++ '\r' :: '\n' :: (redisfmtElements es).data) := by
  simp [redisfmt, String.data_append, toString_nat_data]

/-- The wire form of a list of replies, element by element. -/
theorem redisfmtElements_cons (e : redisReply) (es : List redisReply) :
    (redisfmtElements (e :: es)).data = (redisfmt e).data ++ (redisfmtElements es).data := by
  simp [redisfmtElements, String.data_append]

/-- A decimal count does not begin with a minus sign. -/
theorem toDigits_not_minus (k : Nat) (u v : List Char) : Nat.toDigits 10 k ++ u ≠ '-' :: v := by
  intro hk
  cases hd : Nat.toDigits 10 k with
  | nil => exact toDigits_ne_nil k hd
  | cons d ds =>
    rw [hd] at hk
    simp only [List.cons_append, List.cons.injEq] at hk
    have := toDigits_isDigit k d (hd ▸ List.mem_cons_self _ _)
    rw [hk.1] at this
    simp at this

/-- The header of an aggregate is read back in one way only. -/
theorem aggregate_prefix (es1 es2 : List redisReply) (s1 s2 : List Char)
    (h : Nat.toDigits 10 es1.length ++ '\r' :: '\n' :: (redisfmtElements es1).data ++ s1 =
      Nat.toDigits 10 es2.length ++ '\r' :: '\n' :: (redisfmtElements es2).data ++ s2) :
    es1.length = es2.length ∧
      (redisfmtElements es1).data ++ s1 = (redisfmtElements es2).data ++ s2 := by
  simp only [List.append_assoc, List.cons_append] at h
  obtain ⟨hl, hr⟩ := toDigits_delimited _ _ _ _ h
  simp only [List.cons.injEq, true_and] at hr
  exact ⟨hl, hr⟩

mutual
/-- The wire form of a plain reply is self-delimiting: a text that begins with
it begins with the wire form of no other plain reply, up to the truth values
of BOOL nodes. -/
theorem redisfmt_prefix : ∀ (r1 r2 : redisReply) (s1 s2 : List Char),
    r1.plain = true → r2.plain = true →
    (redisfmt r1).data ++ s1 = (redisfmt r2).data ++ s2 →
    r1.byValue = r2.byValue ∧ s1 = s2
  | .string a, r2, s1, s2, _, h2, h => by
    cases r2 with
    | string b =>
      rw [redisfmt_string, redisfmt_string] at h
      simp only [List.cons_append, List.cons.injEq, true_and, List.append_assoc] at h
      obtain ⟨hl, hr⟩ := toDigits_delimited _ _ _ _ h
      simp only [List.cons.injEq, true_and] at hr
      obtain ⟨hd, hrest⟩ := List.append_inj hr hl
      simp only [List.cons.injEq, true_and] at hrest
      have hab : a = b := String.ext hd
      exact ⟨by rw [hab], hrest⟩
    | nil =>
      rw [redisfmt_string, redisfmt_nil] at h
      simp only [List.cons_append, List.cons.injEq, true_and, List.append_assoc] at h
      exact absurd h (toDigits_not_minus _ _ _)
    | integer _ => simp [redisfmt_string, redisfmt_integer] at h
    | bool _ => simp [redisfmt_string, redisfmt_bool] at h
    | array _ => simp [redisfmt_string, redisfmt_array] at h
    | map _ => simp [redisfmt_string, redisfmt_map] at h
    | set _ => simp [redisfmt_string, redisfmt_set] at h
    | status _ => simp [redisReply.plain] at h2
    | error _ => simp [redisReply.plain] at h2
    | double _ => simp [redisReply.plain] at h2
  | .nil, r2, s1, s2, _, h2, h => by
    cases r2 with
    | string b =>
      rw [redisfmt_string, redisfmt_nil] at h
      simp only [List.cons_append, List.cons.injEq, true_and, List.append_assoc] at h
      exact absurd h.symm (toDigits_not_minus _ _ _)
    | nil =>
      rw [redisfmt_nil] at h
      exact ⟨rfl, List.append_cancel_left h⟩
    | integer _ => simp [redisfmt_nil, redisfmt_integer] at h
    | bool _ => simp [redisfmt_nil, redisfmt_bool] at h
    | array _ => simp [redisfmt_nil, redisfmt_array] at h
    | map _ => simp [redisfmt_nil, redisfmt_map] at h
    | set _ => simp [redisfmt_nil, redisfmt_set] at h
    | status _ => simp [redisReply.plain] at h2
    | error _ => simp [redisReply.plain] at h2
    | double _ => simp [redisReply.plain] at h2
  | .integer n, r2, s1, s2, _, h2, h => by
    cases r2 with
    | integer m =>
      rw [redisfmt_integer, redisfmt_integer] at h
      simp only [List.cons_append, List.cons.injEq, true_and, List.append_assoc] at h
      obtain ⟨hl, hr⟩ := toString_int_delimited _ _ _ _ h
      simp only [List.cons.injEq, true_and, List.nil_append] at hr
      exact ⟨by rw [hl], hr⟩
    | string _ => simp [redisfmt_string, redisfmt_integer] at h
    | nil => simp [redisfmt_nil, redisfmt_integer] at h
    | bool _ => simp [redisfmt_integer, redisfmt_bool] at h
    | array _ => simp [redisfmt_integer, redisfmt_array] at h
    | map _ => simp [redisfmt_integer, redisfmt_map] at h
    | set _ => simp [redisfmt_integer, redisfmt_set] at h
    | status _ => simp [redisReply.plain] at h2
    | error _ => simp [redisReply.plain] at h2
    | double _ => simp [redisReply.plain] at h2
  | .bool n, r2, s1, s2, _, h2, h => by
    cases r2 with
    | bool m =>
      rw [redisfmt_bool, redisfmt_bool] at h
      simp only [List.cons_append, List.cons.injEq, true_and, List.nil_append] at h
      refine ⟨?_, h.2⟩
      by_cases hn : n = 0 <;> by_cases hm : m = 0 <;>
        simp [hn, hm, redisReply.byValue] at h ⊢
    | string _ => simp [redisfmt_string, redisfmt_bool] at h
    | nil => simp [redisfmt_nil, redisfmt_bool] at h
    | integer _ => simp [redisfmt_integer, redisfmt_bool] at h
    | array _ => simp [redisfmt_bool, redisfmt_array] at h
    | map _ => simp [redisfmt_bool, redisfmt_map] at h
    | set _ => simp [redisfmt_bool, redisfmt_set] at h
    | status _ => simp [redisReply.plain] at h2
    | error _ => simp [redisReply.plain] at h2
    | double _ => simp [redisReply.plain] at h2
  | .array es1, r2, s1, s2, h1, h2, h => by
    cases r2 with
    | array es2 =>
      rw [redisfmt_array, redisfmt_array] at h
      simp only [List.cons_append, List.cons.injEq, true_and] at h
      obtain ⟨hl, hr⟩ := aggregate_prefix es1 es2 s1 s2 (by simpa using h)
      simp only [redisReply.plain] at h1 h2
      obtain ⟨he, hs⟩ := redisfmtElements_prefix es1 es2 s1 s2 h1 h2 hl hr
      exact ⟨by simp [redisReply.byValue, he], hs⟩
    | string _ => simp [redisfmt_string, redisfmt_array] at h
    | nil => simp [redisfmt_nil, redisfmt_array] at h
    | integer _ => simp [redisfmt_integer, redisfmt_array] at h
    | bool _ => simp [redisfmt_bool, redisfmt_array] at h
    | map _ => simp [redisfmt_array, redisfmt_map] at h
    | set _ => simp [redisfmt_array, redisfmt_set] at h
    | status _ => simp [redisReply.plain] at h2
    | error _ => simp [redisReply.plain] at h2
    | double _ => simp [redisReply.plain] at h2
  | .map es1, r2, s1, s2, h1, h2, h => by
    cases r2 with
    | map es2 =>
      rw [redisfmt_map, redisfmt_map] at h
      simp only [List.cons_append, List.cons.injEq, true_and] at h
      obtain ⟨hl, hr⟩ := aggregate_prefix es1 es2 s1 s2 (by simpa using h)
      simp only [redisReply.plain] at h1 h2
      obtain ⟨he, hs⟩ := redisfmtElements_prefix es1 es2 s1 s2 h1 h2 hl hr
      exact ⟨by simp [redisReply.byValue, he], hs⟩
    | string _ => simp [redisfmt_string, redisfmt_map] at h
    | nil => simp [redisfmt_nil, redisfmt_map] at h
    | integer _ => simp [redisfmt_integer, redisfmt_map] at h
    | bool _ => simp [redisfmt_bool, redisfmt_map] at h
    | array _ => simp [redisfmt_array, redisfmt_map] at h
    | set _ => simp [redisfmt_map, redisfmt_set] at h
    | status _ => simp [redisReply.plain] at h2
    | error _ => simp [redisReply.plain] at h2
    | double _ => simp [redisReply.plain] at h2
  | .set es1, r2, s1, s2, h1, h2, h => by
    cases r2 with
    | set es2 =>
      rw [redisfmt_set, redisfmt_set] at h
      simp only [List.cons_append, List.cons.injEq, true_and] at h
      obtain ⟨hl, hr⟩ := aggregate_prefix es1 es2 s1 s2 (by simpa using h)
      simp only [redisReply.plain] at h1 h2
      obtain ⟨he, hs⟩ := redisfmtElements_prefix es1 es2 s1 s2 h1 h2 hl hr
      exact ⟨by simp [redisReply.byValue, he], hs⟩
    | string _ => simp [redisfmt_string, redisfmt_set] at h
    | nil => simp [redisfmt_nil, redisfmt_set] at h
    | integer _ => simp [redisfmt_integer, redisfmt_set] at h
    | bool _ => simp [redisfmt_bool, redisfmt_set] at h
    | array _ => simp [redisfmt_array, redisfmt_set] at h
    | map _ => simp [redisfmt_map, redisfmt_set] at h
    | status _ => simp [redisReply.plain] at h2
    | error _ => simp [redisReply.plain] at h2
    | double _ => simp [redisReply.plain] at h2
  | .status _, _, _, _, h1, _, _ => by simp [redisReply.plain] at h1
  | .error _, _, _, _, h1, _, _ => by simp [redisReply.plain] at h1
  | .double _, _, _, _, h1, _, _ => by simp [redisReply.plain] at h1
/-- The wire forms of as many plain replies, one after the other, are read back
in one way only. -/
theorem redisfmtElements_prefix : ∀ (es1 es2 : List redisReply) (s1 s2 : List Char),
    plainElements es1 = true → plainElements es2 = true → es1.length = es2.length →
    (redisfmtElements es1).data ++ s1 = (redisfmtElements es2).data ++ s2 →
    byValueElements es1 = byValueElements es2 ∧ s1 = s2
  | [], [], s1, s2, _, _, _, h => ⟨rfl, by simpa [redisfmtElements] using h⟩
  | [], _ :: _, _, _, _, _, hl, _ => by simp at hl
  | _ :: _, [], _, _, _, _, hl, _ => by simp at hl
  | e1 :: es1, e2 :: es2, s1, s2, h1, h2, hl, h => by
    rw [redisfmtElements_cons, redisfmtElements_cons, List.append_assoc, List.append_assoc] at h
    simp only [plainElements, Bool.and_eq_true] at h1 h2
    obtain ⟨he, hrest⟩ := redisfmt_prefix e1 e2 _ _ h1.1 h2.1 h
    obtain ⟨hes, hs⟩ := redisfmtElements_prefix es1 es2 s1 s2 h1.2 h2.2
      (by simpa using hl) hrest
    exact ⟨by simp [byValueElements, he, hes], hs⟩
end

/-- C26: `redisfmt` is injective on replies built from STRING, INTEGER, NIL,
BOOL and ARRAY, MAP or SET nodes, with BOOL compared by truth value, and each
encoding is self-delimiting: when the encoding of one such reply followed by
any text equals the encoding of another followed by any text, the replies are
equal and so are the texts (with empty texts: equal encodings, equal replies);
and a nil reply and an empty string encode differently. -/
theorem redisfmt_injective (r1 r2 : redisReply) (s1 s2 : String) (h1 : r1.plain = true)
    (h2 : r2.plain = true) (h : redisfmt r1 ++ s1 = redisfmt r2 ++ s2) :
    r1.byValue = r2.byValue ∧ s1 = s2 ∧
      redisfmt redisReply.nil ≠ redisfmt (redisReply.string "") := by
  have hd := congrArg String.data h
  rw [String.data_append, String.data_append] at hd
  obtain ⟨hr, hs⟩ := redisfmt_prefix r1 r2 s1.data s2.data h1 h2 hd
  exact ⟨hr, String.ext hs, by decide⟩

/-- C26 at two arrays that differ only in the integer of a true BOOL node. -/
theorem redisfmt_injective_witness :
    (redisReply.array [redisReply.nil, redisReply.string "", redisReply.bool 2,
        redisReply.integer (-5)]).plain = true ∧
      (redisReply.array [redisReply.nil, redisReply.string "", redisReply.bool 1,
        redisReply.integer (-5)]).plain = true ∧
      redisfmt (redisReply.array [redisReply.nil, redisReply.string "", redisReply.bool 2,
          redisReply.integer (-5)]) ++ "+OK" =
        redisfmt (redisReply.array [redisReply.nil, redisReply.string "", redisReply.bool 1,
          redisReply.integer (-5)]) ++ "+OK" ∧
      ((redisReply.array [redisReply.nil, redisReply.string "", redisReply.bool 2,
          redisReply.integer (-5)]).byValue =
        (redisReply.array [redisReply.nil, redisReply.string "", redisReply.bool 1,
          redisReply.integer (-5)]).byValue ∧ "+OK" = "+OK" ∧
        redisfmt redisReply.nil ≠ redisfmt (redisReply.string "")) :=
  ⟨by decide, by decide, by decide,
   redisfmt_injective _ _ "+OK" "+OK" (by decide) (by decide) (by decide)⟩

/-! ## The listing of help texts -/

/-- The test of one node, by whether the node is still to be printed. -/
theorem searchStep_eq (prev acc : Option __pmHashNode) (tp : __pmHashNode) :
    searchStep prev acc tp =
      if above prev tp = false then acc
      else if (match acc with
          | none => true
          | some t => decide (tp.key < t.key)) then some tp
      else acc := by
  unfold searchStep above
  cases prev with
  | none => simp
  | some p =>
    by_cases h : p.key < tp.key
    · have h2 : ¬ tp.key ≤ p.key := by omega
      simp [h, h2]
    · have h2 : tp.key ≤ p.key := by omega
      simp [h, h2]

/-- The search of a table keeps a node that is still to be printed and has the
lowest identifier of all such nodes, if there is any. -/
theorem search_foldl (prev : Option __pmHashNode) (nodes : List __pmHashNode)
    (acc : Option __pmHashNode) :
    (nodes.foldl (searchStep prev) acc = none → acc = none ∧ remaining prev nodes = []) ∧
      ∀ x, nodes.foldl (searchStep prev) acc = some x →
        (acc = some x ∨ x ∈ remaining prev nodes) ∧ (∀ a, acc = some a → x.key ≤ a.key) ∧
          ∀ y ∈ remaining prev nodes, x.key ≤ y.key := by
  induction nodes generalizing acc with
  | nil =>
    refine ⟨fun h => ⟨h, rfl⟩, fun x h => ⟨Or.inl h, ?_, ?_⟩⟩
    · intro a ha
      simp only [List.foldl_nil] at h
      rw [h] at ha
      cases ha
      exact Nat.le_refl _
    · intro y hy
      simp [remaining] at hy
  | cons tp rest ih =>
    simp only [List.foldl_cons, searchStep_eq]
    by_cases hab : above prev tp = false
    · have hrem : remaining prev (tp :: rest) = remaining prev rest := by
        simp [remaining, List.filter_cons, hab]
      simp only [hab, if_true, hrem]
      exact ih acc
    · have hab2 : above prev tp = true := by simpa using hab
      have hrem : remaining prev (tp :: rest) = tp :: remaining prev rest := by
        simp [remaining, List.filter_cons, hab2]
      simp only [hab, if_false, hrem]
      by_cases hlow : (match acc with
          | none => true
          | some t => decide (tp.key < t.key)) = true
      · simp only [hlow, if_true]
        obtain ⟨ih1, ih2⟩ := ih (some tp)
        refine ⟨fun h => ?_, fun x h => ?_⟩
        · have := (ih1 h).1
          cases this
        · obtain ⟨hx, hle, hall⟩ := ih2 x h
          have hxt : x.key ≤ tp.key := hle tp rfl
          refine ⟨Or.inr ?_, ?_, ?_⟩
          · rcases hx with hx | hx
            · cases hx
              exact List.mem_cons_self _ _
            · exact List.mem_cons_of_mem _ hx
          · intro a ha
            subst ha
            simp only [decide_eq_true_eq] at hlow
            omega
          · intro y hy
            rcases List.mem_cons.1 hy with hy | hy
            · rw [hy]
              exact hxt
            · exact hall y hy
      · simp only [hlow, if_false]
        obtain ⟨ih1, ih2⟩ := ih acc
        cases hacc : acc with
        | none => simp [hacc] at hlow
        | some a0 =>
          have hge : a0.key ≤ tp.key := by
            simp only [hacc, decide_eq_true_eq] at hlow
            omega
          refine ⟨fun h => ?_, fun x h => ?_⟩
          · have := (ih1 (hacc ▸ h)).1
            rw [hacc] at this
            cases this
          · obtain ⟨hx, hle, hall⟩ := ih2 x (hacc ▸ h)
            have hxa : x.key ≤ a0.key := hle a0 hacc
            refine ⟨?_, ?_, ?_⟩
            · rcases hx with hx | hx
              · exact Or.inl (hacc ▸ hx)
              · exact Or.inr (List.mem_cons_of_mem _ hx)
            · intro a ha
              cases ha
              exact hxa
            · intro y hy
              rcases List.mem_cons.1 hy with hy | hy
              · rw [hy]
                omega
              · exact hall y hy

/-- A list without repetition whose members all equal `a` and that holds `a`
is the list of `a` alone. -/
theorem eq_singleton_of_nodup (l : List __pmHashNode) (a : __pmHashNode) (hn : l.Nodup)
    (hall : ∀ x ∈ l, x = a) (ha : a ∈ l) : l = [a] := by
  cases l with
  | nil => cases ha
  | cons x xs =>
    have hx : x = a := hall x (List.mem_cons_self _ _)
    cases xs with
    | nil => rw [hx]
    | cons y ys =>
      have hy : y = a := hall y (List.mem_cons_of_mem _ (List.mem_cons_self _ _))
      rw [hx, hy] at hn
      simp at hn

/-- Once the node found by the search is printed, the nodes still to be printed
are the others: those with a higher identifier. -/
theorem remaining_next (nodes : List __pmHashNode)
    (hu : (nodes.map fun tp => tp.key).Nodup) (prev : Option __pmHashNode) (a : __pmHashNode)
    (hs : nodes.foldl (searchStep prev) none = some a) :
    (remaining prev nodes).Perm (a :: remaining (some a) nodes) ∧
      (∀ y ∈ remaining prev nodes, a.key ≤ y.key) ∧
      ∀ y ∈ remaining (some a) nodes, a.key < y.key := by
  obtain ⟨hx, _, hmin⟩ := (search_foldl prev nodes none).2 a hs
  have ha : a ∈ remaining prev nodes := hx.resolve_left (by simp)
  have haT : a ∈ nodes := (List.mem_filter.1 ha).1
  have habove : above prev a = true := (List.mem_filter.1 ha).2
  have hf : (remaining prev nodes).filter (above (some a)) = remaining (some a) nodes := by
    unfold remaining
    rw [List.filter_filter]
    apply List.filter_congr
    intro x _
    by_cases hax : a.key < x.key
    · have : above prev x = true := by
        cases prev with
        | none => rfl
        | some p =>
          simp only [above, decide_eq_true_eq] at habove ⊢
          omega
      rw [this, Bool.and_true]
    · simp [above, hax]
  have hg : (remaining prev nodes).filter (fun x => !above (some a) x) = [a] := by
    apply eq_singleton_of_nodup
    · exact ((List.Nodup.of_map _ hu).filter _).filter _
    · intro x hx
      obtain ⟨hxR, hna⟩ := List.mem_filter.1 hx
      have hxT : x ∈ nodes := (List.mem_filter.1 hxR).1
      have h1 : a.key ≤ x.key := hmin x hxR
      have h2 : ¬ a.key < x.key := by simpa [above] using hna
      exact List.inj_on_of_nodup_map hu hxT haT (by omega)
    · exact List.mem_filter.2 ⟨ha, by simp [above]⟩
  refine ⟨?_, hmin, ?_⟩
  · have hp := (List.filter_append_perm (above (some a)) (remaining prev nodes)).symm
    rw [hf, hg] at hp
    exact hp.trans (List.perm_append_singleton a _)
  · intro y hy
    have := (List.mem_filter.1 hy).2
    simpa [above] using this

/-- The search of a class runs over the table of the class. -/
theorem searchClass_eq (l_hashtext : HelpTexts) (type class_ : Nat)
    (prev : Option __pmHashNode) :
    searchClass l_hashtext type class_ prev =
      (helpTable l_hashtext type class_).foldl (searchStep prev) none := by
  unfold searchClass helpTable
  cases l_hashtext (type ||| class_) <;> rfl

/-- Putting one round of the loop together with the rounds that follow. -/
theorem helpText_assemble (out rest r0 r1 r0n r1n : List HelpEntry)
    (hrest : rest.Perm (r0n ++ r1n)) (hperm : (out ++ (r0n ++ r1n)).Perm (r0 ++ r1))
    (hout : out.Pairwise HelpEntry.before) (hpair : rest.Pairwise HelpEntry.before)
    (hcross : ∀ p ∈ out, ∀ r ∈ r0n ++ r1n, HelpEntry.before p r) :
    (out ++ rest).Perm (r0 ++ r1) ∧ (out ++ rest).Pairwise HelpEntry.before := by
  refine ⟨(List.Perm.append_left out hrest).trans hperm, ?_⟩
  rw [List.pairwise_append]
  exact ⟨hout, hpair, fun p hp r hr => hcross p hp r (hrest.mem_iff.1 hr)⟩

/-- An entry comes before every entry of the same type with a higher
identifier. -/
theorem before_of_lt (type c1 c2 : Nat) (a b : __pmHashNode) (h : a.key < b.key) :
    HelpEntry.before (helpEntry type c1 a) (helpEntry type c2 b) :=
  Or.inr ⟨rfl, Or.inl h⟩

/-- The loop for one type ends, and prints the entries still to be printed,
each once, in the order of the listing. -/
theorem helpTextLoop_spec (l_hashtext : HelpTexts) (type : Nat)
    (hu0 : uniqueIdents l_hashtext type PM_TEXT_ONELINE)
    (hu1 : uniqueIdents l_hashtext type PM_TEXT_HELP) (fuel : Nat)
    (prev0 prev1 : Option __pmHashNode)
    (hfuel : (remaining prev0 (helpTable l_hashtext type PM_TEXT_ONELINE)).length
      + (remaining prev1 (helpTable l_hashtext type PM_TEXT_HELP)).length < fuel) :
    ∃ out, helpTextLoop l_hashtext type fuel prev0 prev1 = some out ∧
      out.Perm
        ((remaining prev0 (helpTable l_hashtext type PM_TEXT_ONELINE)).map
            (helpEntry type PM_TEXT_ONELINE)
          ++ (remaining prev1 (helpTable l_hashtext type PM_TEXT_HELP)).map
            (helpEntry type PM_TEXT_HELP)) ∧
      out.Pairwise HelpEntry.before := by
  induction fuel generalizing prev0 prev1 with
  | zero => omega
  | succ fuel ih =>
    simp only [helpTextLoop, searchClass_eq]
    cases h0 : (helpTable l_hashtext type PM_TEXT_ONELINE).foldl (searchStep prev0) none with
    | none =>
      have hr0 := ((search_foldl prev0 _ none).1 h0).2
      cases h1 : (helpTable l_hashtext type PM_TEXT_HELP).foldl (searchStep prev1) none with
      | none =>
        have hr1 := ((search_foldl prev1 _ none).1 h1).2
        refine ⟨[], by simp, ?_, List.Pairwise.nil⟩
        rw [hr0, hr1]
        exact List.Perm.refl _
      | some b =>
        obtain ⟨hp1, hmin1, hab1⟩ := remaining_next _ hu1 prev1 b h1
        obtain ⟨rest, hrest, hperm, hpair⟩ := ih prev0 (some b) (by
          have := hp1.length_eq
          simp only [List.length_cons] at this
          omega)
        refine ⟨[helpEntry type PM_TEXT_HELP b] ++ rest, ?_, ?_⟩
        · simp [printsItem, printItem, hrest]
        · apply helpText_assemble _ _ _ _ _ _ hperm
          · rw [hr0]
            simpa using hp1.symm.map (helpEntry type PM_TEXT_HELP)
          · simp
          · exact hpair
          · intro p hp r hr
            simp only [List.mem_singleton] at hp
            subst hp
            rw [hr0] at hr
            simp only [List.map_nil, List.nil_append, List.mem_map] at hr
            obtain ⟨y, hy, rfl⟩ := hr
            exact before_of_lt _ _ _ _ _ (hab1 y hy)
    | some a =>
      obtain ⟨hp0, hmin0, hab0⟩ := remaining_next _ hu0 prev0 a h0
      cases h1 : (helpTable l_hashtext type PM_TEXT_HELP).foldl (searchStep prev1) none with
      | none =>
        have hr1 := ((search_foldl prev1 _ none).1 h1).2
        obtain ⟨rest, hrest, hperm, hpair⟩ := ih (some a) prev1 (by
          have := hp0.length_eq
          simp only [List.length_cons] at this
          omega)
        refine ⟨[helpEntry type PM_TEXT_ONELINE a] ++ rest, ?_, ?_⟩
        · simp [printsItem, printItem, hrest]
        · apply helpText_assemble _ _ _ _ _ _ hperm
          · rw [hr1]
            simpa using hp0.symm.map (helpEntry type PM_TEXT_ONELINE)
          · simp
          · exact hpair
          · intro p hp r hr
            simp only [List.mem_singleton] at hp
            subst hp
            rw [hr1] at hr
            simp only [List.map_nil, List.append_nil, List.mem_map] at hr
            obtain ⟨y, hy, rfl⟩ := hr
            exact before_of_lt _ _ _ _ _ (hab0 y hy)
      | some b =>
        obtain ⟨hp1, hmin1, hab1⟩ := remaining_next _ hu1 prev1 b h1
        have hl0 := hp0.length_eq
        have hl1 := hp1.length_eq
        simp only [List.length_cons] at hl0 hl1
        rcases Nat.lt_trichotomy a.key b.key with hlt | heq | hgt
        · obtain ⟨rest, hrest, hperm, hpair⟩ := ih (some a) prev1 (by omega)
          refine ⟨[helpEntry type PM_TEXT_ONELINE a] ++ rest, ?_, ?_⟩
          · have h2 : ¬ b.key ≤ a.key := by omega
            simp [printsItem, printItem, hrest, Nat.le_of_lt hlt, h2]
          · apply helpText_assemble _ _ _ _ _ _ hperm
            · simpa using (hp0.symm.map (helpEntry type PM_TEXT_ONELINE)).append_right _
            · simp
            · exact hpair
            · intro p hp r hr
              simp only [List.mem_singleton] at hp
              subst hp
              simp only [List.mem_append, List.mem_map] at hr
              rcases hr with ⟨y, hy, rfl⟩ | ⟨y, hy, rfl⟩
              · exact before_of_lt _ _ _ _ _ (hab0 y hy)
              · exact before_of_lt _ _ _ _ _ (by have := hmin1 y hy; omega)
        · obtain ⟨rest, hrest, hperm, hpair⟩ := ih (some a) (some b) (by omega)
          refine ⟨[helpEntry type PM_TEXT_ONELINE a, helpEntry type PM_TEXT_HELP b] ++ rest,
            ?_, ?_⟩
          · simp [printsItem, printItem, hrest, heq]
          · apply helpText_assemble _ _ _ _ _ _ hperm
            · have e0 := hp0.symm.map (helpEntry type PM_TEXT_ONELINE)
              have e1 := hp1.symm.map (helpEntry type PM_TEXT_HELP)
              have := e0.append e1
              simp only [List.map_cons, List.cons_append] at this
              refine List.Perm.trans ?_ this
              simp only [List.cons_append, List.nil_append]
              exact List.Perm.cons _ List.perm_middle.symm
            · simp only [List.pairwise_cons, List.mem_singleton, forall_eq, List.not_mem_nil,
                false_implies, implies_true, List.Pairwise.nil, and_true]
              exact Or.inr ⟨rfl, Or.inr ⟨heq, show PM_TEXT_ONELINE < PM_TEXT_HELP by decide⟩⟩
            · exact hpair
            · intro p hp r hr
              simp only [List.mem_append, List.mem_map] at hr
              simp only [List.mem_cons, List.mem_singleton, List.not_mem_nil, or_false] at hp
              rcases hp with rfl | rfl
              · rcases hr with ⟨y, hy, rfl⟩ | ⟨y, hy, rfl⟩
                · exact before_of_lt _ _ _ _ _ (hab0 y hy)
                · exact before_of_lt _ _ _ _ _ (by have := hab1 y hy; omega)
              · rcases hr with ⟨y, hy, rfl⟩ | ⟨y, hy, rfl⟩
                · exact before_of_lt _ _ _ _ _ (by have := hab0 y hy; omega)
                · exact before_of_lt _ _ _ _ _ (hab1 y hy)
        · obtain ⟨rest, hrest, hperm, hpair⟩ := ih prev0 (some b) (by omega)
          refine ⟨[helpEntry type PM_TEXT_HELP b] ++ rest, ?_, ?_⟩
          · have h2 : ¬ a.key ≤ b.key := by omega
            simp [printsItem, printItem, hrest, Nat.le_of_lt hgt, h2]
          · apply helpText_assemble _ _ _ _ _ _ hperm
            · have e1 := hp1.symm.map (helpEntry type PM_TEXT_HELP)
              simp only [List.map_cons] at e1
              refine List.Perm.trans ?_ (List.Perm.append_left _ e1)
              simp only [List.cons_append, List.nil_append]
              exact List.perm_middle.symm
            · simp
            · exact hpair
            · intro p hp r hr
              simp only [List.mem_singleton] at hp
              subst hp
              simp only [List.mem_append, List.mem_map] at hr
              rcases hr with ⟨y, hy, rfl⟩ | ⟨y, hy, rfl⟩
              · exact before_of_lt _ _ _ _ _ (by have := hmin0 y hy; omega)
              · exact before_of_lt _ _ _ _ _ (hab1 y hy)

/-- With nothing printed yet, every node of a table is still to be printed. -/
theorem remaining_none (nodes : List __pmHashNode) : remaining none nodes = nodes := by
  simp [remaining, above]

/-- C25: when the identifiers are unique within each of the four tables (type
PMID or InDom, class one-line or full help), `dumpHelpText` ends within as many
rounds per type as there are entries, plus one, and what it prints is every
help-text entry exactly once, ordered by type (PMID before InDom), then by
increasing identifier, then by class (one-line before full help). -/
theorem dumpHelpText_sorted (l_hashtext : HelpTexts) (fuel : Nat)
    (h1 : uniqueIdents l_hashtext PM_TEXT_PMID PM_TEXT_ONELINE)
    (h2 : uniqueIdents l_hashtext PM_TEXT_PMID PM_TEXT_HELP)
    (h3 : uniqueIdents l_hashtext PM_TEXT_INDOM PM_TEXT_ONELINE)
    (h4 : uniqueIdents l_hashtext PM_TEXT_INDOM PM_TEXT_HELP)
    (hfuel : (allHelpEntries l_hashtext).length < fuel) :
    ∃ out, dumpHelpText l_hashtext fuel = some out ∧ out.Perm (allHelpEntries l_hashtext) ∧
      out.Pairwise HelpEntry.before := by
  simp only [allHelpEntries, helpEntries, List.length_append, List.length_map] at hfuel
  obtain ⟨a, ha, hpa, hsa⟩ := helpTextLoop_spec l_hashtext PM_TEXT_PMID h1 h2 fuel none none
    (by simp only [remaining_none]; omega)
  obtain ⟨b, hb, hpb, hsb⟩ := helpTextLoop_spec l_hashtext PM_TEXT_INDOM h3 h4 fuel none none
    (by simp only [remaining_none]; omega)
  simp only [remaining_none] at hpa hpb
  refine ⟨a ++ b, by simp [dumpHelpText, ha, hb], ?_, ?_⟩
  · simp only [allHelpEntries, helpEntries]
    rw [List.append_assoc]
    exact hpa.append hpb
  · rw [List.pairwise_append]
    refine ⟨hsa, hsb, fun x hx y hy => Or.inl ?_⟩
    have hxt : x.type = PM_TEXT_PMID := by
      have := hpa.mem_iff.1 hx
      simp only [List.mem_append, List.mem_map] at this
      rcases this with ⟨_, _, rfl⟩ | ⟨_, _, rfl⟩ <;> rfl
    have hyt : y.type = PM_TEXT_INDOM := by
      have := hpb.mem_iff.1 hy
      simp only [List.mem_append, List.mem_map] at this
      rcases this with ⟨_, _, rfl⟩ | ⟨_, _, rfl⟩ <;> rfl
    rw [hxt, hyt]
    decide

/-- C25 on the sample archive, with six rounds allowed for each type. -/
theorem dumpHelpText_sorted_witness :
    uniqueIdents sampleHelpTexts PM_TEXT_PMID PM_TEXT_ONELINE ∧
      uniqueIdents sampleHelpTexts PM_TEXT_PMID PM_TEXT_HELP ∧
      uniqueIdents sampleHelpTexts PM_TEXT_INDOM PM_TEXT_ONELINE ∧
      uniqueIdents sampleHelpTexts PM_TEXT_INDOM PM_TEXT_HELP ∧
      (allHelpEntries sampleHelpTexts).length < 6 ∧
      ∃ out, dumpHelpText sampleHelpTexts 6 = some out ∧
        out.Perm (allHelpEntries sampleHelpTexts) ∧ out.Pairwise HelpEntry.before :=
  ⟨by decide, by decide, by decide, by decide, by decide,
   dumpHelpText_sorted sampleHelpTexts 6 (by decide) (by decide) (by decide) (by decide)
     (by decide)⟩

/-- What `dumpHelpText` prints for the sample archive. -/
theorem dumpHelpText_sample :
    dumpHelpText sampleHelpTexts 6 =
      some [{ type := 4, ident := 1, class_ := 1, text := "one" },
            { type := 4, ident := 1, class_ := 2, text := "ONE" },
            { type := 4, ident := 2, class_ := 2, text := "TWO" },
            { type := 4, ident := 3, class_ := 1, text := "three" },
            { type := 8, ident := 0, class_ := 1, text := "zero" }] := by
  decide

end Pcp
